import Mathlib

/-!
# Dispatch merging in `SchedEntry.cpp` (TAO scheduling service)

A shallow embedding of `TAO/orbsvcs/orbsvcs/Sched/SchedEntry.cpp`:
period arithmetic, `Dispatch_Entry`, `Dispatch_Proxy_Iterator` and the
merge operations of `Task_Entry`.

Conventions of the embedding.

* `u_long` periods, frame offsets and call counts are natural numbers: the
  development covers executions in which no `u_long` wraps around. The
  times of a dispatch are the 32-bit member `low` of a `TimeBase::ulonglong`:
  the arrival and deadline that a merge stores in a new `Dispatch_Entry`
  are reduced modulo `2 ^ 32` (`Time_low`), as the initialisers
  `arrival_tb = {..., 0}` and `deadline_tb = {..., 0}` do. The laxity of
  `Dispatch_Entry::operator <` is a wrapped (signed 32-bit) quantity, as in
  the source.
* `Dispatch_Proxy_Iterator` computes `number_of_calls_ - 1` as a difference
  of natural numbers, which is the value of the source for proxies with at
  least one call.
* Objects that the C++ code reaches through references or pointers are
  reached through indices: a `Task_Entry` is identified by its index in
  `Scheduler_State.tasks`, a `Dispatch_Entry` by its `dispatch_id`.
  A null pointer in a set of link pointers is `none`.
* `ACE_NEW_RETURN` and the container insertions never fail.
* Loops whose termination depends on the data, and the mutual recursion of
  `reframe` and `merge_frames`, take a `fuel` argument and yield `none`
  when it runs out; `none` also stands for a division by zero.
* A task is assumed not to be its own caller (the scheduler only merges
  acyclic graphs): the caller's dispatch set is read once when a merge of
  that caller starts.
-/

namespace SchedEntry

/-! ## Helper functions -/

/-- Euclid's recursion `gcd (x, y) = (y == 0) ? x : gcd (y, x % y)`, run for at
most `fuel` calls. -/
def gcd_loop : Nat → Nat → Nat → Nat
  | 0, x, _ => x
  | fuel + 1, x, y => if y = 0 then x else gcd_loop fuel y (x % y)

/-- `gcd (u_long x, u_long y)`: the second argument strictly decreases along the
recursion, so `y + 1` calls are enough (see `gcd_unfold`). -/
def gcd (x y : Nat) : Nat := gcd_loop (y + 1) x y

/-- `minimum_frame_size (u_long period1, u_long period2)`. -/
def minimum_frame_size (period1 period2 : Nat) : Nat :=
  if 0 = period1 then period2
  else if 0 = period2 then period1
  else
    let greatest_common_divisor := gcd period1 period2
    if greatest_common_divisor = 1 then period1 * period2
    else if greatest_common_divisor = period1 then period2
    else if greatest_common_divisor = period2 then period1
    else (period1 * period2) / greatest_common_divisor

/-- `minimum_frame_size (u_long period1, u_long period2)` with `u_long` a `w`-bit
unsigned type: the product `period1 * period2` is taken modulo `2 ^ w`. The
arguments are meant to be below `2 ^ w`; `gcd` only takes remainders, which do
not overflow. -/
def minimum_frame_size_wrapped (w : Nat) (period1 period2 : Nat) : Nat :=
  if 0 = period1 then period2
  else if 0 = period2 then period1
  else
    let greatest_common_divisor := gcd period1 period2
    if greatest_common_divisor = 1 then (period1 * period2) % 2 ^ w
    else if greatest_common_divisor = period1 then period2
    else if greatest_common_divisor = period2 then period1
    else ((period1 * period2) % 2 ^ w) / greatest_common_divisor

/-! ## Data model -/

/-- `RtecScheduler::Info_Type`; `other` stands for any value that is none of the
three enumerators the switch of `merge_dispatches` names. -/
inductive Info_Type where
  | OPERATION
  | CONJUNCTION
  | DISJUNCTION
  | other (v : Nat)
  deriving DecidableEq

/-- `RtecScheduler::Dependency_Type`. -/
inductive Dependency_Type where
  | TWO_WAY_CALL
  | ONE_WAY_CALL
  deriving DecidableEq

/-- The fields of `RtecScheduler::RT_Info` that `SchedEntry.cpp` reads (times are
their `low` words). -/
structure RT_Info where
  period : Nat
  worst_case_execution_time : Nat
  importance : Int
  info_type : Info_Type
  deriving DecidableEq

/-- `Dispatch_Entry`. `task_entry` is the index of the owning `Task_Entry`;
`original_dispatch` is the id of another dispatch, `none` for a null pointer. -/
structure Dispatch_Entry where
  priority : Int
  OS_priority : Int
  dynamic_subpriority : Int
  static_subpriority : Int
  arrival : Nat
  deadline : Nat
  task_entry : Nat
  original_dispatch : Option Nat
  dispatch_id : Nat
  deriving DecidableEq

/-- `Dispatch_Entry_Link`: a handle on a `Dispatch_Entry`. -/
structure Dispatch_Entry_Link where
  dispatch_entry : Dispatch_Entry
  deriving DecidableEq

/-- `Task_Entry_Link`. `caller` and `called` are indices of `Task_Entry`s. -/
structure Task_Entry_Link where
  number_of_calls : Nat
  caller : Nat
  called : Nat
  dependency_type : Dependency_Type
  deriving DecidableEq

/-- `Task_Entry` (the members the merge operations use). The sets of link
pointers are lists in iteration order. -/
structure Task_Entry where
  rt_info : RT_Info
  effective_period : Nat
  dispatches : List Dispatch_Entry_Link
  calls : List (Option Task_Entry_Link)
  callers : List (Option Task_Entry_Link)

/-- The set of all dispatch entries handed to the merge operations, together with
the static counter `Dispatch_Entry::next_id_`. -/
structure Dispatch_Pool where
  dispatch_entries : List Dispatch_Entry
  next_id : Nat
  deriving DecidableEq

/-- The objects a scheduling pass works on. -/
structure Scheduler_State where
  tasks : Nat → Task_Entry
  pool : Dispatch_Pool

/-- `task_entry ().rt_info ()` of the task with the given index. -/
def Scheduler_State.rt_info (s : Scheduler_State) (i : Nat) : RT_Info :=
  (s.tasks i).rt_info

/-- What `reframe` and `merge_frames` return and leave in their reference
arguments. -/
structure Frames_Result where
  status : Int
  pool : Dispatch_Pool
  set : List Dispatch_Entry_Link
  period : Nat
  deriving DecidableEq

/-! ## Dispatch_Entry -/

/-- The value that the 32-bit member `low` of a `TimeBase::ulonglong` keeps of `t`:
the initialisers `arrival_tb = {arrival, 0}` and `deadline_tb = {deadline, 0}`
of the merge operations store a `u_long` in it. -/
def Time_low (t : Nat) : Nat := t % 2 ^ 32

/-- The constructor `Dispatch_Entry (arrival, deadline, priority, os_priority,
task_entry, original_dispatch)`: it takes the next id and increments the
counter. -/
def Dispatch_Entry.create (next_id : Nat) (arrival deadline : Nat)
    (priority os_priority : Int) (task_entry : Nat) (original_dispatch : Option Nat) :
    Dispatch_Entry × Nat :=
  ({ priority := priority
     OS_priority := os_priority
     dynamic_subpriority := 0
     static_subpriority := 0
     arrival := arrival
     deadline := deadline
     task_entry := task_entry
     original_dispatch := original_dispatch
     dispatch_id := next_id }, next_id + 1)

/-- The copy constructor `Dispatch_Entry (const Dispatch_Entry &d)`: every member
is copied but the id, which is the next id; the counter is incremented. -/
def Dispatch_Entry.copy (next_id : Nat) (d : Dispatch_Entry) : Dispatch_Entry × Nat :=
  ({ priority := d.priority
     OS_priority := d.OS_priority
     dynamic_subpriority := d.dynamic_subpriority
     static_subpriority := d.static_subpriority
     arrival := d.arrival
     deadline := d.deadline
     task_entry := d.task_entry
     original_dispatch := d.original_dispatch
     dispatch_id := next_id }, next_id + 1)

/-- Conversion of an integer to `ACE_INT32` (two's complement wrap). -/
def to_ACE_INT32 (n : Int) : Int := (n + 2 ^ 31) % 2 ^ 32 - 2 ^ 31

/-- `Dispatch_Entry::operator <`. -/
def Dispatch_Entry.lt (rt_info : Nat → RT_Info) (a d : Dispatch_Entry) : Bool :=
  if a.arrival ≠ d.arrival then decide (a.arrival < d.arrival)
  else if a.priority ≠ d.priority then decide (a.priority > d.priority)
  else
    let this_laxity :=
      to_ACE_INT32 ((a.deadline : Int) - ((rt_info a.task_entry).worst_case_execution_time : Int))
    let that_laxity :=
      to_ACE_INT32 ((d.deadline : Int) - ((rt_info d.task_entry).worst_case_execution_time : Int))
    if this_laxity ≠ that_laxity then decide (this_laxity < that_laxity)
    else decide ((rt_info a.task_entry).importance > (rt_info d.task_entry).importance)

/-- Modelled from the spec: `Dispatch_Entry_Link::operator <` (in `SchedEntry.i`,
not among the sources) orders links by the order of their dispatches. -/
def Dispatch_Entry_Link.lt (rt_info : Nat → RT_Info) (a d : Dispatch_Entry_Link) : Bool :=
  Dispatch_Entry.lt rt_info a.dispatch_entry d.dispatch_entry

/-! ## Containers -/

/-- Modelled from the spec: `ACE_Ordered_MultiSet::insert` (`ace/Containers`, not
among the sources). The set is a list in non-decreasing order, duplicates
permitted; the new item goes before the first item that is not less than it. -/
def Ordered_MultiSet.insert {α : Type} (lt : α → α → Bool) (x : α) : List α → List α
  | [] => [x]
  | y :: ys => if lt y x then y :: Ordered_MultiSet.insert lt x ys else x :: y :: ys

/-- Modelled from the spec: `ACE_Ordered_MultiSet_Iterator` (`ace/Containers`, not
among the sources): the set it walks and its current node, `none` for the
null node. -/
structure Ordered_MultiSet_Iterator (α : Type) where
  set : List α
  current : Option Nat

/-- Modelled from the spec: the iterator's constructor starts at the head. -/
def Ordered_MultiSet_Iterator.create {α : Type} (set : List α) : Ordered_MultiSet_Iterator α :=
  { set := set, current := if set.length = 0 then none else some 0 }

/-- Modelled from the spec: `first ()` moves to the head; 1 if there is one. -/
def Ordered_MultiSet_Iterator.first {α : Type} (it : Ordered_MultiSet_Iterator α) :
    Int × Ordered_MultiSet_Iterator α :=
  if it.set.length = 0 then (0, { it with current := none })
  else (1, { it with current := some 0 })

/-- Modelled from the spec: `last ()` moves to the tail; 1 if there is one. -/
def Ordered_MultiSet_Iterator.last {α : Type} (it : Ordered_MultiSet_Iterator α) :
    Int × Ordered_MultiSet_Iterator α :=
  if it.set.length = 0 then (0, { it with current := none })
  else (1, { it with current := some (it.set.length - 1) })

/-- Modelled from the spec: `advance ()` moves to the next node; 1 if there is
one. -/
def Ordered_MultiSet_Iterator.advance {α : Type} (it : Ordered_MultiSet_Iterator α) :
    Int × Ordered_MultiSet_Iterator α :=
  match it.current with
  | none => (0, it)
  | some i =>
    if i + 1 < it.set.length then (1, { it with current := some (i + 1) })
    else (0, { it with current := none })

/-- Modelled from the spec: `retreat ()` moves to the previous node; 1 if there
is one. -/
def Ordered_MultiSet_Iterator.retreat {α : Type} (it : Ordered_MultiSet_Iterator α) :
    Int × Ordered_MultiSet_Iterator α :=
  match it.current with
  | none => (0, it)
  | some 0 => (0, { it with current := none })
  | some (i + 1) => (1, { it with current := some i })

/-- Modelled from the spec: `done ()` holds at the null node. -/
def Ordered_MultiSet_Iterator.done {α : Type} (it : Ordered_MultiSet_Iterator α) : Bool :=
  it.current.isNone

/-- Modelled from the spec: `next (item)` yields the current item, if any. -/
def Ordered_MultiSet_Iterator.next {α : Type} (it : Ordered_MultiSet_Iterator α) : Option α :=
  match it.current with
  | none => none
  | some i => it.set.get? i

/-! ## Dispatch_Proxy_Iterator -/

/-- `Dispatch_Proxy_Iterator`. Its operations compute `number_of_calls_ - 1`, here
the subtraction of natural numbers: this is the value of the source for
`number_of_calls ≥ 1`, whereas for `number_of_calls = 0` the unsigned
subtraction of the source wraps around and this one gives 0, so the
operations `advance`, `last` and `retreat` stand for the source only on
proxies with at least one call. -/
structure Dispatch_Proxy_Iterator where
  number_of_calls : Nat
  current_call : Nat
  actual_frame_size : Nat
  virtual_frame_size : Nat
  current_frame_offset : Nat
  iter : Ordered_MultiSet_Iterator Dispatch_Entry_Link

namespace Dispatch_Proxy_Iterator

/-- `Dispatch_Proxy_Iterator::first (u_int sub_frame)`. -/
def first (p : Dispatch_Proxy_Iterator) (sub_frame : Nat) : Int × Dispatch_Proxy_Iterator :=
  if p.actual_frame_size * sub_frame ≥ p.virtual_frame_size then (0, p)
  else
    let r := p.iter.first
    (r.1, { p with
              current_call := 0
              current_frame_offset := p.actual_frame_size * sub_frame
              iter := r.2 })

/-- The constructor of `Dispatch_Proxy_Iterator`. -/
def create (set : List Dispatch_Entry_Link)
    (actual_frame_size virtual_frame_size number_of_calls starting_sub_frame : Nat) :
    Dispatch_Proxy_Iterator :=
  (first { number_of_calls := number_of_calls
           current_call := 0
           actual_frame_size := actual_frame_size
           virtual_frame_size := virtual_frame_size
           current_frame_offset := actual_frame_size * starting_sub_frame
           iter := Ordered_MultiSet_Iterator.create set } starting_sub_frame).2

/-- `Dispatch_Proxy_Iterator::last ()`, for `number_of_calls ≥ 1`. -/
def last (p : Dispatch_Proxy_Iterator) : Int × Dispatch_Proxy_Iterator :=
  let r := p.iter.first
  (r.1, { p with
            current_call := p.number_of_calls - 1
            current_frame_offset := p.virtual_frame_size - p.actual_frame_size
            iter := r.2 })

/-- Modelled from the spec: `Dispatch_Proxy_Iterator::done ()` (in `SchedEntry.i`,
not among the sources) is `done ()` of the inner iterator. -/
def done (p : Dispatch_Proxy_Iterator) : Bool := p.iter.done

/-- `Dispatch_Proxy_Iterator::advance ()`, for `number_of_calls ≥ 1`. -/
def advance (p : Dispatch_Proxy_Iterator) : Int × Dispatch_Proxy_Iterator :=
  if p.iter.done then (0, p)
  else if p.current_call < p.number_of_calls - 1 then
    (1, { p with current_call := p.current_call + 1 })
  else
    let p := { p with current_call := 0 }
    let r := p.iter.advance
    if r.1 = 0 then
      if p.current_frame_offset + p.actual_frame_size < p.virtual_frame_size then
        let r2 := r.2.first
        (r2.1, { p with
                   current_frame_offset := p.current_frame_offset + p.actual_frame_size
                   iter := r2.2 })
      else (0, { p with iter := r.2 })
    else (1, { p with iter := r.2 })

/-- `Dispatch_Proxy_Iterator::retreat ()`, for `number_of_calls ≥ 1`. -/
def retreat (p : Dispatch_Proxy_Iterator) : Int × Dispatch_Proxy_Iterator :=
  if p.iter.done then (0, p)
  else if p.current_call > 0 then
    (1, { p with current_call := p.current_call - 1 })
  else
    let p := { p with current_call := p.number_of_calls - 1 }
    let r := p.iter.retreat
    if r.1 = 0 then
      if p.current_frame_offset > 0 then
        let r2 := r.2.last
        (r2.1, { p with
                   current_frame_offset := p.current_frame_offset - p.actual_frame_size
                   iter := r2.2 })
      else (0, { p with iter := r.2 })
    else (1, { p with iter := r.2 })

/-- `Dispatch_Proxy_Iterator::arrival ()`. -/
def arrival (p : Dispatch_Proxy_Iterator) : Nat :=
  match p.iter.next with
  | none => 0
  | some link => link.dispatch_entry.arrival + p.current_frame_offset

/-- `Dispatch_Proxy_Iterator::deadline ()`. -/
def deadline (p : Dispatch_Proxy_Iterator) : Nat :=
  match p.iter.next with
  | none => 0
  | some link => link.dispatch_entry.deadline + p.current_frame_offset

/-- `Dispatch_Proxy_Iterator::priority ()`. -/
def priority (p : Dispatch_Proxy_Iterator) : Int :=
  match p.iter.next with
  | none => 0
  | some link => link.dispatch_entry.priority

/-- `Dispatch_Proxy_Iterator::OS_priority ()`. -/
def OS_priority (p : Dispatch_Proxy_Iterator) : Int :=
  match p.iter.next with
  | none => 0
  | some link => link.dispatch_entry.OS_priority

end Dispatch_Proxy_Iterator

/-! ## Task_Entry -/

/-- The body of the `for` loop of `merge_frames`, run until the proxy is done:
each position of the proxy yields a new `Dispatch_Entry` for `owner`, put into
the set of all dispatches and linked into `dest`. The arrival and the deadline
of the proxy go through `arrival_tb = {src_iter.arrival (), 0}` and
`deadline_tb = {src_iter.deadline (), 0}`, which keep their low 32 bits. -/
def merge_frames_loop (rt_info : Nat → RT_Info) (owner : Nat) :
    Nat → Dispatch_Proxy_Iterator → Int → Dispatch_Pool → List Dispatch_Entry_Link →
    Option (Int × Dispatch_Pool × List Dispatch_Entry_Link)
  | 0, _, _, _, _ => none
  | fuel + 1, src_iter, status, pool, dest =>
    if src_iter.done then some (status, pool, dest)
    else
      let e := Dispatch_Entry.create pool.next_id (Time_low src_iter.arrival)
        (Time_low src_iter.deadline) src_iter.priority src_iter.OS_priority owner none
      merge_frames_loop rt_info owner fuel src_iter.advance.2 1
        { dispatch_entries := pool.dispatch_entries ++ [e.1], next_id := e.2 }
        (Ordered_MultiSet.insert (Dispatch_Entry_Link.lt rt_info) ⟨e.1⟩ dest)

/-- The shallow copy loop of `reframe`: every link of `set` is inserted into
`new_set`. -/
def shallow_copy (rt_info : Nat → RT_Info) :
    List Dispatch_Entry_Link → List Dispatch_Entry_Link → List Dispatch_Entry_Link
  | [], new_set => new_set
  | link :: rest, new_set =>
    shallow_copy rt_info rest (Ordered_MultiSet.insert (Dispatch_Entry_Link.lt rt_info) link new_set)

mutual

/-- `Task_Entry::reframe (dispatch_entries, owner, set, set_period, new_period)`.
The local `new_period` is handed to `merge_frames` by reference (as its
`dest_period`), so the final `set_period = new_period` reads what the nested
call left there. A zero divisor of `%` yields `none`. -/
def reframe (rt_info : Nat → RT_Info) :
    Nat → Dispatch_Pool → Nat → List Dispatch_Entry_Link → Nat → Nat → Option Frames_Result
  | 0, _, _, _, _, _ => none
  | fuel + 1, pool, owner, set, set_period, new_period =>
    if set_period ≠ 0 then
      if new_period ≤ set_period then
        if new_period = 0 then none
        else some { status := if set_period % new_period ≠ 0 then -1 else 0
                    pool := pool, set := set, period := set_period }
      else if new_period % set_period ≠ 0 then
        some { status := -1, pool := pool, set := set, period := set_period }
      else
        let new_set := shallow_copy rt_info set []
        match merge_frames rt_info fuel pool owner set new_set new_period set_period 1 1 with
        | none => none
        | some r => some { status := r.status, pool := r.pool, set := r.set, period := r.period }
    else some { status := 0, pool := pool, set := set, period := new_period }
termination_by structural fuel => fuel

/-- `Task_Entry::merge_frames (dispatch_entries, owner, dest, src, dest_period,
src_period, number_of_calls, starting_dest_sub_frame)`; callers that leave the
last argument out pass 0. -/
def merge_frames (rt_info : Nat → RT_Info) :
    Nat → Dispatch_Pool → Nat → List Dispatch_Entry_Link → List Dispatch_Entry_Link →
    Nat → Nat → Nat → Nat → Option Frames_Result
  | 0, _, _, _, _, _, _, _, _ => none
  | fuel + 1, pool, owner, dest, src, dest_period, src_period, number_of_calls,
      starting_dest_sub_frame =>
    match reframe rt_info fuel pool owner dest dest_period
        (minimum_frame_size dest_period src_period) with
    | none => none
    | some r =>
      if r.status < 0 then
        some { status := -1, pool := r.pool, set := r.set, period := r.period }
      else
        let src_iter := Dispatch_Proxy_Iterator.create src src_period r.period number_of_calls
          starting_dest_sub_frame
        match merge_frames_loop rt_info owner (fuel + 1) (src_iter.first starting_dest_sub_frame).2
            0 r.pool r.set with
        | none => none
        | some (status, pool, dest) =>
          some { status := status, pool := pool, set := dest, period := r.period }
termination_by structural fuel => fuel

end

/-- The effect on the state of a call that was given `dispatches_` and
`effective_period_` of the task `self` by reference. -/
def Scheduler_State.store (s : Scheduler_State) (self : Nat) (r : Frames_Result) :
    Scheduler_State :=
  { tasks := Function.update s.tasks self
      { s.tasks self with dispatches := r.set, effective_period := r.period }
    pool := r.pool }

/-- The loop of `prohibit_dispatches` over `callers_`. -/
def prohibit_dispatches_loop (dt : Dependency_Type) : List (Option Task_Entry_Link) → Int
  | [] => 0
  | none :: _ => -1
  | some link :: rest =>
    if link.dependency_type = dt then -1 else prohibit_dispatches_loop dt rest

/-- `Task_Entry::prohibit_dispatches (dt)`. -/
def Task_Entry.prohibit_dispatches (this : Task_Entry) (dt : Dependency_Type) : Int :=
  prohibit_dispatches_loop dt this.callers

/-- The loop of `disjunctive_merge` over `callers_`, for the task `self`. -/
def disjunctive_merge_loop (fuel : Nat) (self : Nat) (dt : Dependency_Type) :
    List (Option Task_Entry_Link) → Scheduler_State → Option (Int × Scheduler_State)
  | [], s => some (0, s)
  | none :: _, s => some (-1, s)
  | some link :: rest, s =>
    if link.dependency_type = dt then
      match merge_frames s.rt_info fuel s.pool self (s.tasks self).dispatches
          (s.tasks link.caller).dispatches (s.tasks self).effective_period
          (s.tasks link.caller).effective_period link.number_of_calls 0 with
      | none => none
      | some r =>
        if r.status < 0 then some (-1, s.store self r)
        else disjunctive_merge_loop fuel self dt rest (s.store self r)
    else disjunctive_merge_loop fuel self dt rest s

/-- `Task_Entry::disjunctive_merge (dt, dispatch_entries)` on the task `self`. -/
def Task_Entry.disjunctive_merge (fuel : Nat) (s : Scheduler_State) (self : Nat)
    (dt : Dependency_Type) : Option (Int × Scheduler_State) :=
  disjunctive_merge_loop fuel self dt (s.tasks self).callers s

/-- The first loop of `conjunctive_merge`: the total frame size; `error (-1)` is
the early `return -1` at a null link. -/
def conjunctive_frame_size (tasks : Nat → Task_Entry) (dt : Dependency_Type) :
    List (Option Task_Entry_Link) → Nat → Except Int Nat
  | [], frame_size => .ok frame_size
  | none :: _, _ => .error (-1)
  | some link :: rest, frame_size =>
    if link.dependency_type = dt then
      conjunctive_frame_size tasks dt rest
        (minimum_frame_size frame_size (tasks link.caller).effective_period)
    else conjunctive_frame_size tasks dt rest frame_size

/-- The second loop of `conjunctive_merge`: one proxy per matching caller, inserted
into `conj_set`, a multiset of proxy pointers ordered by address.
`proxy_address k` is the address the allocator gives the `k`-th proxy of the
call. `error 0` is the early `return 0` at an empty proxy, `error (-1)` the
early `return -1` at a null link. -/
def conjunctive_proxies (tasks : Nat → Task_Entry) (dt : Dependency_Type) (frame_size : Nat)
    (proxy_address : Nat → Nat) :
    List (Option Task_Entry_Link) → Nat → List (Nat × Dispatch_Proxy_Iterator) →
    Except Int (List (Nat × Dispatch_Proxy_Iterator))
  | [], _, conj_set => .ok conj_set
  | none :: _, _, _ => .error (-1)
  | some link :: rest, k, conj_set =>
    if link.dependency_type = dt then
      let proxy := Dispatch_Proxy_Iterator.create (tasks link.caller).dispatches
        (tasks link.caller).effective_period frame_size link.number_of_calls 0
      if proxy.done then .error 0
      else conjunctive_proxies tasks dt frame_size proxy_address rest (k + 1)
        (Ordered_MultiSet.insert (fun a b => decide (a.1 < b.1)) (proxy_address k, proxy) conj_set)
    else conjunctive_proxies tasks dt frame_size proxy_address rest k conj_set

/-- The local variables of the `while` loop of `conjunctive_merge`. -/
structure Conjunctive_Locals where
  arrival : Nat
  deadline : Nat
  priority : Int
  OS_priority : Int
  more_dispatches : Int
  deriving DecidableEq

/-- The inner `for` loop of `conjunctive_merge`: one walk over `conj_set`, which
reads and then advances every proxy. -/
def conjunctive_walk :
    List (Nat × Dispatch_Proxy_Iterator) → Conjunctive_Locals →
    Conjunctive_Locals × List (Nat × Dispatch_Proxy_Iterator)
  | [], v => (v, [])
  | (address, proxy_iter) :: rest, v =>
    let arrival := 0
    let deadline := 0
    let priority : Int := 0
    let OS_priority : Int := 0
    let arrival := if arrival ≤ proxy_iter.arrival then proxy_iter.arrival else arrival
    let deadline := if deadline ≤ proxy_iter.deadline then proxy_iter.deadline else deadline
    let (priority, OS_priority) :=
      if priority ≤ proxy_iter.priority then (proxy_iter.priority, proxy_iter.OS_priority)
      else (priority, OS_priority)
    let advanced := proxy_iter.advance.2
    let more_dispatches := if advanced.done then 0 else v.more_dispatches
    let w := conjunctive_walk rest
      { arrival := arrival, deadline := deadline, priority := priority
        OS_priority := OS_priority, more_dispatches := more_dispatches }
    (w.1, (address, advanced) :: w.2)

/-- The `while (more_dispatches)` loop of `conjunctive_merge`. The arrival and the
deadline that the walk leaves go through `arrival_tb = {arrival, 0}` and
`deadline_tb = {deadline, 0}`, which keep their low 32 bits. -/
def conjunctive_loop (rt_info : Nat → RT_Info) (owner : Nat) :
    Nat → Int → List (Nat × Dispatch_Proxy_Iterator) → Int → Dispatch_Pool →
    List Dispatch_Entry_Link → Option (Int × Dispatch_Pool × List Dispatch_Entry_Link)
  | 0, _, _, _, _, _ => none
  | fuel + 1, more_dispatches, conj_set, result, pool, dispatches =>
    if more_dispatches = 0 then some (result, pool, dispatches)
    else
      let w := conjunctive_walk conj_set
        { arrival := 0, deadline := 0, priority := 0, OS_priority := 0
          more_dispatches := more_dispatches }
      let e := Dispatch_Entry.create pool.next_id (Time_low w.1.arrival)
        (Time_low w.1.deadline) w.1.priority w.1.OS_priority owner none
      conjunctive_loop rt_info owner fuel w.1.more_dispatches w.2 1
        { dispatch_entries := pool.dispatch_entries ++ [e.1], next_id := e.2 }
        (Ordered_MultiSet.insert (Dispatch_Entry_Link.lt rt_info) ⟨e.1⟩ dispatches)

/-- `Task_Entry::conjunctive_merge (dt, dispatch_entries)` on the task `self`. -/
def Task_Entry.conjunctive_merge (proxy_address : Nat → Nat) (fuel : Nat) (s : Scheduler_State)
    (self : Nat) (dt : Dependency_Type) : Option (Int × Scheduler_State) :=
  match conjunctive_frame_size s.tasks dt (s.tasks self).callers 1 with
  | .error e => some (e, s)
  | .ok frame_size =>
    match reframe s.rt_info fuel s.pool self (s.tasks self).dispatches
        (s.tasks self).effective_period frame_size with
    | none => none
    | some r =>
      let s1 := s.store self r
      if r.status < 0 then some (-1, s1)
      else
        match conjunctive_proxies s1.tasks dt frame_size proxy_address (s1.tasks self).callers 0 []
          with
        | .error e => some (e, s1)
        | .ok conj_set =>
          match conjunctive_loop s1.rt_info self fuel (if conj_set.length = 0 then 0 else 1)
              conj_set 0 s1.pool (s1.tasks self).dispatches with
          | none => none
          | some (result, pool, dispatches) =>
            some (result, s1.store self
              { status := result, pool := pool, set := dispatches
                period := (s1.tasks self).effective_period })

/-- `Task_Entry::merge_dispatches (dispatch_entries)` on the task `self`. -/
def Task_Entry.merge_dispatches (proxy_address : Nat → Nat) (fuel : Nat) (s : Scheduler_State)
    (self : Nat) : Option (Int × Scheduler_State) :=
  match (s.tasks self).rt_info.info_type with
  | .DISJUNCTION =>
    let result := (s.tasks self).prohibit_dispatches .TWO_WAY_CALL
    if result = 0 then Task_Entry.disjunctive_merge fuel s self .ONE_WAY_CALL
    else some (result, s)
  | .CONJUNCTION =>
    let result := (s.tasks self).prohibit_dispatches .TWO_WAY_CALL
    if result = 0 then Task_Entry.conjunctive_merge proxy_address fuel s self .ONE_WAY_CALL
    else some (result, s)
  | .OPERATION =>
    match Task_Entry.disjunctive_merge fuel s self .TWO_WAY_CALL with
    | none => none
    | some (result, s1) =>
      if result = 0 then Task_Entry.conjunctive_merge proxy_address fuel s1 self .ONE_WAY_CALL
      else some (result, s1)
  | .other _ => some (-1, s)

/-! ## Specification-level descriptions of the traversals -/

/-- The positions `(link, offset)` of `count` successive sub-frames of `set`, the
first at offset `o`, each link taken `calls` times. -/
def frames_from (set : List Dispatch_Entry_Link) (calls actual : Nat) :
    Nat → Nat → List (Dispatch_Entry_Link × Nat)
  | _, 0 => []
  | o, count + 1 =>
    set.flatMap (fun l => List.replicate calls (l, o)) ++
      frames_from set calls actual (o + actual) count

/-- The number of sub-frames that follow the one at offset `o`: `advance` moves
to a further sub-frame as long as `o + actual < virtual`. -/
def later_frames (actual virtual o : Nat) : Nat := (virtual - o - 1) / actual

/-- The positions `(link, offset)` a proxy has still to visit, the current one
included. -/
def Dispatch_Proxy_Iterator.positions (p : Dispatch_Proxy_Iterator) :
    List (Dispatch_Entry_Link × Nat) :=
  match p.iter.current with
  | none => []
  | some i =>
    match p.iter.set.get? i with
    | none => []
    | some l =>
      List.replicate (p.number_of_calls - 1 - p.current_call + 1) (l, p.current_frame_offset) ++
      (p.iter.set.drop (i + 1)).flatMap
        (fun l => List.replicate (p.number_of_calls - 1 + 1) (l, p.current_frame_offset)) ++
      frames_from p.iter.set (p.number_of_calls - 1 + 1) p.actual_frame_size
        (p.current_frame_offset + p.actual_frame_size)
        (later_frames p.actual_frame_size p.virtual_frame_size p.current_frame_offset)

/-- A proxy in a state from which its traversal ends: the current node is a node
of the set, and the frame size is positive unless the current sub-frame is the
last one. -/
def Dispatch_Proxy_Iterator.wf (p : Dispatch_Proxy_Iterator) : Prop :=
  ∀ i, p.iter.current = some i →
    i < p.iter.set.length ∧
      (0 < p.actual_frame_size ∨ p.virtual_frame_size ≤ p.current_frame_offset)

/-- The dispatches created for a list of positions, in order: each is a clone of
its link shifted by its offset (the low 32 bits of the sums), owned by
`owner`; the pool and the destination set after they have been inserted. -/
def emit_all (rt_info : Nat → RT_Info) (owner : Nat) :
    List (Dispatch_Entry_Link × Nat) → Dispatch_Pool → List Dispatch_Entry_Link →
    Dispatch_Pool × List Dispatch_Entry_Link
  | [], pool, dest => (pool, dest)
  | (l, o) :: ps, pool, dest =>
    let e := Dispatch_Entry.create pool.next_id (Time_low (l.dispatch_entry.arrival + o))
      (Time_low (l.dispatch_entry.deadline + o)) l.dispatch_entry.priority
      l.dispatch_entry.OS_priority owner none
    emit_all rt_info owner ps
      { dispatch_entries := pool.dispatch_entries ++ [e.1], next_id := e.2 }
      (Ordered_MultiSet.insert (Dispatch_Entry_Link.lt rt_info) ⟨e.1⟩ dest)

/-- The scheduling parameters `(arrival, deadline, priority, OS_priority)` of a
dispatch link. -/
def Dispatch_Entry_Link.params (l : Dispatch_Entry_Link) : Nat × Nat × Int × Int :=
  (l.dispatch_entry.arrival, l.dispatch_entry.deadline, l.dispatch_entry.priority,
    l.dispatch_entry.OS_priority)

/-- Scheduling parameters moved by `offset`, as a dispatch created by a merge has
them: the low 32 bits of the shifted arrival and deadline, priorities kept. -/
def shift (offset : Nat) (t : Nat × Nat × Int × Int) : Nat × Nat × Int × Int :=
  (Time_low (t.1 + offset), Time_low (t.2.1 + offset), t.2.2.1, t.2.2.2)

/-- Scheduling parameters whose arrival and deadline are 32-bit values, as the
members `low` of the times of a dispatch are. -/
def low_params (M : Multiset (Nat × Nat × Int × Int)) : Prop :=
  ∀ t ∈ M, t.1 < 2 ^ 32 ∧ t.2.1 < 2 ^ 32

/-- The state in which the loop of `merge_frames` starts its proxy: the one the
constructor leaves, after the `first (starting_sub_frame)` of the loop header. -/
def initial_proxy (src : List Dispatch_Entry_Link)
    (src_period dest_period number_of_calls starting_sub_frame : Nat) : Dispatch_Proxy_Iterator :=
  ((Dispatch_Proxy_Iterator.create src src_period dest_period number_of_calls
    starting_sub_frame).first starting_sub_frame).2

/-- The result of `reframe`, written without recursion: the nested `merge_frames`
finds the set already at the new period and only runs its loop over the
shallow copy. -/
def reframe_value (rt_info : Nat → RT_Info) (pool : Dispatch_Pool) (owner : Nat)
    (set : List Dispatch_Entry_Link) (set_period new_period : Nat) : Frames_Result :=
  if set_period = 0 then { status := 0, pool := pool, set := set, period := new_period }
  else if new_period ≤ set_period then
    { status := if set_period % new_period ≠ 0 then -1 else 0
      pool := pool, set := set, period := set_period }
  else if new_period % set_period ≠ 0 then
    { status := -1, pool := pool, set := set, period := set_period }
  else
    let ps := (initial_proxy (shallow_copy rt_info set []) set_period new_period 1 1).positions
    { status := if ps = [] then 0 else 1
      pool := (emit_all rt_info owner ps pool set).1
      set := (emit_all rt_info owner ps pool set).2
      period := new_period }

/-- The result of `merge_frames`, written without recursion. -/
def merge_frames_value (rt_info : Nat → RT_Info) (pool : Dispatch_Pool) (owner : Nat)
    (dest src : List Dispatch_Entry_Link)
    (dest_period src_period number_of_calls starting_dest_sub_frame : Nat) : Frames_Result :=
  let r := reframe_value rt_info pool owner dest dest_period
    (minimum_frame_size dest_period src_period)
  if r.status < 0 then { status := -1, pool := r.pool, set := r.set, period := r.period }
  else
    let ps := (initial_proxy src src_period r.period number_of_calls
      starting_dest_sub_frame).positions
    { status := if ps = [] then 0 else 1
      pool := (emit_all rt_info owner ps r.pool r.set).1
      set := (emit_all rt_info owner ps r.pool r.set).2
      period := r.period }

/-- The dispatch entries `emit_all` creates for a list of positions, in order,
the first with id `next_id`. -/
def cloned_entries (owner : Nat) : Nat → List (Dispatch_Entry_Link × Nat) → List Dispatch_Entry
  | _, [] => []
  | next_id, (l, o) :: ps =>
    (Dispatch_Entry.create next_id (Time_low (l.dispatch_entry.arrival + o))
      (Time_low (l.dispatch_entry.deadline + o))
      l.dispatch_entry.priority l.dispatch_entry.OS_priority owner none).1 ::
      cloned_entries owner (next_id + 1) ps

/-- The multiset of scheduling parameters of a dispatch set. -/
def params_of (set : List Dispatch_Entry_Link) : Multiset (Nat × Nat × Int × Int) :=
  Multiset.ofList (set.map Dispatch_Entry_Link.params)

/-- Scheduling parameters replicated across every sub-frame of length `P` of a
frame of length `Q`: one copy of each, shifted by `i * P`, for every `i < Q / P`. -/
def replicate_frames (M : Multiset (Nat × Nat × Int × Int)) (P Q : Nat) :
    Multiset (Nat × Nat × Int × Int) :=
  M.bind (fun t => (Multiset.range (Q / P)).map (fun i => shift (i * P) t))

/-- Two steps run one after the other, in the words of the specification: if the
first step fails the result is -1 and the second step is not run; otherwise
the second step runs on the state the first one produced and its status is
the result. -/
def steps_in_sequence (step1 step2 : Scheduler_State → Option (Int × Scheduler_State))
    (s : Scheduler_State) : Option (Int × Scheduler_State) :=
  match step1 s with
  | none => none
  | some (r, s1) => if r = -1 then some (-1, s1) else step2 s1

/-- `merge_dispatches` as the specification tabulates it: the two steps fixed by
the info kind, run in sequence; any other info kind fails. -/
def merge_dispatches_as_specified (proxy_address : Nat → Nat) (fuel : Nat)
    (s : Scheduler_State) (self : Nat) : Option (Int × Scheduler_State) :=
  match (s.tasks self).rt_info.info_type with
  | .DISJUNCTION =>
    steps_in_sequence
      (fun s => some ((s.tasks self).prohibit_dispatches .TWO_WAY_CALL, s))
      (fun s => Task_Entry.disjunctive_merge fuel s self .ONE_WAY_CALL) s
  | .CONJUNCTION =>
    steps_in_sequence
      (fun s => some ((s.tasks self).prohibit_dispatches .TWO_WAY_CALL, s))
      (fun s => Task_Entry.conjunctive_merge proxy_address fuel s self .ONE_WAY_CALL) s
  | .OPERATION =>
    steps_in_sequence
      (fun s => Task_Entry.disjunctive_merge fuel s self .TWO_WAY_CALL)
      (fun s => Task_Entry.conjunctive_merge proxy_address fuel s self .ONE_WAY_CALL) s
  | .other _ => some (-1, s)

/-- The forward traversal `for (p.first (0); ! p.done (); p.advance ())` of a
proxy, from the state `p` it has reached, counting the positions it visits
(`visited` so far). -/
def forward_traversal : Nat → Dispatch_Proxy_Iterator → Nat → Option Nat
  | 0, _, _ => none
  | fuel + 1, p, visited =>
    if p.done then some visited else forward_traversal fuel p.advance.2 (visited + 1)

/-- The laxity `operator <` computes for a dispatch: deadline minus worst case
execution time of its task, as a signed 32-bit number. -/
def Dispatch_Entry.laxity (rt_info : Nat → RT_Info) (d : Dispatch_Entry) : Int :=
  to_ACE_INT32 ((d.deadline : Int) - ((rt_info d.task_entry).worst_case_execution_time : Int))

/-- The four keys of the dispatch order, in the order the specification states
them: arrival, priority, laxity, importance of the task. -/
def Dispatch_Entry.keys (rt_info : Nat → RT_Info) (d : Dispatch_Entry) : Nat × Int × Int × Int :=
  (d.arrival, d.priority, d.laxity rt_info, (rt_info d.task_entry).importance)

/-- The position of a proxy: the node of the inner iterator, the call counter and
the frame offset. -/
def Dispatch_Proxy_Iterator.position (p : Dispatch_Proxy_Iterator) : Option Nat × Nat × Nat :=
  (p.iter.current, p.current_call, p.current_frame_offset)

/-- The pool `pool'` and the dispatch set `set'` are `pool` and `set` with new
dispatches created for `owner`: the new entries follow the old ones in the
pool in the order of their creation, their ids are the successive values of
the counter, they belong to `owner`, and the set has gained one link to each
of them and lost none. -/
def created_for (owner : Nat) (pool : Dispatch_Pool) (set : List Dispatch_Entry_Link)
    (pool' : Dispatch_Pool) (set' : List Dispatch_Entry_Link) : Prop :=
  ∃ E : List Dispatch_Entry,
    pool'.dispatch_entries = pool.dispatch_entries ++ E ∧
    pool'.next_id = pool.next_id + E.length ∧
    E.map (fun e => e.dispatch_id) = List.range' pool.next_id E.length ∧
    (∀ e ∈ E, e.task_entry = owner) ∧
    set'.Perm (set ++ E.map Dispatch_Entry_Link.mk)

/-- The state `s'` is `s` after merges into the task `self`: dispatches were
created for `self`, its callers and its `rt_info` are the same, and every other
task is as it was. -/
def Scheduler_State.merged_for (self : Nat) (s s' : Scheduler_State) : Prop :=
  created_for self s.pool (s.tasks self).dispatches s'.pool (s'.tasks self).dispatches ∧
    (s'.tasks self).callers = (s.tasks self).callers ∧
    (s'.tasks self).rt_info = (s.tasks self).rt_info ∧
    ∀ j, j ≠ self → s'.tasks j = s.tasks j

/-- The ids of a pool are those of a pass: the entries are in the order of their
creation with increasing ids, all below the counter. -/
def Dispatch_Pool.ids_fresh (pool : Dispatch_Pool) : Prop :=
  (pool.dispatch_entries.map (fun e => e.dispatch_id)).Pairwise (fun a b => a < b) ∧
    ∀ e ∈ pool.dispatch_entries, e.dispatch_id < pool.next_id

/-- A construction of a `Dispatch_Entry` during a pass: by the constructor, with
its arguments, or by the copy constructor, from another dispatch. -/
inductive Construction where
  | create (arrival deadline : Nat) (priority os_priority : Int) (task_entry : Nat)
      (original_dispatch : Option Nat)
  | copy (d : Dispatch_Entry)

/-- The dispatches that a sequence of constructions creates, in the order of
their creation, and the value it leaves in the id counter. -/
def construct_all : Nat → List Construction → List Dispatch_Entry × Nat
  | next_id, [] => ([], next_id)
  | next_id, .create arrival deadline priority os_priority task_entry original_dispatch :: rest =>
    ((Dispatch_Entry.create next_id arrival deadline priority os_priority task_entry
        original_dispatch).1 ::
      (construct_all (Dispatch_Entry.create next_id arrival deadline priority os_priority
        task_entry original_dispatch).2 rest).1,
     (construct_all (Dispatch_Entry.create next_id arrival deadline priority os_priority
        task_entry original_dispatch).2 rest).2)
  | next_id, .copy d :: rest =>
    ((Dispatch_Entry.copy next_id d).1 :: (construct_all (Dispatch_Entry.copy next_id d).2 rest).1,
     (construct_all (Dispatch_Entry.copy next_id d).2 rest).2)

/-- A call of one of the positioning methods of a proxy. -/
inductive Proxy_Call where
  | first (sub_frame : Nat)
  | last
  | advance
  | retreat

/-- The state of a proxy after a call of a positioning method. -/
def Dispatch_Proxy_Iterator.call (p : Dispatch_Proxy_Iterator) :
    Proxy_Call → Dispatch_Proxy_Iterator
  | .first sub_frame => (p.first sub_frame).2
  | .last => p.last.2
  | .advance => p.advance.2
  | .retreat => p.retreat.2

/-- The state of a proxy after a sequence of calls of positioning methods. -/
def Dispatch_Proxy_Iterator.calls (p : Dispatch_Proxy_Iterator) :
    List Proxy_Call → Dispatch_Proxy_Iterator
  | [] => p
  | c :: rest => Dispatch_Proxy_Iterator.calls (p.call c) rest

/-- A proxy on which the loop of `merge_frames` does not end: it stands on a node
of its set, its actual frame size is 0, and its frame offset is below the
virtual frame size. -/
def Dispatch_Proxy_Iterator.endless (p : Dispatch_Proxy_Iterator) : Prop :=
  (∃ i, p.iter.current = some i ∧ i < p.iter.set.length) ∧
    p.actual_frame_size = 0 ∧ p.current_frame_offset < p.virtual_frame_size

/-! ## Example data -/

/-- A task without dispatches, callers or period. -/
def idle_task : Task_Entry :=
  { rt_info := ⟨0, 0, 0, .OPERATION⟩, effective_period := 0, dispatches := [], calls := []
    callers := [] }

/-- A task of the given info kind and effective period, with the given dispatches
and caller links. -/
def task_of (kind : Info_Type) (period : Nat) (dispatches : List Dispatch_Entry_Link)
    (callers : List (Option Task_Entry_Link)) : Task_Entry :=
  { rt_info := ⟨period, 0, 0, kind⟩, effective_period := period, dispatches := dispatches
    calls := [], callers := callers }

/-- A link to a dispatch with the given arrival, deadline, priority, OS priority,
owner and id. -/
def link_of (arrival deadline : Nat) (priority os_priority : Int) (task_entry id : Nat) :
    Dispatch_Entry_Link :=
  ⟨{ priority := priority, OS_priority := os_priority, dynamic_subpriority := 0
     static_subpriority := 0, arrival := arrival, deadline := deadline
     task_entry := task_entry, original_dispatch := none, dispatch_id := id }⟩

/-- The state whose tasks are the listed ones (task `i` is the `i`-th of the list),
with an empty set of all dispatches and the given id counter. -/
def state_of (tasks : List Task_Entry) (next_id : Nat) : Scheduler_State :=
  { tasks := fun i => tasks.getD i idle_task, pool := ⟨[], next_id⟩ }

/-- A CONJUNCTION task (task 0) without dispatches and with two one-way callers, of
periods 2 and 3, each holding one dispatch at arrival 0: deadlines 1 and 2,
priorities 3 and 7. -/
def conjunction_example : Scheduler_State :=
  state_of [task_of .CONJUNCTION 0 []
      [some ⟨1, 1, 0, .ONE_WAY_CALL⟩, some ⟨1, 2, 0, .ONE_WAY_CALL⟩],
    task_of .OPERATION 2 [link_of 0 1 3 30 1 0] [],
    task_of .OPERATION 3 [link_of 0 2 7 70 2 1] []] 2

/-- A DISJUNCTION task (task 0) of effective period 2 that holds one dispatch, with
a one-way caller (task 1) of period 3 that calls twice and a two-way caller
(task 2) of period 5, each holding one dispatch. -/
def disjunctive_example : Scheduler_State :=
  state_of [task_of .DISJUNCTION 2 [link_of 1 2 4 40 0 2]
      [some ⟨2, 1, 0, .ONE_WAY_CALL⟩, some ⟨1, 2, 0, .TWO_WAY_CALL⟩],
    task_of .OPERATION 3 [link_of 0 1 3 30 1 0] [],
    task_of .OPERATION 5 [link_of 0 2 7 70 2 1] []] 3

/-- A CONJUNCTION task (task 0) without dispatches and with two one-way callers of
period 10, each holding two dispatches. At the first joint position task 1
is at (arrival 0, deadline 9, priority 3) and task 2 at (1, 2, 7); at the
second, task 1 is at (5, 6, 7) and task 2 at (4, 8, 3). -/
def lockstep_example : Scheduler_State :=
  state_of [task_of .CONJUNCTION 0 []
      [some ⟨1, 1, 0, .ONE_WAY_CALL⟩, some ⟨1, 2, 0, .ONE_WAY_CALL⟩],
    task_of .OPERATION 10 [link_of 0 9 3 30 1 0, link_of 5 6 7 70 1 1] [],
    task_of .OPERATION 10 [link_of 1 2 7 71 2 2, link_of 4 8 3 31 2 3] []] 4

/-- The first scenario of the specification: an OPERATION task (task 0) of period
2, at effective period 2 and without dispatches, with one one-way caller
(task 1) of effective period 3 that calls once and whose only dispatch has
arrival 0, deadline 1 and priority 5. -/
def scenario_example : Scheduler_State :=
  state_of [task_of .OPERATION 2 [] [some ⟨1, 1, 0, .ONE_WAY_CALL⟩],
    task_of .OPERATION 3 [link_of 0 1 5 50 1 0] []] 1

/-- The first scenario of the specification with the effective period of the
OPERATION task still uninitialised (0), its declared period being 2. -/
def scenario_uninitialised_example : Scheduler_State :=
  state_of [{ task_of .OPERATION 2 [] [some ⟨1, 1, 0, .ONE_WAY_CALL⟩] with
      effective_period := 0 },
    task_of .OPERATION 3 [link_of 0 1 5 50 1 0] []] 1

/-- A DISJUNCTION task (task 0) of effective period 5 without dispatches, with one
one-way caller (task 1) of effective period 0 that holds one dispatch. -/
def endless_example : Scheduler_State :=
  state_of [task_of .DISJUNCTION 5 [] [some ⟨1, 1, 0, .ONE_WAY_CALL⟩],
    task_of .OPERATION 0 [link_of 0 1 5 50 1 0] []] 1

theorem gcd_loop_eq (fuel x y : Nat) (h : y < fuel) : gcd_loop fuel x y = Nat.gcd x y := by
  induction fuel generalizing x y with
  | zero => omega
  | succ n ih =>
    unfold gcd_loop
    by_cases hy : y = 0
    · simp [hy]
    · have hlt : x % y < y := Nat.mod_lt _ (Nat.pos_of_ne_zero hy)
      rw [if_neg hy, ih y (x % y) (by omega), Nat.gcd_comm x y, Nat.gcd_rec y x, Nat.gcd_comm]

theorem gcd_eq_nat_gcd (x y : Nat) : gcd x y = Nat.gcd x y :=
  gcd_loop_eq (y + 1) x y (Nat.lt_succ_self y)

theorem gcd_unfold (x y : Nat) : gcd x y = if y = 0 then x else gcd y (x % y) := by
  by_cases hy : y = 0
  · simp [hy, gcd_eq_nat_gcd]
  · rw [if_neg hy, gcd_eq_nat_gcd, gcd_eq_nat_gcd, Nat.gcd_comm x y, Nat.gcd_rec y x,
      Nat.gcd_comm]

theorem minimum_frame_size_eq_lcm (a b : Nat) (ha : 0 < a) (hb : 0 < b) :
    minimum_frame_size a b = Nat.lcm a b := by
  unfold minimum_frame_size
  rw [if_neg (by omega), if_neg (by omega)]
  simp only [gcd_eq_nat_gcd]
  by_cases h1 : Nat.gcd a b = 1
  · rw [if_pos h1]
    exact (Nat.Coprime.lcm_eq_mul h1).symm
  · rw [if_neg h1]
    by_cases h2 : Nat.gcd a b = a
    · rw [if_pos h2]
      show b = a * b / Nat.gcd a b
      rw [h2, Nat.mul_div_cancel_left b ha]
    · rw [if_neg h2]
      by_cases h3 : Nat.gcd a b = b
      · rw [if_pos h3]
        show a = a * b / Nat.gcd a b
        rw [h3, Nat.mul_div_cancel a hb]
      · rw [if_neg h3]
        rfl

theorem minimum_frame_size_zero_left (b : Nat) : minimum_frame_size 0 b = b := by
  simp [minimum_frame_size]

theorem minimum_frame_size_zero_right (a : Nat) : minimum_frame_size a 0 = a := by
  unfold minimum_frame_size
  by_cases ha : 0 = a
  · simp [← ha]
  · simp [ha]

/-! ## The traversal of a proxy -/

theorem later_frames_succ {A V o : Nat} (h : o + A < V) (hA : 0 < A) :
    later_frames A V o = later_frames A V (o + A) + 1 := by
  unfold later_frames
  have : V - o - 1 = (V - (o + A) - 1) + A := by omega
  rw [this, Nat.add_div_right _ hA]

theorem later_frames_zero {A V o : Nat} (h : ¬ o + A < V) : later_frames A V o = 0 := by
  unfold later_frames
  rcases Nat.eq_zero_or_pos A with hA | hA
  · simp [hA]
  · exact Nat.div_eq_of_lt (by omega)

theorem getElem?_of_lt {α : Type} (S : List α) (i : Nat) (hi : i < S.length) :
    ∃ l, S[i]? = some l ∧ S.drop i = l :: S.drop (i + 1) :=
  ⟨S[i], List.getElem?_eq_getElem hi, List.drop_eq_getElem_cons hi⟩

theorem positions_of_done (p : Dispatch_Proxy_Iterator) (hd : p.done = true) :
    p.positions = [] := by
  unfold Dispatch_Proxy_Iterator.done Ordered_MultiSet_Iterator.done at hd
  unfold Dispatch_Proxy_Iterator.positions
  cases h : p.iter.current with
  | none => rfl
  | some i => simp [h] at hd

theorem positions_step (p : Dispatch_Proxy_Iterator) (hwf : p.wf) (hd : p.done = false) :
    ∃ l, p.iter.next = some l ∧
      p.positions = (l, p.current_frame_offset) :: p.advance.2.positions ∧ p.advance.2.wf := by
  obtain ⟨n, c, A, V, o, ⟨S, cur⟩⟩ := p
  cases cur with
  | none => simp [Dispatch_Proxy_Iterator.done, Ordered_MultiSet_Iterator.done] at hd
  | some i =>
    obtain ⟨hi, hAV⟩ := hwf i rfl
    simp only at hi hAV
    obtain ⟨l, hget, -⟩ := getElem?_of_lt S i hi
    refine ⟨l, ?_, ?_⟩
    · simp [Ordered_MultiSet_Iterator.next, hget]
    · by_cases hc : c < n - 1
      · have hadv : (Dispatch_Proxy_Iterator.advance ⟨n, c, A, V, o, ⟨S, some i⟩⟩).2
            = ⟨n, c + 1, A, V, o, ⟨S, some i⟩⟩ := by
          simp [Dispatch_Proxy_Iterator.advance, Dispatch_Proxy_Iterator.done,
            Ordered_MultiSet_Iterator.done, hc]
        rw [hadv]
        constructor
        · have : n - 1 - c + 1 = (n - 1 - (c + 1) + 1) + 1 := by omega
          simp [Dispatch_Proxy_Iterator.positions, hget, this, List.replicate_succ]
        · intro j hj
          simp only at hj ⊢
          cases hj
          exact ⟨hi, hAV⟩
      · have hc1 : n - 1 - c + 1 = 1 := by omega
        by_cases hnext : i + 1 < S.length
        · obtain ⟨l2, hget2, hdrop⟩ := getElem?_of_lt S (i + 1) hnext
          have hadv : (Dispatch_Proxy_Iterator.advance ⟨n, c, A, V, o, ⟨S, some i⟩⟩).2
              = ⟨n, 0, A, V, o, ⟨S, some (i + 1)⟩⟩ := by
            simp [Dispatch_Proxy_Iterator.advance, Dispatch_Proxy_Iterator.done,
              Ordered_MultiSet_Iterator.done, hc, Ordered_MultiSet_Iterator.advance, hnext]
          rw [hadv]
          constructor
          · simp [Dispatch_Proxy_Iterator.positions, hget, hget2, hdrop, hc1]
          · intro j hj
            simp only at hj ⊢
            cases hj
            exact ⟨hnext, hAV⟩
        · have hdrop : S.drop (i + 1) = [] := List.drop_eq_nil_of_le (by omega)
          by_cases hframe : o + A < V
          · have hA : 0 < A := by omega
            have hadv : (Dispatch_Proxy_Iterator.advance ⟨n, c, A, V, o, ⟨S, some i⟩⟩).2
                = ⟨n, 0, A, V, o + A, ⟨S, some 0⟩⟩ := by
              have hS : S ≠ [] := by
                intro h
                simp [h] at hi
              simp [Dispatch_Proxy_Iterator.advance, Dispatch_Proxy_Iterator.done,
                Ordered_MultiSet_Iterator.done, hc, Ordered_MultiSet_Iterator.advance, hnext,
                hframe, Ordered_MultiSet_Iterator.first, hS]
            rw [hadv]
            constructor
            · cases S with
              | nil => simp at hi
              | cons x xs =>
                simp [Dispatch_Proxy_Iterator.positions, hget, hdrop, hc1,
                  later_frames_succ hframe hA, frames_from]
            · intro j hj
              simp only at hj ⊢
              cases hj
              exact ⟨by omega, Or.inl hA⟩
          · have hadv : (Dispatch_Proxy_Iterator.advance ⟨n, c, A, V, o, ⟨S, some i⟩⟩).2
                = ⟨n, 0, A, V, o, ⟨S, none⟩⟩ := by
              simp [Dispatch_Proxy_Iterator.advance, Dispatch_Proxy_Iterator.done,
                Ordered_MultiSet_Iterator.done, hc, Ordered_MultiSet_Iterator.advance, hnext,
                hframe]
            rw [hadv]
            constructor
            · simp [Dispatch_Proxy_Iterator.positions, hget, hdrop, hc1,
                later_frames_zero hframe, frames_from]
            · intro j hj
              simp at hj

theorem merge_frames_loop_eq (rt_info : Nat → RT_Info) (owner : Nat) (n : Nat) :
    ∀ (p : Dispatch_Proxy_Iterator) (fuel : Nat) (status : Int) (pool : Dispatch_Pool)
      (dest : List Dispatch_Entry_Link),
      p.wf → p.positions.length = n → n < fuel →
      merge_frames_loop rt_info owner fuel p status pool dest =
        some (if p.positions = [] then status else 1,
          (emit_all rt_info owner p.positions pool dest).1,
          (emit_all rt_info owner p.positions pool dest).2) := by
  induction n with
  | zero =>
    intro p fuel status pool dest hwf hlen hfuel
    obtain ⟨f, rfl⟩ : ∃ f, fuel = f + 1 := ⟨fuel - 1, by omega⟩
    have hnil : p.positions = [] := List.length_eq_zero.mp hlen
    have hd : p.done = true := by
      by_contra h
      obtain ⟨l, -, hpos, -⟩ := positions_step p hwf (by simpa using h)
      rw [hnil] at hpos
      cases hpos
    simp [merge_frames_loop, hd, hnil, emit_all]
  | succ n ih =>
    intro p fuel status pool dest hwf hlen hfuel
    obtain ⟨f, rfl⟩ : ∃ f, fuel = f + 1 := ⟨fuel - 1, by omega⟩
    have hd : p.done = false := by
      by_contra h
      rw [positions_of_done p (by simpa using h)] at hlen
      cases hlen
    obtain ⟨l, hnext, hpos, hwf2⟩ := positions_step p hwf hd
    have hlen2 : p.advance.2.positions.length = n := by
      rw [hpos] at hlen
      simpa using hlen
    rw [merge_frames_loop]
    simp only [hd, Bool.false_eq_true, if_false]
    rw [ih p.advance.2 f 1 _ _ hwf2 hlen2 (by omega), hpos]
    simp [emit_all, Dispatch_Proxy_Iterator.arrival, Dispatch_Proxy_Iterator.deadline,
      Dispatch_Proxy_Iterator.priority, Dispatch_Proxy_Iterator.OS_priority, hnext]

/-! ## `reframe` and `merge_frames` without recursion -/

theorem frames_from_nil (calls actual o count : Nat) :
    frames_from [] calls actual o count = [] := by
  induction count generalizing o with
  | zero => rfl
  | succ k ih => simp [frames_from, ih]

theorem length_flatMap_replicate (S : List Dispatch_Entry_Link) (calls o : Nat) :
    (S.flatMap fun l => List.replicate calls (l, o)).length = S.length * calls := by
  induction S with
  | nil => simp
  | cons x xs ihx =>
    simp only [List.flatMap_cons, List.length_append, List.length_replicate, ihx,
      List.length_cons]
    ring

theorem length_frames_from (S : List Dispatch_Entry_Link) (calls actual o count : Nat) :
    (frames_from S calls actual o count).length = count * (S.length * calls) := by
  induction count generalizing o with
  | zero => simp [frames_from]
  | succ k ih =>
    simp only [frames_from, List.length_append, ih, length_flatMap_replicate]
    ring

theorem initial_proxy_eq (S : List Dispatch_Entry_Link) (A V n start : Nat) :
    initial_proxy S A V n start =
      ⟨n, 0, A, V, A * start, ⟨S, if S.length = 0 then none else some 0⟩⟩ := by
  unfold initial_proxy Dispatch_Proxy_Iterator.create Dispatch_Proxy_Iterator.first
    Ordered_MultiSet_Iterator.create Ordered_MultiSet_Iterator.first
  by_cases h : A * start ≥ V
  · simp [h]
  · by_cases hS : S.length = 0
    · simp [h, hS]
    · simp [h, hS]

theorem initial_proxy_wf (S : List Dispatch_Entry_Link) (A V n start : Nat)
    (h : S = [] ∨ 0 < A ∨ V ≤ A * start) : (initial_proxy S A V n start).wf := by
  rw [initial_proxy_eq]
  intro i hi
  simp only at hi ⊢
  by_cases hS : S.length = 0
  · simp [hS] at hi
  · simp only [hS, if_false, Option.some.injEq] at hi
    subst hi
    refine ⟨by omega, ?_⟩
    rcases h with h | h | h
    · simp [h] at hS
    · exact Or.inl h
    · exact Or.inr h

theorem initial_proxy_positions (S : List Dispatch_Entry_Link) (A V n start : Nat) :
    (initial_proxy S A V n start).positions =
      frames_from S (n - 1 + 1) A (A * start) (later_frames A V (A * start) + 1) := by
  rw [initial_proxy_eq]
  cases S with
  | nil => simp [Dispatch_Proxy_Iterator.positions, frames_from_nil]
  | cons x xs => simp [Dispatch_Proxy_Iterator.positions, frames_from]

theorem minimum_frame_size_of_dvd (Q P : Nat) (hP : P ≠ 0) (hQ : Q ≠ 0) (h : Q % P = 0) :
    minimum_frame_size Q P = Q := by
  rw [minimum_frame_size_eq_lcm Q P (Nat.pos_of_ne_zero hQ) (Nat.pos_of_ne_zero hP)]
  show Q * P / Nat.gcd Q P = Q
  rw [Nat.gcd_eq_right (Nat.dvd_of_mod_eq_zero h), Nat.mul_div_cancel _ (Nat.pos_of_ne_zero hP)]

theorem minimum_frame_size_dvd_left (a b : Nat) (ha : a ≠ 0) :
    minimum_frame_size a b ≠ 0 ∧ a ∣ minimum_frame_size a b := by
  rcases Nat.eq_zero_or_pos b with hb | hb
  · subst hb
    rw [minimum_frame_size_zero_right]
    exact ⟨ha, dvd_rfl⟩
  · rw [minimum_frame_size_eq_lcm a b (Nat.pos_of_ne_zero ha) hb]
    exact ⟨Nat.lcm_ne_zero ha (by omega), Nat.dvd_lcm_left a b⟩

theorem minimum_frame_size_dvd_right (a b : Nat) (hb : b ≠ 0) :
    minimum_frame_size a b ≠ 0 ∧ b ∣ minimum_frame_size a b := by
  rcases Nat.eq_zero_or_pos a with ha | ha
  · subst ha
    rw [minimum_frame_size_zero_left]
    exact ⟨hb, dvd_rfl⟩
  · rw [minimum_frame_size_eq_lcm a b ha (Nat.pos_of_ne_zero hb)]
    exact ⟨Nat.lcm_ne_zero (by omega) hb, Nat.dvd_lcm_right a b⟩

theorem reframe_eq (rt_info : Nat → RT_Info) (fuel : Nat) (pool : Dispatch_Pool) (owner : Nat)
    (set : List Dispatch_Entry_Link) (P Q : Nat) (hQ : P ≠ 0 → Q ≠ 0)
    (hfuel : (initial_proxy (shallow_copy rt_info set []) P Q 1 1).positions.length + 3 ≤ fuel) :
    reframe rt_info fuel pool owner set P Q = some (reframe_value rt_info pool owner set P Q) := by
  obtain ⟨f, rfl⟩ : ∃ f, fuel = f + 1 := ⟨fuel - 1, by omega⟩
  unfold reframe_value
  rw [reframe]
  by_cases hP : P = 0
  · simp [hP]
  · have hQ0 : Q ≠ 0 := hQ hP
    simp only [ne_eq, hP, not_false_eq_true, if_true, if_false]
    by_cases hle : Q ≤ P
    · simp [hle, hQ0]
    · simp only [hle, if_false]
      by_cases hmod : Q % P = 0
      · simp only [hmod, not_true_eq_false, if_false]
        obtain ⟨g, rfl⟩ : ∃ g, f = g + 1 := ⟨f - 1, by omega⟩
        obtain ⟨h, rfl⟩ : ∃ h, g = h + 1 := ⟨g - 1, by omega⟩
        rw [merge_frames, minimum_frame_size_of_dvd Q P hP hQ0 hmod, reframe]
        simp only [ne_eq, hQ0, not_false_eq_true, if_true, le_refl, if_false, Nat.mod_self,
          not_true_eq_false]
        have hwf : (initial_proxy (shallow_copy rt_info set []) P Q 1 1).wf :=
          initial_proxy_wf _ _ _ _ _ (Or.inr (Or.inl (Nat.pos_of_ne_zero hP)))
        have hloop := merge_frames_loop_eq rt_info owner _ _ (h + 1 + 1) 0 pool set hwf rfl
          (by omega)
        unfold initial_proxy at hloop hwf ⊢
        simp [hloop]
      · simp [hmod]


theorem reframe_value_minimum_frame_size (rt_info : Nat → RT_Info) (pool : Dispatch_Pool)
    (owner : Nat) (dest : List Dispatch_Entry_Link) (dp sp : Nat) :
    0 ≤ (reframe_value rt_info pool owner dest dp (minimum_frame_size dp sp)).status ∧
      (reframe_value rt_info pool owner dest dp (minimum_frame_size dp sp)).period =
        minimum_frame_size dp sp := by
  unfold reframe_value
  by_cases hdp : dp = 0
  · simp [hdp]
  · obtain ⟨hne, hdvd⟩ := minimum_frame_size_dvd_left dp sp hdp
    simp only [hdp, if_false]
    by_cases hle : minimum_frame_size dp sp ≤ dp
    · have heq : minimum_frame_size dp sp = dp :=
        Nat.le_antisymm hle (Nat.le_of_dvd (Nat.pos_of_ne_zero hne) hdvd)
      simp [heq]
    · have hmod : minimum_frame_size dp sp % dp = 0 := Nat.mod_eq_zero_of_dvd hdvd
      simp only [hle, if_false, hmod, ne_eq, not_true_eq_false]
      refine ⟨?_, trivial⟩
      split <;> decide

theorem merge_frames_eq (rt_info : Nat → RT_Info) (fuel : Nat) (pool : Dispatch_Pool) (owner : Nat)
    (dest src : List Dispatch_Entry_Link) (dp sp n start : Nat)
    (hterm : src = [] ∨ 0 < sp ∨ dp = 0)
    (hfuel : (initial_proxy (shallow_copy rt_info dest []) dp
        (minimum_frame_size dp sp) 1 1).positions.length +
      (initial_proxy src sp (minimum_frame_size dp sp) n start).positions.length + 4 ≤ fuel) :
    merge_frames rt_info fuel pool owner dest src dp sp n start =
      some (merge_frames_value rt_info pool owner dest src dp sp n start) := by
  obtain ⟨f, rfl⟩ : ∃ f, fuel = f + 1 := ⟨fuel - 1, by omega⟩
  obtain ⟨hst, hper⟩ := reframe_value_minimum_frame_size rt_info pool owner dest dp sp
  have hQ : dp ≠ 0 → minimum_frame_size dp sp ≠ 0 := fun h =>
    (minimum_frame_size_dvd_left dp sp h).1
  have hwf : (initial_proxy src sp (minimum_frame_size dp sp) n start).wf := by
    apply initial_proxy_wf
    rcases hterm with h | h | h
    · exact Or.inl h
    · exact Or.inr (Or.inl h)
    · rcases Nat.eq_zero_or_pos sp with h0 | h0
      · subst h h0
        right; right
        simp [minimum_frame_size]
      · exact Or.inr (Or.inl h0)
  have hloop := fun st pl ds => merge_frames_loop_eq rt_info owner _ _ (f + 1) st pl ds hwf rfl
    (by omega)
  rw [merge_frames, reframe_eq rt_info f pool owner dest dp _ hQ (by omega)]
  unfold merge_frames_value
  simp only [not_lt.mpr hst, if_false, hper]
  unfold initial_proxy at hloop ⊢
  simp [hloop]

theorem insert_perm {α : Type} (lt : α → α → Bool) (x : α) (l : List α) :
    (Ordered_MultiSet.insert lt x l).Perm (x :: l) := by
  induction l with
  | nil => simp [Ordered_MultiSet.insert]
  | cons y ys ih =>
    unfold Ordered_MultiSet.insert
    split
    · exact (List.Perm.cons y ih).trans (List.Perm.swap x y ys)
    · exact List.Perm.refl _

theorem shallow_copy_perm (rt_info : Nat → RT_Info) (set new_set : List Dispatch_Entry_Link) :
    (shallow_copy rt_info set new_set).Perm (set ++ new_set) := by
  induction set generalizing new_set with
  | nil => simp [shallow_copy]
  | cons x xs ih =>
    unfold shallow_copy
    refine (ih _).trans ?_
    refine (List.Perm.append_left xs (insert_perm _ x new_set)).trans ?_
    simp

theorem emit_all_set (rt_info : Nat → RT_Info) (owner : Nat)
    (ps : List (Dispatch_Entry_Link × Nat)) (pool : Dispatch_Pool)
    (dest : List Dispatch_Entry_Link) :
    (emit_all rt_info owner ps pool dest).2.Perm
      ((cloned_entries owner pool.next_id ps).map Dispatch_Entry_Link.mk ++ dest) := by
  induction ps generalizing pool dest with
  | nil => simp [emit_all, cloned_entries]
  | cons x xs ih =>
    obtain ⟨l, o⟩ := x
    simp only [emit_all, cloned_entries, List.map_cons, List.cons_append]
    refine (ih _ _).trans ?_
    refine (List.Perm.append_left _ (insert_perm _ _ dest)).trans ?_
    simp only [Dispatch_Entry.create]
    exact List.perm_middle

theorem length_cloned_entries (owner next_id : Nat) (ps : List (Dispatch_Entry_Link × Nat)) :
    (cloned_entries owner next_id ps).length = ps.length := by
  induction ps generalizing next_id with
  | nil => rfl
  | cons x xs ih =>
    obtain ⟨l, o⟩ := x
    simp [cloned_entries, ih]

theorem params_cloned_entries (owner next_id : Nat) (ps : List (Dispatch_Entry_Link × Nat)) :
    ((cloned_entries owner next_id ps).map Dispatch_Entry_Link.mk).map Dispatch_Entry_Link.params =
      ps.map (fun x => shift x.2 x.1.params) := by
  induction ps generalizing next_id with
  | nil => rfl
  | cons x xs ih =>
    obtain ⟨l, o⟩ := x
    simp [cloned_entries, ih, Dispatch_Entry.create, Dispatch_Entry_Link.params, shift]


/-! ## Scheduling parameters of the emitted dispatches -/

theorem later_frames_mul (A k j : Nat) (hA : 0 < A) (hj : j < k) :
    later_frames A (k * A) (A * j) + 1 = k - j := by
  obtain ⟨m, rfl⟩ : ∃ m, k = j + m + 1 := ⟨k - j - 1, by omega⟩
  unfold later_frames
  have h1 : (j + m + 1) * A - A * j - 1 = A * m + (A - 1) := by
    have : (j + m + 1) * A = A * j + A * m + A := by ring
    rw [this]
    omega
  rw [h1, Nat.mul_add_div hA, Nat.div_eq_of_lt (by omega)]
  omega

theorem Time_low_of_lt (t : Nat) (h : t < 2 ^ 32) : Time_low t = t :=
  Nat.mod_eq_of_lt h

theorem shift_zero (t : Nat × Nat × Int × Int) (h : t.1 < 2 ^ 32 ∧ t.2.1 < 2 ^ 32) :
    shift 0 t = t := by
  obtain ⟨a, d, p, q⟩ := t
  simp only [shift, Nat.add_zero, Time_low_of_lt a h.1, Time_low_of_lt d h.2]

theorem map_shift_zero (M : Multiset (Nat × Nat × Int × Int)) (hM : low_params M) :
    M.map (shift 0) = M := by
  have h := Multiset.map_congr rfl (fun t ht => shift_zero t (hM t ht))
  rw [h]
  exact Multiset.map_id M

theorem low_params_zero : low_params 0 := by
  intro t ht
  simp at ht

theorem low_params_of (set : List Dispatch_Entry_Link)
    (h : ∀ l ∈ set, l.dispatch_entry.arrival < 2 ^ 32 ∧ l.dispatch_entry.deadline < 2 ^ 32) :
    low_params (params_of set) := by
  intro t ht
  unfold params_of at ht
  obtain ⟨l, hl, rfl⟩ := List.mem_map.mp (Multiset.mem_coe.mp ht)
  exact h l hl

theorem frame_params (S : List Dispatch_Entry_Link) (N o : Nat) :
    (Multiset.ofList ((S.flatMap fun l => List.replicate N (l, o)).map
        (fun x => shift x.2 x.1.params)) : Multiset (Nat × Nat × Int × Int)) =
      (params_of S).bind (fun t => Multiset.replicate N (shift o t)) := by
  unfold params_of
  induction S with
  | nil => simp
  | cons x xs ih =>
    simp only [List.flatMap_cons, List.map_append, List.map_cons, ← Multiset.coe_add,
      ← Multiset.cons_coe, Multiset.cons_bind, ih]
    congr 1
    simp [List.map_replicate, Multiset.coe_replicate]

theorem frames_from_params (S : List Dispatch_Entry_Link) (N A start cnt : Nat) :
    (Multiset.ofList ((frames_from S N A (A * start) cnt).map
        (fun x => shift x.2 x.1.params)) : Multiset (Nat × Nat × Int × Int)) =
      (Multiset.ofList (List.range' start cnt)).bind (fun i =>
        (params_of S).bind (fun t => Multiset.replicate N (shift (A * i) t))) := by
  induction cnt generalizing start with
  | zero => simp [frames_from]
  | succ c ih =>
    have hA : A * start + A = A * (start + 1) := by ring
    simp only [frames_from, List.map_append, ← Multiset.coe_add, frame_params, hA, ih,
      List.range'_succ, ← Multiset.cons_coe, Multiset.cons_bind]


theorem params_of_perm {l₁ l₂ : List Dispatch_Entry_Link} (h : l₁.Perm l₂) :
    params_of l₁ = params_of l₂ :=
  Multiset.coe_eq_coe.mpr (h.map _)

theorem params_of_append (l₁ l₂ : List Dispatch_Entry_Link) :
    params_of (l₁ ++ l₂) = params_of l₁ + params_of l₂ := by
  simp [params_of]

theorem emit_all_params (rt_info : Nat → RT_Info) (owner : Nat)
    (ps : List (Dispatch_Entry_Link × Nat)) (pool : Dispatch_Pool)
    (dest : List Dispatch_Entry_Link) :
    params_of (emit_all rt_info owner ps pool dest).2 =
      params_of dest + Multiset.ofList (ps.map (fun x => shift x.2 x.1.params)) := by
  rw [params_of_perm (emit_all_set rt_info owner ps pool dest), params_of_append, add_comm]
  congr 1
  unfold params_of
  rw [params_cloned_entries]

theorem emit_all_length (rt_info : Nat → RT_Info) (owner : Nat)
    (ps : List (Dispatch_Entry_Link × Nat)) (pool : Dispatch_Pool)
    (dest : List Dispatch_Entry_Link) :
    (emit_all rt_info owner ps pool dest).2.length = dest.length + ps.length := by
  rw [(emit_all_set rt_info owner ps pool dest).length_eq]
  simp [length_cloned_entries, Nat.add_comm]

theorem bind_frames_swap (M : Multiset (Nat × Nat × Int × Int)) (N A : Nat)
    (L : Multiset Nat) :
    L.bind (fun i => M.bind (fun t => Multiset.replicate N (shift (A * i) t))) =
      M.bind (fun t => L.bind (fun i => Multiset.replicate N (shift (i * A) t))) := by
  rw [Multiset.bind_bind]
  simp only [Nat.mul_comm]

theorem shallow_copy_params (rt_info : Nat → RT_Info) (set : List Dispatch_Entry_Link) :
    params_of (shallow_copy rt_info set []) = params_of set := by
  rw [params_of_perm (shallow_copy_perm rt_info set [])]
  simp

theorem replicate_frames_succ (M : Multiset (Nat × Nat × Int × Int)) (P k : Nat)
    (hM : low_params M) :
    M + (Multiset.ofList (List.range' 1 k)).bind (fun i =>
        M.bind (fun t => Multiset.replicate 1 (shift (P * i) t))) =
      M.bind (fun t => (Multiset.range (k + 1)).map (fun i => shift (i * P) t)) := by
  have hr : Multiset.range (k + 1) = 0 ::ₘ Multiset.ofList (List.range' 1 k) := by
    rw [← Multiset.coe_range, List.range_eq_range', List.range'_succ]
    rfl
  rw [bind_frames_swap, hr]
  have h1 : ∀ t ∈ M,
      Multiset.map (fun i => shift (i * P) t) (0 ::ₘ Multiset.ofList (List.range' 1 k)) =
        {t} + (Multiset.ofList (List.range' 1 k)).bind
          (fun i => Multiset.replicate 1 (shift (i * P) t)) := by
    intro t ht
    simp [Multiset.replicate_one, Multiset.bind_singleton, shift_zero t (hM t ht)]
  rw [Multiset.bind_congr h1]
  simp only [Multiset.bind_add]
  congr 1
  have h2 := Multiset.bind_singleton M (fun t => t)
  simpa using h2.symm

theorem reframe_value_params (rt_info : Nat → RT_Info) (pool : Dispatch_Pool) (owner : Nat)
    (set : List Dispatch_Entry_Link) (P Q : Nat) (hP : P ≠ 0) (hQ : Q ≠ 0) (hdvd : P ∣ Q)
    (hlow : low_params (params_of set)) :
    0 ≤ (reframe_value rt_info pool owner set P Q).status ∧
    (reframe_value rt_info pool owner set P Q).period = Q ∧
    (reframe_value rt_info pool owner set P Q).set.length = Q / P * set.length ∧
    params_of (reframe_value rt_info pool owner set P Q).set =
      replicate_frames (params_of set) P Q := by
  obtain ⟨k, rfl⟩ := hdvd
  have hk : k ≠ 0 := by
    rintro rfl
    simp at hQ
  have hPpos : 0 < P := Nat.pos_of_ne_zero hP
  have hdiv : P * k / P = k := Nat.mul_div_cancel_left k hPpos
  obtain ⟨m, rfl⟩ : ∃ m, k = m + 1 := ⟨k - 1, by omega⟩
  unfold reframe_value replicate_frames
  rw [hdiv]
  simp only [hP, if_false]
  by_cases hle : P * (m + 1) ≤ P
  · have hm : m = 0 := by
      by_contra h
      have : P * 2 ≤ P * (m + 1) := Nat.mul_le_mul_left P (by omega)
      omega
    subst hm
    have h2 := Multiset.bind_singleton (params_of set) (fun t => t)
    simp [map_shift_zero _ hlow, h2]
  · have hm : 1 ≤ m := by
      by_contra h
      have : m = 0 := by omega
      subst this
      simp at hle
    have hmod : P * (m + 1) % P = 0 := Nat.mul_mod_right P (m + 1)
    have hlater : later_frames P (P * (m + 1)) (P * 1) + 1 = m := by
      have := later_frames_mul P (m + 1) 1 hPpos (by omega)
      rw [Nat.mul_comm (m + 1) P] at this
      omega
    simp only [hle, if_false, hmod, ne_eq, not_true_eq_false]
    refine ⟨by split <;> decide, trivial, ?_, ?_⟩
    · rw [emit_all_length, initial_proxy_positions, length_frames_from, hlater,
        (shallow_copy_perm rt_info set []).length_eq]
      simp only [List.append_nil, Nat.sub_self, Nat.zero_add, Nat.mul_one]
      ring
    · rw [emit_all_params, initial_proxy_positions, frames_from_params, hlater,
        shallow_copy_params]
      exact replicate_frames_succ (params_of set) P m hlow


theorem reframe_value_subperm (rt_info : Nat → RT_Info) (pool : Dispatch_Pool) (owner : Nat)
    (set : List Dispatch_Entry_Link) (P Q : Nat) :
    set.Subperm (reframe_value rt_info pool owner set P Q).set := by
  unfold reframe_value
  split
  · exact List.Subperm.refl _
  · split
    · exact List.Subperm.refl _
    · split
      · exact List.Subperm.refl _
      · exact (List.sublist_append_right _ _).subperm.trans
          (emit_all_set rt_info owner _ pool set).symm.subperm


/-! ## `merge_frames` and `reframe` -/

/-- C10. For a set of period `p > 0` whose arrivals and deadlines are 32-bit values
and `k ≥ 2`, `reframe` to `k * p` succeeds: it sets the period to `k * p`,
keeps every link of the set, makes the set `k` times as large, and the
scheduling parameters of the new set are those of the old one in each of the
`k` sub-frames: the low 32 bits of arrival and deadline moved by `i * p` for
every `i < k`, priorities copied; in particular the arrivals are the
`(a + i * p) % 2 ^ 32`. -/
theorem reframe_to_multiple (rt_info : Nat → RT_Info) (pool : Dispatch_Pool) (owner : Nat)
    (set : List Dispatch_Entry_Link) (p k : Nat) (hp : 0 < p) (hk : 2 ≤ k)
    (hlow : ∀ l ∈ set, l.dispatch_entry.arrival < 2 ^ 32 ∧ l.dispatch_entry.deadline < 2 ^ 32) :
    ∃ (N : Nat) (r : Frames_Result),
      (∀ fuel, N ≤ fuel → reframe rt_info fuel pool owner set p (k * p) = some r) ∧
      0 ≤ r.status ∧ r.period = k * p ∧ set.Subperm r.set ∧
      r.set.length = k * set.length ∧
      params_of r.set =
        (params_of set).bind (fun t => (Multiset.range k).map
          (fun i => ((t.1 + i * p) % 2 ^ 32, (t.2.1 + i * p) % 2 ^ 32, t.2.2.1, t.2.2.2))) ∧
      (params_of r.set).map Prod.fst =
        ((params_of set).map Prod.fst).bind
          (fun a => (Multiset.range k).map (fun i => (a + i * p) % 2 ^ 32)) ∧
      (params_of r.set).map (fun t => t.2.1) =
        ((params_of set).map (fun t => t.2.1)).bind
          (fun d => (Multiset.range k).map (fun i => (d + i * p) % 2 ^ 32)) := by
  have hP : p ≠ 0 := by omega
  have hQ : k * p ≠ 0 := Nat.mul_ne_zero (by omega) hP
  have hdiv : k * p / p = k := Nat.mul_div_cancel k hp
  obtain ⟨h1, h2, h3, h4⟩ := reframe_value_params rt_info pool owner set p (k * p) hP hQ
    (Dvd.intro_left k rfl) (low_params_of set hlow)
  rw [hdiv] at h3
  unfold replicate_frames at h4
  rw [hdiv] at h4
  refine ⟨_, reframe_value rt_info pool owner set p (k * p),
    fun fuel hfuel => reframe_eq rt_info fuel pool owner set p (k * p) (fun _ => hQ) hfuel,
    h1, h2, reframe_value_subperm rt_info pool owner set p (k * p), h3, h4, ?_, ?_⟩
  · rw [h4, Multiset.map_bind, Multiset.bind_map]
    simp [Multiset.map_map, shift, Time_low, Function.comp_def]
  · rw [h4, Multiset.map_bind, Multiset.bind_map]
    simp [Multiset.map_map, shift, Time_low, Function.comp_def]

/-- A concrete instance of `reframe_to_multiple`: a set of period 2 reframed to
period 6. -/
theorem reframe_to_multiple_witness :
    ∃ (N : Nat) (r : Frames_Result),
      (∀ fuel, N ≤ fuel → reframe (fun _ => ⟨0, 0, 0, .OPERATION⟩) fuel ⟨[], 1⟩ 0
        [⟨⟨5, 50, 0, 0, 0, 1, 0, none, 0⟩⟩] 2 (3 * 2) = some r) ∧
      0 ≤ r.status ∧ r.period = 3 * 2 ∧
      List.Subperm [(⟨⟨5, 50, 0, 0, 0, 1, 0, none, 0⟩⟩ : Dispatch_Entry_Link)] r.set ∧
      r.set.length = 3 * [(⟨⟨5, 50, 0, 0, 0, 1, 0, none, 0⟩⟩ : Dispatch_Entry_Link)].length ∧
      params_of r.set =
        (params_of [⟨⟨5, 50, 0, 0, 0, 1, 0, none, 0⟩⟩]).bind
          (fun t => (Multiset.range 3).map
            (fun i => ((t.1 + i * 2) % 2 ^ 32, (t.2.1 + i * 2) % 2 ^ 32, t.2.2.1, t.2.2.2))) ∧
      (params_of r.set).map Prod.fst =
        ((params_of [⟨⟨5, 50, 0, 0, 0, 1, 0, none, 0⟩⟩]).map Prod.fst).bind
          (fun a => (Multiset.range 3).map (fun i => (a + i * 2) % 2 ^ 32)) ∧
      (params_of r.set).map (fun t => t.2.1) =
        ((params_of [⟨⟨5, 50, 0, 0, 0, 1, 0, none, 0⟩⟩]).map (fun t => t.2.1)).bind
          (fun d => (Multiset.range 3).map (fun i => (d + i * 2) % 2 ^ 32)) :=
  reframe_to_multiple (fun _ => ⟨0, 0, 0, .OPERATION⟩) ⟨[], 1⟩ 0
    [⟨⟨5, 50, 0, 0, 0, 1, 0, none, 0⟩⟩] 2 3 (by decide) (by decide) (by decide)

/-- C10, a counterexample to the arrivals as stated. `reframe` of the set of period
1 whose only dispatch has arrival and deadline 4294967295 to period `2 * 1`
succeeds and doubles the set, but the dispatch it creates for sub-frame 1 has
arrival and deadline 0: the arrivals are 0 and 4294967295, not 4294967295
and `4294967295 + 1 * 1 = 4294967296`. -/
theorem reframe_to_multiple_counterexample :
    (reframe (fun _ => ⟨0, 0, 0, .OPERATION⟩) 8 ⟨[], 1⟩ 0
        [link_of 4294967295 4294967295 5 50 0 0] 1 (2 * 1)).map
      (fun r => (r.status, r.period, r.set.map Dispatch_Entry_Link.params)) =
      some (1, 2, [(0, 0, 5, 50), (4294967295, 4294967295, 5, 50)]) ∧
    (4294967295 + 1 * 1 : Nat) ∉ [(0 : Nat), 4294967295] :=
  ⟨rfl, by decide⟩


/-! ## `merge_dispatches` and `prohibit_dispatches` -/

theorem prohibit_dispatches_loop_status (dt : Dependency_Type)
    (callers : List (Option Task_Entry_Link)) :
    prohibit_dispatches_loop dt callers = 0 ∨ prohibit_dispatches_loop dt callers = -1 := by
  induction callers with
  | nil => exact Or.inl rfl
  | cons l rest ih =>
    cases l with
    | none => exact Or.inr rfl
    | some link =>
      unfold prohibit_dispatches_loop
      split
      · exact Or.inr rfl
      · exact ih

theorem disjunctive_merge_loop_status (fuel self : Nat) (dt : Dependency_Type)
    (callers : List (Option Task_Entry_Link)) (s : Scheduler_State) (st : Int)
    (s' : Scheduler_State) (h : disjunctive_merge_loop fuel self dt callers s = some (st, s')) :
    st = 0 ∨ st = -1 := by
  induction callers generalizing s with
  | nil =>
    simp only [disjunctive_merge_loop, Option.some.injEq, Prod.mk.injEq] at h
    exact Or.inl h.1.symm
  | cons l rest ih =>
    cases l with
    | none =>
      simp only [disjunctive_merge_loop, Option.some.injEq, Prod.mk.injEq] at h
      exact Or.inr h.1.symm
    | some link =>
      unfold disjunctive_merge_loop at h
      split at h
      · split at h
        · cases h
        · split at h
          · simp only [Option.some.injEq, Prod.mk.injEq] at h
            exact Or.inr h.1.symm
          · exact ih _ h
      · exact ih _ h

/-- C1. For every state, `merge_dispatches` is the composition of two steps that the
info kind fixes: DISJUNCTION prohibits two-way calls and then merges the
one-way calls disjunctively, CONJUNCTION prohibits two-way calls and then
merges the one-way calls conjunctively, OPERATION merges the two-way calls
disjunctively and then, on the state so produced, the one-way calls
conjunctively; any other info kind yields -1. A failing first step yields -1
without the second step being run; otherwise the result is that of the second
step. -/
theorem merge_dispatches_composition (proxy_address : Nat → Nat) (fuel : Nat)
    (s : Scheduler_State) (self : Nat) :
    Task_Entry.merge_dispatches proxy_address fuel s self =
      merge_dispatches_as_specified proxy_address fuel s self := by
  unfold Task_Entry.merge_dispatches merge_dispatches_as_specified steps_in_sequence
  cases hk : (s.tasks self).rt_info.info_type with
  | DISJUNCTION =>
    simp only
    rcases prohibit_dispatches_loop_status .TWO_WAY_CALL (s.tasks self).callers with h | h
    · simp [Task_Entry.prohibit_dispatches, h]
    · simp [Task_Entry.prohibit_dispatches, h]
  | CONJUNCTION =>
    simp only
    rcases prohibit_dispatches_loop_status .TWO_WAY_CALL (s.tasks self).callers with h | h
    · simp [Task_Entry.prohibit_dispatches, h]
    · simp [Task_Entry.prohibit_dispatches, h]
  | OPERATION =>
    simp only
    cases hd : Task_Entry.disjunctive_merge fuel s self .TWO_WAY_CALL with
    | none => rfl
    | some x =>
      obtain ⟨st, s1⟩ := x
      rcases disjunctive_merge_loop_status fuel self _ _ s st s1 hd with h | h
      · simp [h]
      · simp [h]
  | other v => rfl

theorem prohibit_dispatches_loop_eq (dt : Dependency_Type)
    (callers : List (Option Task_Entry_Link)) (hnn : ∀ l ∈ callers, l ≠ none) :
    prohibit_dispatches_loop dt callers = -1 ↔
      ∃ link, some link ∈ callers ∧ link.dependency_type = dt := by
  induction callers with
  | nil => simp [prohibit_dispatches_loop]
  | cons l rest ih =>
    cases l with
    | none => exact absurd rfl (hnn none (List.mem_cons_self _ _))
    | some link =>
      have ih' := ih (fun l hl => hnn l (List.mem_cons_of_mem _ hl))
      unfold prohibit_dispatches_loop
      by_cases hdt : link.dependency_type = dt
      · simp only [hdt, if_true, true_iff]
        exact ⟨link, List.mem_cons_self _ _, hdt⟩
      · simp only [hdt, if_false, ih', List.mem_cons, Option.some.injEq]
        constructor
        · rintro ⟨l2, h2, h3⟩
          exact ⟨l2, Or.inr h2, h3⟩
        · rintro ⟨l2, h2 | h2, h3⟩
          · subst h2
            exact absurd h3 hdt
          · exact ⟨l2, h2, h3⟩

theorem prohibit_dispatches_loop_of_mem (dt : Dependency_Type)
    (callers : List (Option Task_Entry_Link)) (link : Task_Entry_Link)
    (hmem : some link ∈ callers) (hdt : link.dependency_type = dt) :
    prohibit_dispatches_loop dt callers = -1 := by
  induction callers with
  | nil => simp at hmem
  | cons l rest ih =>
    cases l with
    | none => rfl
    | some l2 =>
      unfold prohibit_dispatches_loop
      by_cases h2 : l2.dependency_type = dt
      · simp [h2]
      · simp only [h2, if_false]
        apply ih
        rcases List.mem_cons.mp hmem with h | h
        · simp only [Option.some.injEq] at h
          subst h
          exact absurd hdt h2
        · exact h

/-- C2. With non-null links, `prohibit_dispatches (dt)` returns -1 exactly when some
link of `callers_` has dependency type `dt`, and 0 otherwise; and
`merge_dispatches` on a DISJUNCTION or CONJUNCTION task with a two-way caller
returns -1 (leaving the state as it was). -/
theorem prohibit_dispatches_iff (proxy_address : Nat → Nat) (fuel : Nat) (s : Scheduler_State)
    (self : Nat) (dt : Dependency_Type)
    (hnn : ∀ l ∈ (s.tasks self).callers, l ≠ none) :
    ((s.tasks self).prohibit_dispatches dt = -1 ↔
        ∃ link, some link ∈ (s.tasks self).callers ∧ link.dependency_type = dt) ∧
      ((s.tasks self).prohibit_dispatches dt = 0 ↔
        ¬ ∃ link, some link ∈ (s.tasks self).callers ∧ link.dependency_type = dt) ∧
      (((s.tasks self).rt_info.info_type = .DISJUNCTION ∨
          (s.tasks self).rt_info.info_type = .CONJUNCTION) →
        (∃ link, some link ∈ (s.tasks self).callers ∧
          link.dependency_type = .TWO_WAY_CALL) →
        Task_Entry.merge_dispatches proxy_address fuel s self = some (-1, s)) := by
  have h1 := prohibit_dispatches_loop_eq dt (s.tasks self).callers hnn
  refine ⟨h1, ?_, ?_⟩
  · rw [← h1]
    unfold Task_Entry.prohibit_dispatches
    rcases prohibit_dispatches_loop_status dt (s.tasks self).callers with h | h
    · simp [h]
    · simp [h]
  · rintro hk ⟨link, hmem, hdt⟩
    have hp := prohibit_dispatches_loop_of_mem _ _ link hmem hdt
    unfold Task_Entry.merge_dispatches
    rcases hk with hk | hk
    · simp [hk, Task_Entry.prohibit_dispatches, hp]
    · simp [hk, Task_Entry.prohibit_dispatches, hp]


/-- A concrete instance of `prohibit_dispatches_iff`: a DISJUNCTION task with a two-way
caller. -/
theorem prohibit_dispatches_iff_witness :
    Task_Entry.merge_dispatches (fun k => k) 0
        (state_of [task_of .DISJUNCTION 2 [] [some ⟨1, 1, 0, .TWO_WAY_CALL⟩],
          task_of .OPERATION 2 [link_of 0 1 5 50 1 0] []] 1) 0 =
      some (-1, state_of [task_of .DISJUNCTION 2 [] [some ⟨1, 1, 0, .TWO_WAY_CALL⟩],
          task_of .OPERATION 2 [link_of 0 1 5 50 1 0] []] 1) :=
  (prohibit_dispatches_iff (fun k => k) 0
    (state_of [task_of .DISJUNCTION 2 [] [some ⟨1, 1, 0, .TWO_WAY_CALL⟩],
      task_of .OPERATION 2 [link_of 0 1 5 50 1 0] []] 1) 0 .TWO_WAY_CALL
    (by decide)).2.2 (Or.inl rfl) ⟨⟨1, 1, 0, .TWO_WAY_CALL⟩, by decide, rfl⟩

/-! ## What a merge adds -/

theorem store_tasks_self (s : Scheduler_State) (self : Nat) (r : Frames_Result) :
    ((s.store self r).tasks self).dispatches = r.set ∧
      ((s.store self r).tasks self).effective_period = r.period ∧
      ((s.store self r).tasks self).callers = (s.tasks self).callers ∧
      ((s.store self r).tasks self).rt_info = (s.tasks self).rt_info ∧
      (s.store self r).pool = r.pool := by
  simp [Scheduler_State.store]

theorem store_tasks_other (s : Scheduler_State) (self : Nat) (r : Frames_Result) (j : Nat)
    (hj : j ≠ self) : (s.store self r).tasks j = s.tasks j := by
  simp [Scheduler_State.store, Function.update_noteq hj]

theorem create_eq (S : List Dispatch_Entry_Link) (A V n start : Nat) :
    Dispatch_Proxy_Iterator.create S A V n start = initial_proxy S A V n start := by
  rw [initial_proxy_eq]
  unfold Dispatch_Proxy_Iterator.create Dispatch_Proxy_Iterator.first
    Ordered_MultiSet_Iterator.create Ordered_MultiSet_Iterator.first
  by_cases h : A * start ≥ V
  · simp [h]
  · by_cases hS : S.length = 0
    · simp [h, hS]
    · simp [h, hS]

theorem done_of_positions_nil (p : Dispatch_Proxy_Iterator) (hwf : p.wf)
    (h : p.positions = []) : p.done = true := by
  by_contra hd
  obtain ⟨l, -, hpos, -⟩ := positions_step p hwf (by simpa using hd)
  rw [h] at hpos
  cases hpos

theorem length_create_positions (S : List Dispatch_Entry_Link) (p F n : Nat) (hp : 0 < p)
    (hF : F ≠ 0) (hdvd : p ∣ F) (hn : 1 ≤ n) :
    (Dispatch_Proxy_Iterator.create S p F n 0).positions.length = S.length * (F / p) * n := by
  rw [create_eq, initial_proxy_positions, length_frames_from]
  have hq : 0 < F / p := Nat.div_pos (Nat.le_of_dvd (Nat.pos_of_ne_zero hF) hdvd) hp
  have h1 := later_frames_mul p (F / p) 0 hp hq
  rw [Nat.div_mul_cancel hdvd] at h1
  rw [h1]
  have h2 : n - 1 + 1 = n := by omega
  rw [h2]
  simp only [Nat.sub_zero]
  ring


/-- C6, the code at a failing input. On `lockstep_example` the latest arrival and
deadline are (1, 9) at the first joint position and (5, 8) at the second.
`conjunctive_merge` emits the values of the proxy it visits last: with the
proxy of task 2 at the higher address it emits (1, 2) and (4, 8), with the
proxy of task 1 at the higher address it emits (0, 9) and (5, 6). -/
theorem conjunctive_merge_latest_arrival_deadline :
    (Task_Entry.conjunctive_merge (fun k => k) 8 lockstep_example 0 .ONE_WAY_CALL).map
        (fun r => (r.1, (r.2.tasks 0).dispatches.map
          (fun l => (l.dispatch_entry.arrival, l.dispatch_entry.deadline)))) =
        some (1, [(1, 2), (4, 8)]) ∧
      (Task_Entry.conjunctive_merge (fun k => 9 - k) 8 lockstep_example 0 .ONE_WAY_CALL).map
        (fun r => (r.1, (r.2.tasks 0).dispatches.map
          (fun l => (l.dispatch_entry.arrival, l.dispatch_entry.deadline)))) =
        some (1, [(0, 9), (5, 6)]) := by
  decide

/-- C7, the code at a failing input. On `lockstep_example` the numerically largest
priority is 7 at both joint positions (OS priority 71 at the first, 70 at the
second). `conjunctive_merge` emits the priorities of the proxy it visits
last: with the proxy of task 2 at the higher address it emits (7, 71) and
(3, 31), with the proxy of task 1 at the higher address it emits (3, 30) and
(7, 70). -/
theorem conjunctive_merge_least_urgent_priority :
    (Task_Entry.conjunctive_merge (fun k => k) 8 lockstep_example 0 .ONE_WAY_CALL).map
        (fun r => (r.1, (r.2.tasks 0).dispatches.map
          (fun l => (l.dispatch_entry.priority, l.dispatch_entry.OS_priority)))) =
        some (1, [(7, 71), (3, 31)]) ∧
      (Task_Entry.conjunctive_merge (fun k => 9 - k) 8 lockstep_example 0 .ONE_WAY_CALL).map
        (fun r => (r.1, (r.2.tasks 0).dispatches.map
          (fun l => (l.dispatch_entry.priority, l.dispatch_entry.OS_priority)))) =
        some (1, [(3, 30), (7, 70)]) := by
  decide

/-! ## The statuses of reframe -/

/-- If the loop of `merge_frames` returns, it has emitted one dispatch per position
of its proxy. -/
theorem merge_frames_loop_some (rt_info : Nat → RT_Info) (owner : Nat) (fuel : Nat) :
    ∀ (p : Dispatch_Proxy_Iterator) (status : Int) (pool : Dispatch_Pool)
      (dest : List Dispatch_Entry_Link) (out : Int × Dispatch_Pool × List Dispatch_Entry_Link),
      p.wf → merge_frames_loop rt_info owner fuel p status pool dest = some out →
      out = (if p.positions = [] then status else 1,
        (emit_all rt_info owner p.positions pool dest).1,
        (emit_all rt_info owner p.positions pool dest).2) := by
  intro p status pool dest out hwf h
  have hlt : p.positions.length < fuel := by
    by_contra hge
    have hnone : ∀ (f : Nat) (q : Dispatch_Proxy_Iterator) (st : Int) (pl : Dispatch_Pool)
        (ds : List Dispatch_Entry_Link), q.wf → f ≤ q.positions.length →
        merge_frames_loop rt_info owner f q st pl ds = none := by
      intro f
      induction f with
      | zero => intro q st pl ds _ _; rfl
      | succ f ih =>
        intro q st pl ds hq hle
        have hd : q.done = false := by
          by_contra hc
          rw [positions_of_done q (by simpa using hc)] at hle
          simp at hle
        obtain ⟨l, -, hpos, hwf2⟩ := positions_step q hq hd
        rw [merge_frames_loop]
        simp only [hd, Bool.false_eq_true, if_false]
        apply ih _ _ _ _ hwf2
        rw [hpos] at hle
        simpa using hle
    rw [hnone fuel p status pool dest hwf (by omega)] at h
    cases h
  rw [merge_frames_loop_eq rt_info owner _ p fuel status pool dest hwf rfl hlt] at h
  exact (Option.some.inj h).symm

/-- If `reframe` returns, it returns its closed form, and no modulus had a zero
divisor. -/
theorem reframe_some (rt_info : Nat → RT_Info) (fuel : Nat) (pool : Dispatch_Pool) (owner : Nat)
    (set : List Dispatch_Entry_Link) (P Q : Nat) (r : Frames_Result)
    (h : reframe rt_info fuel pool owner set P Q = some r) :
    r = reframe_value rt_info pool owner set P Q ∧ (P ≠ 0 → Q ≠ 0) := by
  obtain ⟨f, rfl⟩ : ∃ f, fuel = f + 1 := by
    cases fuel with
    | zero => simp [reframe] at h
    | succ f => exact ⟨f, rfl⟩
  unfold reframe_value
  rw [reframe] at h
  by_cases hP : P = 0
  · simp only [hP, ne_eq, not_true_eq_false, if_false, Option.some.injEq] at h
    simp [hP, h.symm]
  · simp only [ne_eq, hP, not_false_eq_true, if_true] at h
    simp only [hP, if_false]
    by_cases hle : Q ≤ P
    · simp only [hle, if_true] at h
      by_cases hQ0 : Q = 0
      · simp [hQ0] at h
      · simp only [hQ0, if_false, Option.some.injEq] at h
        simp [hle, h.symm, hQ0]
    · have hQ0 : Q ≠ 0 := by omega
      simp only [hle, if_false] at h
      simp only [hle, if_false]
      by_cases hmod : Q % P = 0
      · simp only [hmod, not_true_eq_false, if_false] at h
        simp only [hmod, ne_eq, not_true_eq_false, if_false]
        refine ⟨?_, fun _ => hQ0⟩
        cases f with
        | zero => simp [merge_frames] at h
        | succ g =>
          rw [merge_frames, minimum_frame_size_of_dvd Q P hP hQ0 hmod] at h
          cases g with
          | zero => simp [reframe] at h
          | succ k =>
            rw [reframe] at h
            simp only [ne_eq, hQ0, not_false_eq_true, if_true, le_refl, if_false, Nat.mod_self,
              not_true_eq_false, lt_self_iff_false] at h
            have hwf : (initial_proxy (shallow_copy rt_info set []) P Q 1 1).wf :=
              initial_proxy_wf _ _ _ _ _ (Or.inr (Or.inl (Nat.pos_of_ne_zero hP)))
            unfold initial_proxy at hwf
            cases hloop : merge_frames_loop rt_info owner (k + 1 + 1)
                ((Dispatch_Proxy_Iterator.create (shallow_copy rt_info set []) P Q 1 1).first
                  1).2 0 pool set with
            | none =>
              rw [hloop] at h
              simp at h
            | some out =>
              rw [hloop] at h
              have hout := merge_frames_loop_some rt_info owner _ _ _ _ _ _ hwf hloop
              simp only [Option.some.injEq] at h
              rw [← h, hout]
              rfl
      · simp only [hmod, not_false_eq_true, if_true, Option.some.injEq] at h
        simp [hmod, h.symm, hQ0]

/-- The two cases in which `reframe` returns 0 and hands back what it was given. -/
theorem reframe_unchanged (rt_info : Nat → RT_Info) (fuel : Nat) (pool : Dispatch_Pool)
    (owner : Nat) (set : List Dispatch_Entry_Link) (P Q : Nat) (hfuel : 1 ≤ fuel)
    (h : (P = 0 ∧ Q = 0) ∨ (Q ≠ 0 ∧ Q ≤ P ∧ P % Q = 0)) :
    reframe rt_info fuel pool owner set P Q =
      some { status := 0, pool := pool, set := set, period := P } := by
  obtain ⟨f, rfl⟩ : ∃ f, fuel = f + 1 := ⟨fuel - 1, by omega⟩
  rw [reframe]
  rcases h with ⟨hP, hQ⟩ | ⟨hQ, hle, hmod⟩
  · simp [hP, hQ]
  · have hP : P ≠ 0 := by omega
    simp [hP, hle, hQ, hmod]

/-- C11. `reframe` is a no-op when the set already spans the target: for positive
periods with `new_period ≤ set_period` and `set_period % new_period = 0` it
returns 0 and leaves the set, the pool and the set period as they were. Hence,
after a `reframe` to `new_period` that did not fail, a second `reframe` to the
same period returns 0 and changes nothing. -/
theorem reframe_no_op (rt_info : Nat → RT_Info) (pool : Dispatch_Pool) (owner : Nat)
    (set : List Dispatch_Entry_Link) (P Q : Nat) :
    (0 < P → 0 < Q → Q ≤ P → P % Q = 0 → ∀ fuel, 1 ≤ fuel →
      reframe rt_info fuel pool owner set P Q =
        some { status := 0, pool := pool, set := set, period := P }) ∧
    (∀ fuel r, reframe rt_info fuel pool owner set P Q = some r → 0 ≤ r.status →
      ∀ fuel2, 1 ≤ fuel2 → reframe rt_info fuel2 r.pool owner r.set r.period Q =
        some { status := 0, pool := r.pool, set := r.set, period := r.period }) := by
  constructor
  · intro _ hQ hle hmod fuel hfuel
    exact reframe_unchanged rt_info fuel pool owner set P Q hfuel (Or.inr ⟨by omega, hle, hmod⟩)
  · intro fuel r h hst fuel2 hfuel2
    obtain ⟨hr, hQ⟩ := reframe_some rt_info fuel pool owner set P Q r h
    apply reframe_unchanged rt_info fuel2 r.pool owner r.set r.period Q hfuel2
    rw [hr] at hst ⊢
    unfold reframe_value at hst ⊢
    by_cases hP : P = 0
    · simp only [hP, if_true]
      by_cases hQ0 : Q = 0
      · exact Or.inl ⟨hQ0, hQ0⟩
      · exact Or.inr ⟨hQ0, le_refl _, Nat.mod_self _⟩
    · have hQ0 := hQ hP
      simp only [hP, if_false] at hst ⊢
      by_cases hle : Q ≤ P
      · simp only [hle, if_true] at hst ⊢
        by_cases hmod : P % Q = 0
        · exact Or.inr ⟨hQ0, trivial, hmod⟩
        · simp [hmod] at hst
      · simp only [hle, if_false] at hst ⊢
        by_cases hmod : Q % P = 0
        · simp only [hmod, ne_eq, not_true_eq_false, if_false]
          exact Or.inr ⟨hQ0, le_refl _, Nat.mod_self _⟩
        · simp [hmod] at hst

/-- A concrete instance of `reframe_no_op`: a set of period 6 reframed to period 3,
and a set of period 2 reframed to period 6 twice. -/
theorem reframe_no_op_witness :
    reframe (fun _ => ⟨0, 0, 0, .OPERATION⟩) 1 ⟨[], 1⟩ 0 [link_of 0 1 5 50 0 0] 6 3 =
        some { status := 0, pool := ⟨[], 1⟩, set := [link_of 0 1 5 50 0 0], period := 6 } ∧
      ∀ r, reframe (fun _ => ⟨0, 0, 0, .OPERATION⟩) 5 ⟨[], 1⟩ 0 [link_of 0 1 5 50 0 0] 2 6 =
          some r → 0 ≤ r.status →
        reframe (fun _ => ⟨0, 0, 0, .OPERATION⟩) 1 r.pool 0 r.set r.period 6 =
          some { status := 0, pool := r.pool, set := r.set, period := r.period } :=
  ⟨(reframe_no_op (fun _ => ⟨0, 0, 0, .OPERATION⟩) ⟨[], 1⟩ 0 [link_of 0 1 5 50 0 0] 6 3).1
      (by decide) (by decide) (by decide) (by decide) 1 (le_refl _),
    fun r h hst =>
      (reframe_no_op (fun _ => ⟨0, 0, 0, .OPERATION⟩) ⟨[], 1⟩ 0 [link_of 0 1 5 50 0 0] 2 6).2
        5 r h hst 1 (le_refl _)⟩

/-- C12. When no modulus has a zero divisor (`new_period ≠ 0` if `set_period ≠ 0`),
`reframe` returns, with enough fuel, and it returns -1 exactly when
`set_period ≠ 0` and the periods are not harmonic: `new_period > set_period`
with `new_period % set_period ≠ 0`, or `new_period ≤ set_period` with
`set_period % new_period ≠ 0`. On that failure the set, the pool and the set
period are unchanged. -/
theorem reframe_fails_iff (rt_info : Nat → RT_Info) (pool : Dispatch_Pool) (owner : Nat)
    (set : List Dispatch_Entry_Link) (P Q : Nat) (hQ : P ≠ 0 → Q ≠ 0) :
    ∃ (N : Nat) (r : Frames_Result),
      (∀ fuel, N ≤ fuel → reframe rt_info fuel pool owner set P Q = some r) ∧
      (r.status = -1 ↔ P ≠ 0 ∧ ((P < Q ∧ Q % P ≠ 0) ∨ (Q ≤ P ∧ P % Q ≠ 0))) ∧
      (r.status = -1 → r.set = set ∧ r.pool = pool ∧ r.period = P) := by
  refine ⟨_, reframe_value rt_info pool owner set P Q,
    fun fuel hfuel => reframe_eq rt_info fuel pool owner set P Q hQ hfuel, ?_, ?_⟩
  · unfold reframe_value
    by_cases hP : P = 0
    · simp [hP]
    · simp only [hP, if_false, ne_eq, not_false_eq_true, true_and]
      by_cases hle : Q ≤ P
      · simp only [hle, if_true, not_lt.mpr hle, false_and, false_or, true_and]
        by_cases hmod : P % Q = 0
        · simp [hmod]
        · simp [hmod]
      · have hlt : P < Q := by omega
        simp only [hle, if_false, hlt, true_and, false_and, or_false]
        by_cases hmod : Q % P = 0
        · simp only [hmod, not_true_eq_false, if_false, iff_false]
          split <;> decide
        · simp [hmod]
  · unfold reframe_value
    by_cases hP : P = 0
    · simp [hP]
    · simp only [hP, if_false]
      by_cases hle : Q ≤ P
      · simp [hle]
      · simp only [hle, if_false]
        by_cases hmod : Q % P = 0
        · simp only [hmod, ne_eq, not_true_eq_false, if_false]
          intro h
          split at h <;> exact absurd h (by decide)
        · simp [hmod]

/-- A concrete instance of `reframe_fails_iff`: set period 4, new period 10
returns -1 and changes nothing. -/
theorem reframe_fails_iff_witness :
    ∃ (N : Nat) (r : Frames_Result),
      (∀ fuel, N ≤ fuel → reframe (fun _ => ⟨0, 0, 0, .OPERATION⟩) fuel ⟨[], 1⟩ 0
        [link_of 0 1 5 50 0 0] 4 10 = some r) ∧
      r.status = -1 ∧ r.set = [link_of 0 1 5 50 0 0] ∧ r.pool = ⟨[], 1⟩ ∧ r.period = 4 := by
  obtain ⟨N, r, h1, h2, h3⟩ := reframe_fails_iff (fun _ => ⟨0, 0, 0, .OPERATION⟩) ⟨[], 1⟩ 0
    [link_of 0 1 5 50 0 0] 4 10 (fun _ => by decide)
  have hst : r.status = -1 := h2.mpr (by decide)
  exact ⟨N, r, h1, hst, h3 hst⟩

/-- C13 (as amended). When no modulus has a zero divisor, `reframe` returns, with
enough fuel; it returns 1 exactly when it added dispatches to the set, which
then has the new period, different from the old one; and when it returns 0
the set and the pool are unchanged. -/
theorem reframe_status (rt_info : Nat → RT_Info) (pool : Dispatch_Pool) (owner : Nat)
    (set : List Dispatch_Entry_Link) (P Q : Nat) (hQ : P ≠ 0 → Q ≠ 0) :
    ∃ (N : Nat) (r : Frames_Result),
      (∀ fuel, N ≤ fuel → reframe rt_info fuel pool owner set P Q = some r) ∧
      (r.status = 1 ↔ set.length < r.set.length) ∧
      (r.status = 1 → r.period = Q ∧ r.period ≠ P) ∧
      (r.status = 0 → r.set = set ∧ r.pool = pool) := by
  refine ⟨_, reframe_value rt_info pool owner set P Q,
    fun fuel hfuel => reframe_eq rt_info fuel pool owner set P Q hQ hfuel, ?_, ?_, ?_⟩
  · unfold reframe_value
    by_cases hP : P = 0
    · simp [hP]
    · simp only [hP, if_false]
      by_cases hle : Q ≤ P
      · simp only [hle, if_true, lt_self_iff_false, iff_false]
        split <;> decide
      · simp only [hle, if_false]
        by_cases hmod : Q % P = 0
        · simp only [hmod, ne_eq, not_true_eq_false, if_false, emit_all_length]
          by_cases hps : (initial_proxy (shallow_copy rt_info set []) P Q 1 1).positions = []
          · simp [hps]
          · have := List.length_pos.mpr hps
            simp only [hps, if_false, true_iff]
            omega
        · simp [hmod]
  · unfold reframe_value
    by_cases hP : P = 0
    · simp [hP]
    · simp only [hP, if_false]
      by_cases hle : Q ≤ P
      · simp only [hle, if_true]
        intro h
        split at h <;> exact absurd h (by decide)
      · simp only [hle, if_false]
        by_cases hmod : Q % P = 0
        · simp only [hmod, ne_eq, not_true_eq_false, if_false, true_and]
          intro _
          omega
        · simp [hmod]
  · unfold reframe_value
    by_cases hP : P = 0
    · simp [hP]
    · simp only [hP, if_false]
      by_cases hle : Q ≤ P
      · simp [hle]
      · simp only [hle, if_false]
        by_cases hmod : Q % P = 0
        · simp only [hmod, ne_eq, not_true_eq_false, if_false]
          intro h
          by_cases hps : (initial_proxy (shallow_copy rt_info set []) P Q 1 1).positions = []
          · simp [hps, emit_all]
          · simp [hps] at h
        · simp [hmod]

/-- C13, counterexample. A set of period 0 reframed to period 3, and an empty set of
period 2 reframed to period 6: the set period changes to a different value
and `reframe` returns 0. -/
theorem reframe_status_counterexample :
    (reframe (fun _ => ⟨0, 0, 0, .OPERATION⟩) 5 ⟨[], 1⟩ 0 [link_of 0 1 5 50 0 0] 0 3).map
        (fun r => (r.status, r.period)) = some (0, 3) ∧
      (reframe (fun _ => ⟨0, 0, 0, .OPERATION⟩) 5 ⟨[], 1⟩ 0 [] 2 6).map
        (fun r => (r.status, r.period)) = some (0, 6) := by
  decide

/-- A concrete instance of `reframe_status`: a set of period 2 with one dispatch,
reframed to period 6. -/
theorem reframe_status_witness :
    ∃ (N : Nat) (r : Frames_Result),
      (∀ fuel, N ≤ fuel → reframe (fun _ => ⟨0, 0, 0, .OPERATION⟩) fuel ⟨[], 1⟩ 0
        [link_of 0 1 5 50 0 0] 2 6 = some r) ∧
      (r.status = 1 ↔ [link_of 0 1 5 50 0 0].length < r.set.length) ∧
      (r.status = 1 → r.period = 6 ∧ r.period ≠ 2) ∧
      (r.status = 0 → r.set = [link_of 0 1 5 50 0 0] ∧ r.pool = ⟨[], 1⟩) :=
  reframe_status (fun _ => ⟨0, 0, 0, .OPERATION⟩) ⟨[], 1⟩ 0 [link_of 0 1 5 50 0 0] 2 6
    (fun _ => by decide)

/-! ## The first scenario -/

/-- C14, counterexample. In the scenario, `merge_dispatches` on the OPERATION task at
effective period 2 returns -1 and leaves it at period 2 without dispatches;
on the task with an uninitialised effective period it returns 1 and leaves it
at period 3 with the single dispatch (arrival 0, deadline 1, priority 5). In
neither case does the task reach period 6 with arrivals 0, 2 and 4. -/
theorem merge_dispatches_scenario_counterexample :
    (Task_Entry.merge_dispatches (fun k => k) 8 scenario_example 0).map
        (fun r => (r.1, (r.2.tasks 0).effective_period,
          (r.2.tasks 0).dispatches.map Dispatch_Entry_Link.params)) = some (-1, 2, []) ∧
      (Task_Entry.merge_dispatches (fun k => k) 8 scenario_uninitialised_example 0).map
        (fun r => (r.1, (r.2.tasks 0).effective_period,
          (r.2.tasks 0).dispatches.map Dispatch_Entry_Link.params)) =
        some (1, 3, [(0, 1, 5, 50)]) := by
  constructor <;> rfl

/-- On an OPERATION task whose only caller link is a one-way call,
`merge_dispatches` is `conjunctive_merge` over the one-way callers, and the
frame size of a single caller of period 3 is 3. -/
theorem merge_dispatches_one_way_operation (proxy_address : Nat → Nat) (s : Scheduler_State)
    (self c : Nat)
    (hkind : (s.tasks self).rt_info.info_type = .OPERATION)
    (hcallers : (s.tasks self).callers = [some ⟨1, c, self, .ONE_WAY_CALL⟩])
    (hp : (s.tasks c).effective_period = 3) (fuel : Nat) :
    Task_Entry.merge_dispatches proxy_address fuel s self =
      Task_Entry.conjunctive_merge proxy_address fuel s self .ONE_WAY_CALL ∧
    conjunctive_frame_size s.tasks .ONE_WAY_CALL (s.tasks self).callers 1 = .ok 3 := by
  constructor
  · unfold Task_Entry.merge_dispatches Task_Entry.disjunctive_merge
    simp [hkind, hcallers, disjunctive_merge_loop]
  · simp [hcallers, conjunctive_frame_size, hp, minimum_frame_size, gcd, gcd_loop]

/-- C14 (amended). An OPERATION task whose only caller is a one-way caller of
effective period 3 that calls once and holds one dispatch (arrival 0, deadline
1, priority 5): at effective period 2, `merge_dispatches` returns -1 (3 is not
a multiple of 2) and leaves the dispatches, the effective period and the set of
all dispatches as they were; at an uninitialised effective period 0 it returns
1, the effective period becomes 3, and exactly one dispatch with arrival 0,
deadline 1 and priority 5 is added. -/
theorem merge_dispatches_scenario (proxy_address : Nat → Nat) (s : Scheduler_State)
    (self c : Nat) (l : Dispatch_Entry_Link) (o : Int)
    (hkind : (s.tasks self).rt_info.info_type = .OPERATION)
    (hcallers : (s.tasks self).callers = [some ⟨1, c, self, .ONE_WAY_CALL⟩])
    (hc : c ≠ self) (hp : (s.tasks c).effective_period = 3)
    (hd : (s.tasks c).dispatches = [l]) (hl : l.params = (0, 1, 5, o)) :
    ((s.tasks self).effective_period = 2 →
      ∀ fuel, 1 ≤ fuel → ∃ s',
        Task_Entry.merge_dispatches proxy_address fuel s self = some (-1, s') ∧
        (s'.tasks self).dispatches = (s.tasks self).dispatches ∧
        (s'.tasks self).effective_period = 2 ∧ s'.pool = s.pool) ∧
    ((s.tasks self).effective_period = 0 →
      ∀ fuel, 2 ≤ fuel → ∃ s',
        Task_Entry.merge_dispatches proxy_address fuel s self = some (1, s') ∧
        (s'.tasks self).effective_period = 3 ∧
        params_of (s'.tasks self).dispatches =
          (0, 1, 5, o) ::ₘ params_of (s.tasks self).dispatches ∧
        s'.pool.dispatch_entries.length = s.pool.dispatch_entries.length + 1) := by
  have e1 := fun fuel =>
    (merge_dispatches_one_way_operation proxy_address s self c hkind hcallers hp fuel).1
  have e2 := (merge_dispatches_one_way_operation proxy_address s self c hkind hcallers hp 0).2
  constructor
  · intro h2 fuel hfuel
    obtain ⟨n, rfl⟩ : ∃ n, fuel = n + 1 := ⟨fuel - 1, by omega⟩
    refine ⟨s.store self ⟨-1, s.pool, (s.tasks self).dispatches, 2⟩, ?_, ?_, ?_, ?_⟩
    · rw [e1]
      unfold Task_Entry.conjunctive_merge
      rw [e2]
      simp [reframe, h2]
    · exact (store_tasks_self s self _).1
    · exact (store_tasks_self s self _).2.1
    · exact (store_tasks_self s self _).2.2.2.2
  · intro h0 fuel hfuel
    obtain ⟨n, rfl⟩ : ∃ n, fuel = n + 2 := ⟨fuel - 2, by omega⟩
    have hl1 : l.dispatch_entry.arrival = 0 := congrArg (fun t => t.1) hl
    have hl2 : l.dispatch_entry.deadline = 1 := congrArg (fun t => t.2.1) hl
    have hl3 : l.dispatch_entry.priority = 5 := congrArg (fun t => t.2.2.1) hl
    have hl4 : l.dispatch_entry.OS_priority = o := congrArg (fun t => t.2.2.2) hl
    have hs1c : ∀ r, ((s.store self r).tasks c) = s.tasks c :=
      fun r => store_tasks_other s self r c hc
    have hs1 : ∀ r, ((s.store self r).tasks self).callers = (s.tasks self).callers :=
      fun r => (store_tasks_self s self r).2.2.1
    rw [e1]
    unfold Task_Entry.conjunctive_merge
    rw [e2]
    simp only [reframe, h0, ne_eq, not_true_eq_false, if_false]
    simp only [hs1, hcallers, conjunctive_proxies, hs1c, hp, hd, if_true]
    simp [Dispatch_Proxy_Iterator.create, Dispatch_Proxy_Iterator.first,
      Dispatch_Proxy_Iterator.done, Ordered_MultiSet_Iterator.create,
      Ordered_MultiSet_Iterator.first, Ordered_MultiSet_Iterator.done,
      Ordered_MultiSet.insert, conjunctive_loop, conjunctive_walk,
      Dispatch_Proxy_Iterator.arrival, Dispatch_Proxy_Iterator.deadline,
      Dispatch_Proxy_Iterator.priority, Dispatch_Proxy_Iterator.OS_priority,
      Dispatch_Proxy_Iterator.advance, Ordered_MultiSet_Iterator.advance,
      Ordered_MultiSet_Iterator.next, hl1, hl2, hl3, hl4]
    refine ⟨?_, ?_, ?_⟩
    · rw [(store_tasks_self _ self _).2.1]
      exact (store_tasks_self s self _).2.1
    · rw [(store_tasks_self _ self _).1, params_of_perm (insert_perm _ _ _),
        (store_tasks_self s self _).1]
      simp [params_of, Dispatch_Entry_Link.params, Dispatch_Entry.create, Time_low]
    · rw [(store_tasks_self _ self _).2.2.2.2]
      simp [(store_tasks_self s self _).2.2.2.2]

/-- A concrete instance of `merge_dispatches_scenario`: on `scenario_example` the
status is -1 and the task keeps period 2 and no dispatches; on
`scenario_uninitialised_example` the status is 1, the period becomes 3 and the
one dispatch (0, 1, 5) is added. -/
theorem merge_dispatches_scenario_witness :
    (∃ s', Task_Entry.merge_dispatches (fun k => k) 8 scenario_example 0 = some (-1, s') ∧
        (s'.tasks 0).dispatches = [] ∧ (s'.tasks 0).effective_period = 2 ∧
        s'.pool = scenario_example.pool) ∧
      (∃ s', Task_Entry.merge_dispatches (fun k => k) 8 scenario_uninitialised_example 0 =
          some (1, s') ∧
        (s'.tasks 0).effective_period = 3 ∧
        params_of (s'.tasks 0).dispatches = (0, 1, 5, 50) ::ₘ 0 ∧
        s'.pool.dispatch_entries.length = 1) :=
  ⟨(merge_dispatches_scenario (fun k => k) scenario_example 0 1 (link_of 0 1 5 50 1 0) 50
      rfl rfl (by decide) rfl rfl rfl).1 rfl 8 (by decide),
    (merge_dispatches_scenario (fun k => k) scenario_uninitialised_example 0 1
      (link_of 0 1 5 50 1 0) 50 rfl rfl (by decide) rfl rfl rfl).2 rfl 8 (by decide)⟩

/-! ## Frame sizes and the order of dispatches -/

/-- C18. Over the natural numbers, `minimum_frame_size (p1, p2)` is `p2` if `p1 = 0`,
`p1` if `p2 = 0`, and the least common multiple when both are positive, in
which case both arguments divide it; in particular `mfs (0, p) = mfs (p, 0) =
mfs (p, p) = p`. -/
theorem minimum_frame_size_spec (p1 p2 : Nat) :
    (p1 = 0 → minimum_frame_size p1 p2 = p2) ∧
    (p2 = 0 → minimum_frame_size p1 p2 = p1) ∧
    (0 < p1 → 0 < p2 →
      minimum_frame_size p1 p2 = Nat.lcm p1 p2 ∧
        minimum_frame_size p1 p2 % p1 = 0 ∧ minimum_frame_size p1 p2 % p2 = 0) ∧
    minimum_frame_size 0 p1 = p1 ∧ minimum_frame_size p1 0 = p1 ∧
    minimum_frame_size p1 p1 = p1 := by
  refine ⟨?_, ?_, ?_, minimum_frame_size_zero_left p1, minimum_frame_size_zero_right p1, ?_⟩
  · rintro rfl
    exact minimum_frame_size_zero_left p2
  · rintro rfl
    exact minimum_frame_size_zero_right p1
  · intro h1 h2
    rw [minimum_frame_size_eq_lcm p1 p2 h1 h2]
    exact ⟨rfl, Nat.mod_eq_zero_of_dvd (Nat.dvd_lcm_left p1 p2),
      Nat.mod_eq_zero_of_dvd (Nat.dvd_lcm_right p1 p2)⟩
  · rcases Nat.eq_zero_or_pos p1 with h | h
    · subst h
      exact minimum_frame_size_zero_left 0
    · rw [minimum_frame_size_eq_lcm p1 p1 h h, Nat.lcm_self]

/-- C19. `gcd (x, y)` terminates: the second argument of the recursive call is
smaller, `y + 1` calls are enough and more change nothing. It satisfies the
recursion of the source and returns the greatest common divisor: it divides
`x` and `y`, every common divisor divides it, `gcd (x, 0) = x`,
`gcd (0, y) = y` and `gcd (x, y) = gcd (y, x)`. -/
theorem gcd_spec (x y : Nat) :
    (∀ fuel, y < fuel → gcd_loop fuel x y = gcd x y) ∧
    (y ≠ 0 → x % y < y) ∧
    gcd x y = (if y = 0 then x else gcd y (x % y)) ∧
    gcd x y ∣ x ∧ gcd x y ∣ y ∧ (∀ d, d ∣ x → d ∣ y → d ∣ gcd x y) ∧
    gcd x 0 = x ∧ gcd 0 y = y ∧ gcd x y = gcd y x := by
  refine ⟨?_, ?_, gcd_unfold x y, ?_, ?_, ?_, ?_, ?_, ?_⟩
  · intro fuel hfuel
    rw [gcd_loop_eq fuel x y hfuel, gcd_eq_nat_gcd]
  · intro hy
    exact Nat.mod_lt _ (Nat.pos_of_ne_zero hy)
  · rw [gcd_eq_nat_gcd]
    exact Nat.gcd_dvd_left x y
  · rw [gcd_eq_nat_gcd]
    exact Nat.gcd_dvd_right x y
  · intro d hx hy
    rw [gcd_eq_nat_gcd]
    exact Nat.dvd_gcd hx hy
  · rw [gcd_eq_nat_gcd, Nat.gcd_zero_right]
  · rw [gcd_eq_nat_gcd, Nat.gcd_zero_left]
  · rw [gcd_eq_nat_gcd, gcd_eq_nat_gcd, Nat.gcd_comm]

/-- The order `Dispatch_Entry::operator <` as a lexicographic comparison of the
four keys. -/
theorem dispatch_lt_iff (rt_info : Nat → RT_Info) (a d : Dispatch_Entry) :
    Dispatch_Entry.lt rt_info a d = true ↔
      a.arrival < d.arrival ∨ (a.arrival = d.arrival ∧
        (d.priority < a.priority ∨ (a.priority = d.priority ∧
          (a.laxity rt_info < d.laxity rt_info ∨ (a.laxity rt_info = d.laxity rt_info ∧
            (rt_info d.task_entry).importance < (rt_info a.task_entry).importance))))) := by
  unfold Dispatch_Entry.lt Dispatch_Entry.laxity
  by_cases h1 : a.arrival = d.arrival
  · by_cases h2 : a.priority = d.priority
    · by_cases h3 : to_ACE_INT32 ((a.deadline : Int) -
          ((rt_info a.task_entry).worst_case_execution_time : Int)) =
          to_ACE_INT32 ((d.deadline : Int) -
            ((rt_info d.task_entry).worst_case_execution_time : Int))
      · simp [h1, h2, h3]
      · simp [h1, h2, h3]
    · simp only [h1, ne_eq, not_true_eq_false, if_false, h2, not_false_eq_true, if_true,
        gt_iff_lt, decide_eq_true_eq, lt_self_iff_false, true_and, false_or, false_and,
        or_false]
  · simp only [ne_eq, h1, not_false_eq_true, if_true, decide_eq_true_eq, false_and, or_false]

/-- The comparison is `false` exactly when it is not `true`. -/
theorem dispatch_lt_false_iff (rt_info : Nat → RT_Info) (a d : Dispatch_Entry) :
    Dispatch_Entry.lt rt_info a d = false ↔ ¬ Dispatch_Entry.lt rt_info a d = true := by
  simp

/-- C15. `Dispatch_Entry::operator <` is a strict weak order, whatever the arrivals,
priorities, deadlines, worst case execution times (the laxity being a signed
32-bit difference) and importances: it is irreflexive, asymmetric and
transitive, and incomparability is transitive. -/
theorem dispatch_lt_strict_weak_order (rt_info : Nat → RT_Info) :
    (∀ a, Dispatch_Entry.lt rt_info a a = false) ∧
    (∀ a b, Dispatch_Entry.lt rt_info a b = true → Dispatch_Entry.lt rt_info b a = false) ∧
    (∀ a b c, Dispatch_Entry.lt rt_info a b = true → Dispatch_Entry.lt rt_info b c = true →
      Dispatch_Entry.lt rt_info a c = true) ∧
    (∀ a b c, Dispatch_Entry.lt rt_info a b = false → Dispatch_Entry.lt rt_info b a = false →
      Dispatch_Entry.lt rt_info b c = false → Dispatch_Entry.lt rt_info c b = false →
      Dispatch_Entry.lt rt_info a c = false ∧ Dispatch_Entry.lt rt_info c a = false) := by
  refine ⟨?_, ?_, ?_, ?_⟩
  · intro a
    rw [dispatch_lt_false_iff, dispatch_lt_iff]
    omega
  · intro a b
    rw [dispatch_lt_false_iff, dispatch_lt_iff, dispatch_lt_iff]
    omega
  · intro a b c
    rw [dispatch_lt_iff, dispatch_lt_iff, dispatch_lt_iff]
    omega
  · intro a b c
    simp only [dispatch_lt_false_iff, dispatch_lt_iff]
    omega

/-- C16. If two dispatches differ in one of the four keys (arrival, priority,
laxity, importance), exactly one of `a < b` and `b < a` holds; if they agree
in all four, neither holds. -/
theorem dispatch_lt_total_on_keys (rt_info : Nat → RT_Info) (a b : Dispatch_Entry) :
    (a.keys rt_info ≠ b.keys rt_info →
      (Dispatch_Entry.lt rt_info a b = true ∧ Dispatch_Entry.lt rt_info b a = false) ∨
        (Dispatch_Entry.lt rt_info a b = false ∧ Dispatch_Entry.lt rt_info b a = true)) ∧
    (a.keys rt_info = b.keys rt_info →
      Dispatch_Entry.lt rt_info a b = false ∧ Dispatch_Entry.lt rt_info b a = false) := by
  simp only [Dispatch_Entry.keys, ne_eq, Prod.mk.injEq, dispatch_lt_false_iff, dispatch_lt_iff]
  constructor
  · intro h
    omega
  · intro h
    omega

/-- A concrete instance of `dispatch_lt_total_on_keys`: two dispatches that differ in
their deadline only, hence in their laxity. -/
theorem dispatch_lt_total_on_keys_witness :
    Dispatch_Entry.lt (fun _ => ⟨0, 1, 0, .OPERATION⟩) (link_of 0 4 5 50 0 0).dispatch_entry
        (link_of 0 7 5 50 0 1).dispatch_entry = true ∧
      Dispatch_Entry.lt (fun _ => ⟨0, 1, 0, .OPERATION⟩) (link_of 0 7 5 50 0 1).dispatch_entry
        (link_of 0 4 5 50 0 0).dispatch_entry = false :=
  ((dispatch_lt_total_on_keys (fun _ => ⟨0, 1, 0, .OPERATION⟩)
      (link_of 0 4 5 50 0 0).dispatch_entry (link_of 0 7 5 50 0 1).dispatch_entry).1
    (by decide)).resolve_right (by decide)

/-- C17, the code at a failing input. Two dispatches of one task with the same
arrival and deadline and priorities 0 and 1: the one with priority 1, the
less urgent one, orders first. -/
theorem dispatch_lt_priority :
    Dispatch_Entry.lt (fun _ => ⟨0, 1, 0, .OPERATION⟩) (link_of 0 4 0 50 0 0).dispatch_entry
        (link_of 0 4 1 50 0 1).dispatch_entry = false ∧
      Dispatch_Entry.lt (fun _ => ⟨0, 1, 0, .OPERATION⟩) (link_of 0 4 1 50 0 1).dispatch_entry
        (link_of 0 4 0 50 0 0).dispatch_entry = true := by
  decide

/-! ## The forward traversal of a proxy -/

/-- The forward traversal from a proxy with `n` positions left visits `n` more
positions, given more than `n` units of fuel. -/
theorem forward_traversal_eq (n : Nat) :
    ∀ (q : Dispatch_Proxy_Iterator) (fuel visited : Nat), q.wf → q.positions.length = n →
      n < fuel → forward_traversal fuel q visited = some (visited + n) := by
  induction n with
  | zero =>
    intro q fuel visited hwf hlen hfuel
    obtain ⟨f, rfl⟩ : ∃ f, fuel = f + 1 := ⟨fuel - 1, by omega⟩
    have hd := done_of_positions_nil q hwf (List.length_eq_zero.mp hlen)
    simp [forward_traversal, hd]
  | succ n ih =>
    intro q fuel visited hwf hlen hfuel
    obtain ⟨f, rfl⟩ : ∃ f, fuel = f + 1 := ⟨fuel - 1, by omega⟩
    have hd : q.done = false := by
      by_contra h
      rw [positions_of_done q (by simpa using h)] at hlen
      cases hlen
    obtain ⟨l, -, hpos, hwf2⟩ := positions_step q hwf hd
    have hlen2 : q.advance.2.positions.length = n := by
      rw [hpos] at hlen
      simpa using hlen
    rw [forward_traversal]
    simp only [hd, Bool.false_eq_true, if_false]
    rw [ih q.advance.2 f (visited + 1) hwf2 hlen2 (by omega)]
    congr 1
    omega

/-- With a positive virtual frame size, `first (0)` puts a proxy into the state the loop
of `merge_frames` starts from. -/
theorem first_zero_eq (p : Dispatch_Proxy_Iterator) (hV : 0 < p.virtual_frame_size) :
    (p.first 0).2 = initial_proxy p.iter.set p.actual_frame_size p.virtual_frame_size
      p.number_of_calls 0 := by
  rw [initial_proxy_eq]
  unfold Dispatch_Proxy_Iterator.first Ordered_MultiSet_Iterator.first
  have h : p.virtual_frame_size ≠ 0 := by omega
  by_cases hS : p.iter.set.length = 0
  · simp [h, hS]
  · simp [h, hS]

/-- C20. For a proxy over a set of size `s` with a positive actual frame size, a
virtual frame size that is a positive multiple of it and at least one call,
the forward traversal `first (0); while not done: advance ()` ends (with
enough fuel) and visits exactly `s * (p_virtual / p_actual) * n` positions. -/
theorem forward_traversal_count (p : Dispatch_Proxy_Iterator) (k : Nat)
    (hA : 0 < p.actual_frame_size) (hk : 0 < k)
    (hV : p.virtual_frame_size = k * p.actual_frame_size) (hn : 1 ≤ p.number_of_calls) :
    ∃ N, ∀ fuel, N ≤ fuel →
      forward_traversal fuel (p.first 0).2 0 =
        some (p.iter.set.length * (p.virtual_frame_size / p.actual_frame_size) *
          p.number_of_calls) := by
  have hVpos : 0 < p.virtual_frame_size := by
    rw [hV]
    exact Nat.mul_pos hk hA
  have hdvd : p.actual_frame_size ∣ p.virtual_frame_size := ⟨k, by rw [hV, Nat.mul_comm]⟩
  have hlen := length_create_positions p.iter.set p.actual_frame_size p.virtual_frame_size
    p.number_of_calls hA (by omega) hdvd hn
  rw [create_eq] at hlen
  refine ⟨p.iter.set.length * (p.virtual_frame_size / p.actual_frame_size) *
    p.number_of_calls + 1, ?_⟩
  intro fuel hfuel
  rw [first_zero_eq p hVpos,
    forward_traversal_eq _ _ fuel 0 (initial_proxy_wf _ _ _ _ _ (Or.inr (Or.inl hA))) hlen
      (by omega)]
  simp

/-- A concrete instance of `forward_traversal_count`: two links, actual frame 2,
virtual frame 6, three calls give 18 positions. -/
theorem forward_traversal_count_witness :
    ∃ N, ∀ fuel, N ≤ fuel →
      forward_traversal fuel
        ((Dispatch_Proxy_Iterator.create [link_of 0 1 5 50 0 0, link_of 1 2 5 50 0 1]
          2 6 3 0).first 0).2 0 = some 18 :=
  forward_traversal_count
    (Dispatch_Proxy_Iterator.create [link_of 0 1 5 50 0 0, link_of 1 2 5 50 0 1] 2 6 3 0) 3
    (by decide) (by decide) (by decide) (by decide)

/-! ## The positions of a forward traversal -/

/-- C24, the code at a failing input. On a proxy over two dispatches (actual frame 2,
virtual frame 6, one call), `last ()` sets `current_call` to 0 and the frame
offset to 4 but leaves the inner iterator on the first dispatch (node 0,
arrival 0 + 4), not on the last one (node 1), and `advance ()` from there
returns 1 and moves to node 1 instead of reporting the end. -/
theorem last_position :
    ((Dispatch_Proxy_Iterator.create [link_of 0 1 5 50 0 0, link_of 1 2 5 50 0 1]
        2 6 1 0).last.2.position,
      (Dispatch_Proxy_Iterator.create [link_of 0 1 5 50 0 0, link_of 1 2 5 50 0 1]
        2 6 1 0).last.2.arrival,
      (Dispatch_Proxy_Iterator.create [link_of 0 1 5 50 0 0, link_of 1 2 5 50 0 1]
        2 6 1 0).last.2.advance.1,
      (Dispatch_Proxy_Iterator.create [link_of 0 1 5 50 0 0, link_of 1 2 5 50 0 1]
        2 6 1 0).last.2.advance.2.position) =
      ((some 0, 0, 4), 4, 1, (some 1, 0, 4)) := by
  decide

/-! ## What the merge operations create and what they leave alone -/

theorem created_for_refl (owner : Nat) (pool : Dispatch_Pool) (set : List Dispatch_Entry_Link) :
    created_for owner pool set pool set :=
  ⟨[], by simp, by simp, by simp, by simp, by simp⟩

/-- Dispatches created in two steps. -/
theorem created_for_trans {owner : Nat} {p1 p2 p3 : Dispatch_Pool}
    {s1 s2 s3 : List Dispatch_Entry_Link} (h12 : created_for owner p1 s1 p2 s2)
    (h23 : created_for owner p2 s2 p3 s3) : created_for owner p1 s1 p3 s3 := by
  obtain ⟨E1, a1, a2, a3, a4, a5⟩ := h12
  obtain ⟨E2, b1, b2, b3, b4, b5⟩ := h23
  refine ⟨E1 ++ E2, ?_, ?_, ?_, ?_, ?_⟩
  · rw [b1, a1, List.append_assoc]
  · rw [b2, a2, List.length_append, Nat.add_assoc]
  · rw [List.map_append, a3, b3, a2, List.length_append, Nat.add_comm E1.length E2.length,
      List.range'_append_1]
  · intro e he
    rcases List.mem_append.mp he with h | h
    · exact a4 e h
    · exact b4 e h
  · refine b5.trans ?_
    rw [List.map_append, ← List.append_assoc]
    exact List.Perm.append_right _ a5

/-- The creation of one dispatch for `owner` and the insertion of its link. -/
theorem created_for_step (rt_info : Nat → RT_Info) (owner : Nat) (pool : Dispatch_Pool)
    (set : List Dispatch_Entry_Link) (arrival deadline : Nat) (priority os_priority : Int) :
    created_for owner pool set
      { dispatch_entries := pool.dispatch_entries ++
          [(Dispatch_Entry.create pool.next_id arrival deadline priority os_priority owner none).1]
        next_id :=
          (Dispatch_Entry.create pool.next_id arrival deadline priority os_priority owner none).2 }
      (Ordered_MultiSet.insert (Dispatch_Entry_Link.lt rt_info)
        ⟨(Dispatch_Entry.create pool.next_id arrival deadline priority os_priority owner none).1⟩
        set) := by
  refine ⟨[(Dispatch_Entry.create pool.next_id arrival deadline priority os_priority owner
    none).1], rfl, rfl, ?_, ?_, ?_⟩
  · simp [Dispatch_Entry.create]
  · intro e he
    simp only [List.mem_singleton] at he
    subst he
    rfl
  · refine (insert_perm _ _ _).trans ?_
    simp only [List.map_cons, List.map_nil]
    exact (List.perm_append_singleton _ _).symm

/-- Whatever the loop of `merge_frames` returns, it has only created dispatches for
`owner`. -/
theorem merge_frames_loop_created (rt_info : Nat → RT_Info) (owner : Nat) (fuel : Nat) :
    ∀ (p : Dispatch_Proxy_Iterator) (status : Int) (pool : Dispatch_Pool)
      (dest : List Dispatch_Entry_Link) (out : Int × Dispatch_Pool × List Dispatch_Entry_Link),
      merge_frames_loop rt_info owner fuel p status pool dest = some out →
      created_for owner pool dest out.2.1 out.2.2 := by
  induction fuel with
  | zero =>
    intro p status pool dest out h
    simp [merge_frames_loop] at h
  | succ f ih =>
    intro p status pool dest out h
    rw [merge_frames_loop] at h
    split at h
    · simp only [Option.some.injEq] at h
      subst h
      exact created_for_refl _ _ _
    · exact created_for_trans (created_for_step rt_info owner pool dest _ _ _ _)
        (ih _ _ _ _ _ h)

/-- Whatever `reframe` and `merge_frames` return, they have only created dispatches
for `owner`. -/
theorem frames_created (rt_info : Nat → RT_Info) (fuel : Nat) :
    (∀ (pool : Dispatch_Pool) (owner : Nat) (set : List Dispatch_Entry_Link) (P Q : Nat)
        (r : Frames_Result), reframe rt_info fuel pool owner set P Q = some r →
        created_for owner pool set r.pool r.set) ∧
    (∀ (pool : Dispatch_Pool) (owner : Nat) (dest src : List Dispatch_Entry_Link)
        (dp sp n start : Nat) (r : Frames_Result),
        merge_frames rt_info fuel pool owner dest src dp sp n start = some r →
        created_for owner pool dest r.pool r.set) := by
  induction fuel with
  | zero =>
    constructor
    · intro pool owner set P Q r h
      simp [reframe] at h
    · intro pool owner dest src dp sp n start r h
      simp [merge_frames] at h
  | succ f ih =>
    obtain ⟨ihr, ihm⟩ := ih
    constructor
    · intro pool owner set P Q r h
      rw [reframe] at h
      split at h
      · split at h
        · split at h
          · cases h
          · simp only [Option.some.injEq] at h
            subst h
            exact created_for_refl _ _ _
        · split at h
          · simp only [Option.some.injEq] at h
            subst h
            exact created_for_refl _ _ _
          · dsimp only at h
            split at h
            · cases h
            · rename_i r1 hr1
              simp only [Option.some.injEq] at h
              subst h
              exact ihm _ _ _ _ _ _ _ _ r1 hr1
      · simp only [Option.some.injEq] at h
        subst h
        exact created_for_refl _ _ _
    · intro pool owner dest src dp sp n start r h
      rw [merge_frames] at h
      split at h
      · cases h
      · rename_i r0 hr0
        have h1 := ihr _ _ _ _ _ _ hr0
        split at h
        · simp only [Option.some.injEq] at h
          subst h
          exact h1
        · dsimp only at h
          split at h
          · cases h
          · rename_i st pl ds hloop
            simp only [Option.some.injEq] at h
            subst h
            exact created_for_trans h1 (merge_frames_loop_created _ _ _ _ _ _ _ _ hloop)

/-- Whatever the loop of `conjunctive_merge` returns, it has only created
dispatches for `owner`. -/
theorem conjunctive_loop_created (rt_info : Nat → RT_Info) (owner : Nat) (fuel : Nat) :
    ∀ (more : Int) (conj_set : List (Nat × Dispatch_Proxy_Iterator)) (result : Int)
      (pool : Dispatch_Pool) (set : List Dispatch_Entry_Link)
      (out : Int × Dispatch_Pool × List Dispatch_Entry_Link),
      conjunctive_loop rt_info owner fuel more conj_set result pool set = some out →
      created_for owner pool set out.2.1 out.2.2 := by
  induction fuel with
  | zero =>
    intro more conj_set result pool set out h
    simp [conjunctive_loop] at h
  | succ f ih =>
    intro more conj_set result pool set out h
    rw [conjunctive_loop] at h
    split at h
    · simp only [Option.some.injEq] at h
      subst h
      exact created_for_refl _ _ _
    · exact created_for_trans (created_for_step rt_info owner pool set _ _ _ _)
        (ih _ _ _ _ _ _ h)

/-- A state is itself after no merge. -/
theorem merged_for_refl (self : Nat) (s : Scheduler_State) : s.merged_for self s :=
  ⟨created_for_refl _ _ _, rfl, rfl, fun _ _ => rfl⟩

/-- Merges into the same task, one after the other. -/
theorem merged_for_trans {self : Nat} {s1 s2 s3 : Scheduler_State}
    (h12 : s1.merged_for self s2) (h23 : s2.merged_for self s3) : s1.merged_for self s3 := by
  obtain ⟨a1, a2, a3, a4⟩ := h12
  obtain ⟨b1, b2, b3, b4⟩ := h23
  exact ⟨created_for_trans a1 b1, b2.trans a2, b3.trans a3,
    fun j hj => (b4 j hj).trans (a4 j hj)⟩

/-- Storing the result of a merge into the task `self`. -/
theorem merged_for_store (self : Nat) (s : Scheduler_State) (r : Frames_Result)
    (h : created_for self s.pool (s.tasks self).dispatches r.pool r.set) :
    s.merged_for self (s.store self r) := by
  obtain ⟨e1, -, e3, e4, e5⟩ := store_tasks_self s self r
  refine ⟨?_, e3, e4, fun j hj => store_tasks_other s self r j hj⟩
  rw [e1, e5]
  exact h

/-- Whatever the loop of `disjunctive_merge` returns, the state it leaves is the old
one after merges into the task `self`. -/
theorem disjunctive_merge_loop_merged (fuel self : Nat) (dt : Dependency_Type)
    (callers : List (Option Task_Entry_Link)) (s : Scheduler_State)
    (out : Int × Scheduler_State)
    (h : disjunctive_merge_loop fuel self dt callers s = some out) :
    s.merged_for self out.2 := by
  induction callers generalizing s with
  | nil =>
    simp only [disjunctive_merge_loop, Option.some.injEq] at h
    subst h
    exact merged_for_refl _ _
  | cons l rest ih =>
    cases l with
    | none =>
      simp only [disjunctive_merge_loop, Option.some.injEq] at h
      subst h
      exact merged_for_refl _ _
    | some link =>
      unfold disjunctive_merge_loop at h
      split at h
      · split at h
        · cases h
        · rename_i r hr
          have h1 := merged_for_store self s r ((frames_created _ fuel).2 _ _ _ _ _ _ _ _ r hr)
          split at h
          · simp only [Option.some.injEq] at h
            subst h
            exact h1
          · exact merged_for_trans h1 (ih _ h)
      · exact ih _ h

/-- Whatever `conjunctive_merge` returns, the state it leaves is the old one after
merges into the task `self`. -/
theorem conjunctive_merge_merged (proxy_address : Nat → Nat) (fuel : Nat) (s : Scheduler_State)
    (self : Nat) (dt : Dependency_Type) (out : Int × Scheduler_State)
    (h : Task_Entry.conjunctive_merge proxy_address fuel s self dt = some out) :
    s.merged_for self out.2 := by
  unfold Task_Entry.conjunctive_merge at h
  split at h
  · simp only [Option.some.injEq] at h
    subst h
    exact merged_for_refl _ _
  · split at h
    · cases h
    · rename_i r hr
      have h1 := merged_for_store self s r ((frames_created _ fuel).1 _ _ _ _ _ _ hr)
      dsimp only at h
      split at h
      · simp only [Option.some.injEq] at h
        subst h
        exact h1
      · split at h
        · simp only [Option.some.injEq] at h
          subst h
          exact h1
        · split at h
          · cases h
          · rename_i result pool dispatches hloop
            simp only [Option.some.injEq] at h
            subst h
            exact merged_for_trans h1 (merged_for_store self _ _
              (conjunctive_loop_created _ _ _ _ _ _ _ _ _ hloop))

/-- Whatever `merge_dispatches` returns, the state it leaves is the old one after
merges into the task `self`. -/
theorem merge_dispatches_merged (proxy_address : Nat → Nat) (fuel : Nat) (s : Scheduler_State)
    (self : Nat) (out : Int × Scheduler_State)
    (h : Task_Entry.merge_dispatches proxy_address fuel s self = some out) :
    s.merged_for self out.2 := by
  unfold Task_Entry.merge_dispatches at h
  split at h
  · dsimp only at h
    split at h
    · exact disjunctive_merge_loop_merged _ _ _ _ _ _ h
    · simp only [Option.some.injEq] at h
      subst h
      exact merged_for_refl _ _
  · dsimp only at h
    split at h
    · exact conjunctive_merge_merged _ _ _ _ _ _ h
    · simp only [Option.some.injEq] at h
      subst h
      exact merged_for_refl _ _
  · split at h
    · cases h
    · rename_i result s1 hd
      have h1 := disjunctive_merge_loop_merged _ _ _ _ _ _ hd
      split at h
      · exact merged_for_trans h1 (conjunctive_merge_merged _ _ _ _ _ _ h)
      · simp only [Option.some.injEq] at h
        subst h
        exact h1
  · simp only [Option.some.injEq] at h
    subst h
    exact merged_for_refl _ _

/-- Dispatches created for `owner`, in plain terms: the old pool entries are kept in
place, the new ones belong to `owner`, and the set has the old links and links
to the new entries only. -/
theorem created_for_spec {owner : Nat} {pool pool' : Dispatch_Pool}
    {set set' : List Dispatch_Entry_Link} (h : created_for owner pool set pool' set') :
    (∃ E, pool'.dispatch_entries = pool.dispatch_entries ++ E ∧ ∀ e ∈ E, e.task_entry = owner) ∧
      ((∀ l ∈ set, l.dispatch_entry.task_entry = owner) →
        ∀ l ∈ set', l.dispatch_entry.task_entry = owner) ∧
      (∀ l ∈ set, l ∈ set') := by
  obtain ⟨E, a1, -, -, a4, a5⟩ := h
  refine ⟨⟨E, a1, a4⟩, ?_, ?_⟩
  · intro hset l hl
    rcases List.mem_append.mp (a5.mem_iff.mp hl) with h1 | h1
    · exact hset l h1
    · obtain ⟨e, he, rfl⟩ := List.mem_map.mp h1
      exact a4 e he
  · intro l hl
    exact a5.mem_iff.mpr (List.mem_append_left _ hl)

/-- Dispatches created after a pool with fresh ids leave a pool with fresh ids. -/
theorem created_for_ids_fresh {owner : Nat} {pool pool' : Dispatch_Pool}
    {set set' : List Dispatch_Entry_Link} (h : created_for owner pool set pool' set')
    (hf : pool.ids_fresh) : pool'.ids_fresh := by
  obtain ⟨E, a1, a2, a3, -, -⟩ := h
  obtain ⟨f1, f2⟩ := hf
  have hE : ∀ e ∈ E, pool.next_id ≤ e.dispatch_id ∧ e.dispatch_id < pool.next_id + E.length := by
    intro e he
    have : e.dispatch_id ∈ E.map (fun e => e.dispatch_id) := List.mem_map_of_mem _ he
    rw [a3] at this
    exact List.mem_range'_1.mp this
  constructor
  · rw [a1, List.map_append, List.pairwise_append]
    refine ⟨f1, ?_, ?_⟩
    · rw [a3]
      exact List.pairwise_lt_range' _ _
    · intro a ha b hb
      obtain ⟨e1, he1, rfl⟩ := List.mem_map.mp ha
      obtain ⟨e2, he2, rfl⟩ := List.mem_map.mp hb
      have := f2 e1 he1
      have := (hE e2 he2).1
      omega
  · intro e he
    rw [a1] at he
    rw [a2]
    rcases List.mem_append.mp he with h1 | h1
    · have := f2 e h1
      omega
    · exact (hE e h1).2

/-- The ids of the dispatches of a sequence of constructions are the successive
values of the counter. -/
theorem construct_all_ids (cs : List Construction) (next_id : Nat) :
    (construct_all next_id cs).1.map (fun e => e.dispatch_id) = List.range' next_id cs.length ∧
      (construct_all next_id cs).2 = next_id + cs.length ∧
      (construct_all next_id cs).1.length = cs.length := by
  induction cs generalizing next_id with
  | nil => exact ⟨rfl, rfl, rfl⟩
  | cons c rest ih =>
    cases c with
    | create a d p o t od =>
      obtain ⟨h1, h2, h3⟩ := ih (next_id + 1)
      refine ⟨?_, ?_, ?_⟩
      · simp only [construct_all, Dispatch_Entry.create, List.map_cons, List.length_cons,
          List.range'_succ]
        rw [← h1]
      · simp only [construct_all, Dispatch_Entry.create, List.length_cons]
        omega
      · simp only [construct_all, Dispatch_Entry.create, List.length_cons]
        rw [← h3]
    | copy d0 =>
      obtain ⟨h1, h2, h3⟩ := ih (next_id + 1)
      refine ⟨?_, ?_, ?_⟩
      · simp only [construct_all, Dispatch_Entry.copy, List.map_cons, List.length_cons,
          List.range'_succ]
        rw [← h1]
      · simp only [construct_all, Dispatch_Entry.copy, List.length_cons]
        omega
      · simp only [construct_all, Dispatch_Entry.copy, List.length_cons]
        rw [← h3]

/-- C26. Ownership invariant. Whatever `merge_dispatches` returns, success or failure,
if every link of the task's dispatch set referred to a dispatch of that task
before the call, so does every link afterwards; and every dispatch that
`reframe`, `merge_frames`, `disjunctive_merge`, `conjunctive_merge` and
`merge_dispatches` add to the set of all dispatches on behalf of a task has
that task as its `task_entry`. -/
theorem merge_dispatches_ownership :
    (∀ (proxy_address : Nat → Nat) (fuel : Nat) (s : Scheduler_State) (self : Nat) (st : Int)
        (s' : Scheduler_State),
      Task_Entry.merge_dispatches proxy_address fuel s self = some (st, s') →
      ((∀ l ∈ (s.tasks self).dispatches, l.dispatch_entry.task_entry = self) →
        ∀ l ∈ (s'.tasks self).dispatches, l.dispatch_entry.task_entry = self) ∧
      ∃ E, s'.pool.dispatch_entries = s.pool.dispatch_entries ++ E ∧
        ∀ e ∈ E, e.task_entry = self) ∧
    (∀ (rt_info : Nat → RT_Info) (fuel : Nat) (pool : Dispatch_Pool) (owner : Nat)
        (set : List Dispatch_Entry_Link) (P Q : Nat) (r : Frames_Result),
      reframe rt_info fuel pool owner set P Q = some r →
      ∃ E, r.pool.dispatch_entries = pool.dispatch_entries ++ E ∧
        ∀ e ∈ E, e.task_entry = owner) ∧
    (∀ (rt_info : Nat → RT_Info) (fuel : Nat) (pool : Dispatch_Pool) (owner : Nat)
        (dest src : List Dispatch_Entry_Link) (dp sp n start : Nat) (r : Frames_Result),
      merge_frames rt_info fuel pool owner dest src dp sp n start = some r →
      ∃ E, r.pool.dispatch_entries = pool.dispatch_entries ++ E ∧
        ∀ e ∈ E, e.task_entry = owner) ∧
    (∀ (fuel : Nat) (s : Scheduler_State) (self : Nat) (dt : Dependency_Type) (st : Int)
        (s' : Scheduler_State),
      Task_Entry.disjunctive_merge fuel s self dt = some (st, s') →
      ∃ E, s'.pool.dispatch_entries = s.pool.dispatch_entries ++ E ∧
        ∀ e ∈ E, e.task_entry = self) ∧
    (∀ (proxy_address : Nat → Nat) (fuel : Nat) (s : Scheduler_State) (self : Nat)
        (dt : Dependency_Type) (st : Int) (s' : Scheduler_State),
      Task_Entry.conjunctive_merge proxy_address fuel s self dt = some (st, s') →
      ∃ E, s'.pool.dispatch_entries = s.pool.dispatch_entries ++ E ∧
        ∀ e ∈ E, e.task_entry = self) := by
  refine ⟨?_, ?_, ?_, ?_, ?_⟩
  · intro proxy_address fuel s self st s' h
    obtain ⟨h1, h2, -⟩ := created_for_spec (merge_dispatches_merged _ _ _ _ _ h).1
    exact ⟨h2, h1⟩
  · intro rt_info fuel pool owner set P Q r h
    exact (created_for_spec ((frames_created rt_info fuel).1 _ _ _ _ _ _ h)).1
  · intro rt_info fuel pool owner dest src dp sp n start r h
    exact (created_for_spec ((frames_created rt_info fuel).2 _ _ _ _ _ _ _ _ _ h)).1
  · intro fuel s self dt st s' h
    exact (created_for_spec (disjunctive_merge_loop_merged _ _ _ _ _ _ h).1).1
  · intro proxy_address fuel s self dt st s' h
    exact (created_for_spec (conjunctive_merge_merged _ _ _ _ _ _ h).1).1

/-- A concrete instance of `merge_dispatches_ownership`: on `conjunction_example`
`merge_dispatches` returns 1 and every dispatch of task 0 belongs to task 0. -/
theorem merge_dispatches_ownership_witness :
    ∃ s', Task_Entry.merge_dispatches (fun k => k) 8 conjunction_example 0 = some (1, s') ∧
      (s'.tasks 0).dispatches ≠ [] ∧
      ∀ l ∈ (s'.tasks 0).dispatches, l.dispatch_entry.task_entry = 0 :=
  ⟨((Task_Entry.merge_dispatches (fun k => k) 8 conjunction_example 0).getD
      (0, conjunction_example)).2, rfl, by decide,
    (merge_dispatches_ownership.1 (fun k => k) 8 conjunction_example 0 1 _ rfl).1
      (fun l hl => absurd hl (List.not_mem_nil l))⟩

/-- C28. Dispatch identifiers are fresh and increasing. The constructor and the copy
constructor both give the new dispatch the current value of the id counter
and add one to the counter. Hence the dispatches of any sequence of
constructions have, in the order of their creation, the successive values of
the counter as ids: a dispatch created later has the larger id and no two ids
are equal. In particular `merge_dispatches` keeps the ids of the set of all
dispatches increasing in creation order and below the counter, and the
dispatches it adds take the successive values of the counter. -/
theorem dispatch_ids_fresh :
    (∀ (next_id arrival deadline : Nat) (priority os_priority : Int) (task_entry : Nat)
        (original_dispatch : Option Nat),
      (Dispatch_Entry.create next_id arrival deadline priority os_priority task_entry
        original_dispatch).1.dispatch_id = next_id ∧
      (Dispatch_Entry.create next_id arrival deadline priority os_priority task_entry
        original_dispatch).2 = next_id + 1) ∧
    (∀ (next_id : Nat) (d : Dispatch_Entry),
      (Dispatch_Entry.copy next_id d).1 = { d with dispatch_id := next_id } ∧
      (Dispatch_Entry.copy next_id d).2 = next_id + 1) ∧
    (∀ (next_id : Nat) (cs : List Construction),
      (construct_all next_id cs).1.map (fun e => e.dispatch_id) =
          List.range' next_id cs.length ∧
        (construct_all next_id cs).2 = next_id + cs.length ∧
        ((construct_all next_id cs).1.map (fun e => e.dispatch_id)).Pairwise
          (fun a b => a < b) ∧
        ((construct_all next_id cs).1.map (fun e => e.dispatch_id)).Nodup) ∧
    (∀ (proxy_address : Nat → Nat) (fuel : Nat) (s : Scheduler_State) (self : Nat) (st : Int)
        (s' : Scheduler_State),
      Task_Entry.merge_dispatches proxy_address fuel s self = some (st, s') →
      (∃ E, s'.pool.dispatch_entries = s.pool.dispatch_entries ++ E ∧
        E.map (fun e => e.dispatch_id) = List.range' s.pool.next_id E.length ∧
        s'.pool.next_id = s.pool.next_id + E.length) ∧
      (s.pool.ids_fresh → s'.pool.ids_fresh)) := by
  refine ⟨fun _ _ _ _ _ _ _ => ⟨rfl, rfl⟩, fun _ _ => ⟨rfl, rfl⟩, ?_, ?_⟩
  · intro next_id cs
    obtain ⟨h1, h2, -⟩ := construct_all_ids cs next_id
    refine ⟨h1, h2, ?_, ?_⟩
    · rw [h1]
      exact List.pairwise_lt_range' _ _
    · rw [h1]
      exact List.nodup_range' _ _
  · intro proxy_address fuel s self st s' h
    have hm := (merge_dispatches_merged _ _ _ _ _ h).1
    refine ⟨?_, created_for_ids_fresh hm⟩
    obtain ⟨E, a1, a2, a3, -, -⟩ := hm
    exact ⟨E, a1, a3, a2⟩

/-- A concrete instance of `dispatch_ids_fresh`: on `conjunction_example`, whose id
counter is 2, `merge_dispatches` creates two dispatches, with the ids 2 and
3. -/
theorem dispatch_ids_fresh_witness :
    ∃ s', Task_Entry.merge_dispatches (fun k => k) 8 conjunction_example 0 = some (1, s') ∧
      s'.pool.dispatch_entries.map (fun e => e.dispatch_id) = [2, 3] ∧ s'.pool.ids_fresh :=
  ⟨((Task_Entry.merge_dispatches (fun k => k) 8 conjunction_example 0).getD
      (0, conjunction_example)).2, rfl, by decide,
    (dispatch_ids_fresh.2.2.2 (fun k => k) 8 conjunction_example 0 1 _ rfl).2
      ⟨List.Pairwise.nil, fun e he => absurd he (List.not_mem_nil e)⟩⟩

/-- C29. Whatever `merge_dispatches` on a task returns, every other task, so every
caller other than the task itself, is as it was, with its dispatch set and
its effective period; every dispatch that was in the set of all dispatches is
still there, at its place and unchanged; and the links the task had are
still in its set. The result of `merge_frames` is stored into the
destination only: the set of a source other than the destination is as it
was. -/
theorem merge_dispatches_frame (proxy_address : Nat → Nat) (fuel : Nat) (s : Scheduler_State)
    (self : Nat) (st : Int) (s' : Scheduler_State)
    (h : Task_Entry.merge_dispatches proxy_address fuel s self = some (st, s')) :
    (∀ j, j ≠ self → s'.tasks j = s.tasks j) ∧
    (∀ link, some link ∈ (s.tasks self).callers → link.caller ≠ self →
      (s'.tasks link.caller).dispatches = (s.tasks link.caller).dispatches ∧
        (s'.tasks link.caller).effective_period = (s.tasks link.caller).effective_period) ∧
    (∃ E, s'.pool.dispatch_entries = s.pool.dispatch_entries ++ E) ∧
    (∀ (i : Nat) (e : Dispatch_Entry),
      s.pool.dispatch_entries[i]? = some e → s'.pool.dispatch_entries[i]? = some e) ∧
    (∀ l ∈ (s.tasks self).dispatches, l ∈ (s'.tasks self).dispatches) ∧
    (∀ (r : Frames_Result) (c : Nat), c ≠ self →
      ((s.store self r).tasks c).dispatches = (s.tasks c).dispatches ∧
        ((s.store self r).tasks c).effective_period = (s.tasks c).effective_period) := by
  obtain ⟨hc, -, -, hother⟩ := merge_dispatches_merged _ _ _ _ _ h
  obtain ⟨⟨E, hE, -⟩, -, hkeep⟩ := created_for_spec hc
  refine ⟨hother, ?_, ⟨E, hE⟩, ?_, hkeep, ?_⟩
  · intro link _ hne
    rw [hother link.caller hne]
    exact ⟨rfl, rfl⟩
  · intro i e hi
    simp only at hE
    rw [hE]
    have hlt : i < s.pool.dispatch_entries.length := by
      by_contra hcon
      rw [List.getElem?_eq_none (by omega)] at hi
      cases hi
    rw [List.getElem?_append_left hlt]
    exact hi
  · intro r c hne
    rw [store_tasks_other s self r c hne]
    exact ⟨rfl, rfl⟩

/-- A concrete instance of `merge_dispatches_frame`: on `conjunction_example`
`merge_dispatches` returns 1 and the callers, tasks 1 and 2, keep their
dispatch sets and periods. -/
theorem merge_dispatches_frame_witness :
    ∃ s', Task_Entry.merge_dispatches (fun k => k) 8 conjunction_example 0 = some (1, s') ∧
      s'.tasks 1 = conjunction_example.tasks 1 ∧ s'.tasks 2 = conjunction_example.tasks 2 :=
  ⟨((Task_Entry.merge_dispatches (fun k => k) 8 conjunction_example 0).getD
      (0, conjunction_example)).2, rfl,
    (merge_dispatches_frame (fun k => k) 8 conjunction_example 0 1 _ rfl).1 1 (by decide),
    (merge_dispatches_frame (fun k => k) 8 conjunction_example 0 1 _ rfl).1 2 (by decide)⟩

/-! ## The growth of the effective period -/

/-- The frame size of `conjunctive_merge` is a non-zero multiple of the non-zero
periods of the matching callers. -/
theorem conjunctive_frame_size_dvd (tasks : Nat → Task_Entry) (dt : Dependency_Type)
    (callers : List (Option Task_Entry_Link)) (f0 F : Nat)
    (h : conjunctive_frame_size tasks dt callers f0 = .ok F) (hf0 : f0 ≠ 0) :
    F ≠ 0 ∧ f0 ∣ F ∧
      ∀ link, some link ∈ callers → link.dependency_type = dt →
        (tasks link.caller).effective_period ≠ 0 → (tasks link.caller).effective_period ∣ F := by
  induction callers generalizing f0 with
  | nil =>
    simp only [conjunctive_frame_size, Except.ok.injEq] at h
    subst h
    exact ⟨hf0, dvd_rfl, fun link hl => absurd hl (List.not_mem_nil _)⟩
  | cons l rest ih =>
    cases l with
    | none => simp [conjunctive_frame_size] at h
    | some link =>
      unfold conjunctive_frame_size at h
      split at h
      · rename_i hdt
        obtain ⟨m1, m2⟩ := minimum_frame_size_dvd_left f0
          (tasks link.caller).effective_period hf0
        obtain ⟨i1, i2, i3⟩ := ih _ h m1
        refine ⟨i1, Dvd.dvd.trans m2 i2, ?_⟩
        intro link2 hmem hdt2 hne
        rcases List.mem_cons.mp hmem with heq | hrest
        · have heq2 : link2 = link := Option.some.inj heq
          subst heq2
          exact Dvd.dvd.trans (minimum_frame_size_dvd_right f0 _ hne).2 i2
        · exact i3 link2 hrest hdt2 hne
      · rename_i hdt
        obtain ⟨i1, i2, i3⟩ := ih _ h hf0
        refine ⟨i1, i2, ?_⟩
        intro link2 hmem hdt2 hne
        rcases List.mem_cons.mp hmem with heq | hrest
        · have heq2 : link2 = link := Option.some.inj heq
          subst heq2
          exact absurd hdt2 hdt
        · exact i3 link2 hrest hdt2 hne

/-- C30, counterexample. With 32-bit `u_long`, the periods 393216 and 655360 have the
greatest common divisor 131072 and the least common multiple 1966080, which
is below `2 ^ 32`; their product is a multiple of `2 ^ 32`, and
`minimum_frame_size` returns 0. With 8 bits, 20 and 30 have the least common
multiple 60 and `minimum_frame_size` returns 8. -/
theorem minimum_frame_size_wrapped_counterexample :
    Nat.lcm 393216 655360 = 1966080 ∧ 1966080 < 2 ^ 32 ∧
      minimum_frame_size_wrapped 32 393216 655360 = 0 ∧
      Nat.lcm 20 30 = 60 ∧ 60 < 2 ^ 8 ∧ minimum_frame_size_wrapped 8 20 30 = 8 := by
  decide

/-- The frame size in `w`-bit arithmetic, with the greatest common divisor of the
library. -/
theorem minimum_frame_size_wrapped_eq (w p1 p2 : Nat) (h1 : p1 ≠ 0) (h2 : p2 ≠ 0) :
    minimum_frame_size_wrapped w p1 p2 =
      if Nat.gcd p1 p2 = 1 then (p1 * p2) % 2 ^ w
      else if Nat.gcd p1 p2 = p1 then p2
      else if Nat.gcd p1 p2 = p2 then p1
      else ((p1 * p2) % 2 ^ w) / Nat.gcd p1 p2 := by
  unfold minimum_frame_size_wrapped
  rw [if_neg (fun h => h1 h.symm), if_neg (fun h => h2 h.symm)]
  simp only [gcd_eq_nat_gcd]

/-- C30 (amended). In `w`-bit unsigned arithmetic, for non-zero periods below `2 ^ w`
whose least common multiple is below `2 ^ w`, `minimum_frame_size` returns the
least common multiple exactly when the greatest common divisor is 1 or one of
the periods, or the product of the periods is below `2 ^ w`; otherwise it
returns a smaller number. -/
theorem minimum_frame_size_wrapped_spec (w p1 p2 : Nat) (h1 : p1 ≠ 0) (h2 : p2 ≠ 0)
    (hlcm : Nat.lcm p1 p2 < 2 ^ w) :
    (minimum_frame_size_wrapped w p1 p2 = Nat.lcm p1 p2 ↔
      (gcd p1 p2 = 1 ∨ gcd p1 p2 = p1 ∨ gcd p1 p2 = p2 ∨ p1 * p2 < 2 ^ w)) ∧
    minimum_frame_size_wrapped w p1 p2 ≤ Nat.lcm p1 p2 := by
  have hp1 : 0 < p1 := Nat.pos_of_ne_zero h1
  have hp2 : 0 < p2 := Nat.pos_of_ne_zero h2
  have hg : 0 < Nat.gcd p1 p2 := Nat.gcd_pos_of_pos_left _ hp1
  have hmul : Nat.gcd p1 p2 * Nat.lcm p1 p2 = p1 * p2 := Nat.gcd_mul_lcm p1 p2
  have hw : 0 < 2 ^ w := Nat.two_pow_pos w
  rw [minimum_frame_size_wrapped_eq w p1 p2 h1 h2]
  simp only [gcd_eq_nat_gcd]
  by_cases c1 : Nat.gcd p1 p2 = 1
  · have hl : Nat.lcm p1 p2 = p1 * p2 := by
      rw [← hmul, c1, Nat.one_mul]
    rw [if_pos c1, hl]
    rw [hl] at hlcm
    rw [Nat.mod_eq_of_lt hlcm]
    exact ⟨⟨fun _ => Or.inl c1, fun _ => rfl⟩, le_refl _⟩
  · rw [if_neg c1]
    by_cases c2 : Nat.gcd p1 p2 = p1
    · have hl : Nat.lcm p1 p2 = p2 := by
        have := hmul
        rw [c2] at this
        exact Nat.eq_of_mul_eq_mul_left hp1 this
      rw [if_pos c2, hl]
      exact ⟨⟨fun _ => Or.inr (Or.inl c2), fun _ => rfl⟩, le_refl _⟩
    · rw [if_neg c2]
      by_cases c3 : Nat.gcd p1 p2 = p2
      · have hl : Nat.lcm p1 p2 = p1 := by
          have := hmul
          rw [c3, Nat.mul_comm p1 p2] at this
          exact Nat.eq_of_mul_eq_mul_left hp2 this
        rw [if_pos c3, hl]
        exact ⟨⟨fun _ => Or.inr (Or.inr (Or.inl c3)), fun _ => rfl⟩, le_refl _⟩
      · rw [if_neg c3]
        have hlcm_eq : Nat.lcm p1 p2 = p1 * p2 / Nat.gcd p1 p2 := rfl
        by_cases c4 : p1 * p2 < 2 ^ w
        · rw [Nat.mod_eq_of_lt c4, ← hlcm_eq]
          exact ⟨⟨fun _ => Or.inr (Or.inr (Or.inr c4)), fun _ => rfl⟩, le_refl _⟩
        · have hlt : p1 * p2 % 2 ^ w + 2 ^ w ≤ p1 * p2 := by
            have := Nat.mod_add_div (p1 * p2) (2 ^ w)
            have hq : 1 ≤ p1 * p2 / 2 ^ w := (Nat.one_le_div_iff hw).mpr (by omega)
            have : 2 ^ w * 1 ≤ 2 ^ w * (p1 * p2 / 2 ^ w) := Nat.mul_le_mul_left _ hq
            omega
          have hsmall : p1 * p2 % 2 ^ w / Nat.gcd p1 p2 < Nat.lcm p1 p2 := by
            rw [Nat.div_lt_iff_lt_mul hg, Nat.mul_comm (Nat.lcm p1 p2), hmul]
            omega
          refine ⟨⟨fun h => absurd h (by omega), fun h => ?_⟩, by omega⟩
          rcases h with h | h | h | h
          · exact absurd h c1
          · exact absurd h c2
          · exact absurd h c3
          · exact absurd h c4

/-- A concrete instance of `minimum_frame_size_wrapped_spec`: with 32 bits, the
periods 12 and 18 give 36. -/
theorem minimum_frame_size_wrapped_spec_witness :
    (minimum_frame_size_wrapped 32 12 18 = Nat.lcm 12 18 ↔
      (gcd 12 18 = 1 ∨ gcd 12 18 = 12 ∨ gcd 12 18 = 18 ∨ 12 * 18 < 2 ^ 32)) ∧
    minimum_frame_size_wrapped 32 12 18 ≤ Nat.lcm 12 18 :=
  minimum_frame_size_wrapped_spec 32 12 18 (by decide) (by decide) (by decide)

/-! ## `merge_frames` and the periods -/

/-- Whatever the loop of `merge_frames` returns, its status is the one it started
with or 1. -/
theorem merge_frames_loop_status (rt_info : Nat → RT_Info) (owner : Nat) (fuel : Nat) :
    ∀ (p : Dispatch_Proxy_Iterator) (status : Int) (pool : Dispatch_Pool)
      (dest : List Dispatch_Entry_Link) (out : Int × Dispatch_Pool × List Dispatch_Entry_Link),
      merge_frames_loop rt_info owner fuel p status pool dest = some out →
      out.1 = status ∨ out.1 = 1 := by
  induction fuel with
  | zero =>
    intro p status pool dest out h
    simp [merge_frames_loop] at h
  | succ f ih =>
    intro p status pool dest out h
    rw [merge_frames_loop] at h
    split at h
    · simp only [Option.some.injEq] at h
      subst h
      exact Or.inl rfl
    · rcases ih _ _ _ _ _ h with h1 | h1
      · exact Or.inr h1
      · exact Or.inr h1

/-- Whatever `merge_frames` returns, its status is 0 or 1. -/
theorem merge_frames_status (rt_info : Nat → RT_Info) (fuel : Nat) (pool : Dispatch_Pool)
    (owner : Nat) (dest src : List Dispatch_Entry_Link) (dp sp n start : Nat) (r : Frames_Result)
    (h : merge_frames rt_info fuel pool owner dest src dp sp n start = some r) :
    r.status = 0 ∨ r.status = 1 := by
  obtain ⟨f, rfl⟩ : ∃ f, fuel = f + 1 := by
    cases fuel with
    | zero => simp [merge_frames] at h
    | succ f => exact ⟨f, rfl⟩
  rw [merge_frames] at h
  split at h
  · cases h
  · rename_i r0 hr0
    obtain ⟨hr, -⟩ := reframe_some _ _ _ _ _ _ _ r0 hr0
    have hst := (reframe_value_minimum_frame_size rt_info pool owner dest dp sp).1
    rw [← hr] at hst
    split at h
    · rename_i hneg
      exact absurd hneg (not_lt.mpr hst)
    · dsimp only at h
      split at h
      · cases h
      · rename_i st pl ds hloop
        simp only [Option.some.injEq] at h
        subst h
        exact merge_frames_loop_status _ _ _ _ _ _ _ _ hloop

/-- From a proxy on which the loop does not end, `advance ()` leads to such a proxy
again. -/
theorem endless_advance (p : Dispatch_Proxy_Iterator) (hp : p.endless) :
    p.advance.2.endless := by
  obtain ⟨n, c, A, V, o, ⟨S, cur⟩⟩ := p
  obtain ⟨⟨i, hcur, hi⟩, hA, hoV⟩ := hp
  simp only at hcur hi hA hoV
  subst hcur
  subst hA
  have hS : S ≠ [] := by
    intro h
    simp [h] at hi
  by_cases hcn : c < n - 1
  · have hadv : (Dispatch_Proxy_Iterator.advance ⟨n, c, 0, V, o, ⟨S, some i⟩⟩).2
        = ⟨n, c + 1, 0, V, o, ⟨S, some i⟩⟩ := by
      simp [Dispatch_Proxy_Iterator.advance, Ordered_MultiSet_Iterator.done, hcn]
    rw [hadv]
    exact ⟨⟨i, rfl, hi⟩, rfl, hoV⟩
  · by_cases hnext : i + 1 < S.length
    · have hadv : (Dispatch_Proxy_Iterator.advance ⟨n, c, 0, V, o, ⟨S, some i⟩⟩).2
          = ⟨n, 0, 0, V, o, ⟨S, some (i + 1)⟩⟩ := by
        simp [Dispatch_Proxy_Iterator.advance, Ordered_MultiSet_Iterator.done, hcn,
          Ordered_MultiSet_Iterator.advance, hnext]
      rw [hadv]
      exact ⟨⟨i + 1, rfl, hnext⟩, rfl, hoV⟩
    · have hadv : (Dispatch_Proxy_Iterator.advance ⟨n, c, 0, V, o, ⟨S, some i⟩⟩).2
          = ⟨n, 0, 0, V, o, ⟨S, some 0⟩⟩ := by
        simp [Dispatch_Proxy_Iterator.advance, Ordered_MultiSet_Iterator.done, hcn,
          Ordered_MultiSet_Iterator.advance, hnext, hoV, Ordered_MultiSet_Iterator.first, hS]
      rw [hadv]
      exact ⟨⟨0, rfl, by show 0 < S.length; omega⟩, rfl, hoV⟩

/-- On a proxy with an actual frame size of 0 that stands on a dispatch below the
end of the virtual frame, the loop of `merge_frames` does not return, whatever
the fuel. -/
theorem merge_frames_loop_endless (rt_info : Nat → RT_Info) (owner : Nat) (fuel : Nat) :
    ∀ (p : Dispatch_Proxy_Iterator) (status : Int) (pool : Dispatch_Pool)
      (dest : List Dispatch_Entry_Link), p.endless →
      merge_frames_loop rt_info owner fuel p status pool dest = none := by
  induction fuel with
  | zero => intro p status pool dest _; rfl
  | succ f ih =>
    intro p status pool dest hp
    have hd : p.done = false := by
      obtain ⟨⟨i, hcur, -⟩, -, -⟩ := hp
      simp [Dispatch_Proxy_Iterator.done, Ordered_MultiSet_Iterator.done, hcur]
    rw [merge_frames_loop]
    simp only [hd, Bool.false_eq_true, if_false]
    exact ih _ _ _ _ (endless_advance p hp)

/-- With a non-empty source of period 0 and a destination period that is not 0,
`merge_frames` does not return, whatever the fuel. -/
theorem merge_frames_endless (rt_info : Nat → RT_Info) (fuel : Nat) (pool : Dispatch_Pool)
    (owner : Nat) (dest src : List Dispatch_Entry_Link) (dp n start : Nat)
    (hsrc : src ≠ []) (hdp : dp ≠ 0) :
    merge_frames rt_info fuel pool owner dest src dp 0 n start = none := by
  cases fuel with
  | zero => rfl
  | succ f =>
    rw [merge_frames]
    split
    · rfl
    · rename_i r0 hr0
      obtain ⟨hr, -⟩ := reframe_some _ _ _ _ _ _ _ r0 hr0
      obtain ⟨hst, hper⟩ := reframe_value_minimum_frame_size rt_info pool owner dest dp 0
      rw [← hr] at hst hper
      rw [minimum_frame_size_zero_right] at hper
      rw [if_neg (not_lt.mpr hst)]
      have hend : ((Dispatch_Proxy_Iterator.create src 0 r0.period n start).first
          start).2.endless := by
        have h1 := initial_proxy_eq src 0 r0.period n start
        unfold initial_proxy at h1
        rw [h1, hper]
        have hlen : src.length ≠ 0 := fun h => hsrc (List.length_eq_zero.mp h)
        refine ⟨⟨0, by simp [hlen], by show 0 < src.length; omega⟩, rfl, ?_⟩
        show 0 * start < dp
        omega
      dsimp only
      rw [merge_frames_loop_endless _ _ _ _ _ _ _ hend]

/-- Whatever the loop of `disjunctive_merge` over non-null links returns, its
status is 0. -/
theorem disjunctive_merge_loop_zero (fuel self : Nat) (dt : Dependency_Type)
    (callers : List (Option Task_Entry_Link)) (hnn : ∀ l ∈ callers, l ≠ none)
    (s : Scheduler_State) (out : Int × Scheduler_State)
    (h : disjunctive_merge_loop fuel self dt callers s = some out) : out.1 = 0 := by
  induction callers generalizing s with
  | nil =>
    simp only [disjunctive_merge_loop, Option.some.injEq] at h
    subst h
    rfl
  | cons l rest ih =>
    have hnn' : ∀ l ∈ rest, l ≠ none := fun l hl => hnn l (List.mem_cons_of_mem _ hl)
    cases l with
    | none => exact absurd rfl (hnn none (List.mem_cons_self _ _))
    | some link =>
      unfold disjunctive_merge_loop at h
      split at h
      · split at h
        · cases h
        · rename_i r hr
          split at h
          · rename_i hneg
            rcases merge_frames_status _ _ _ _ _ _ _ _ _ _ _ hr with h0 | h0
            · rw [h0] at hneg
              exact absurd hneg (by decide)
            · rw [h0] at hneg
              exact absurd hneg (by decide)
          · exact ih hnn' _ h
      · exact ih hnn' _ h

/-- The loop of `disjunctive_merge` over non-null links returns 0, with enough
fuel, when every caller of the given type is another task that has no
dispatch or a period that is not 0. -/
theorem disjunctive_merge_loop_returns (self : Nat) (dt : Dependency_Type)
    (callers : List (Option Task_Entry_Link)) :
    ∀ (s : Scheduler_State), (∀ l ∈ callers, l ≠ none) →
      (∀ link, some link ∈ callers → link.dependency_type = dt →
        link.caller ≠ self ∧ ((s.tasks link.caller).dispatches = [] ∨
          0 < (s.tasks link.caller).effective_period)) →
      ∃ (N : Nat) (s' : Scheduler_State),
        ∀ fuel, N ≤ fuel → disjunctive_merge_loop fuel self dt callers s = some (0, s') := by
  induction callers with
  | nil =>
    intro s _ _
    exact ⟨0, s, fun fuel _ => rfl⟩
  | cons l rest ih =>
    intro s hnn hcallers
    have hnn' : ∀ l ∈ rest, l ≠ none := fun l hl => hnn l (List.mem_cons_of_mem _ hl)
    cases l with
    | none => exact absurd rfl (hnn none (List.mem_cons_self _ _))
    | some link =>
      by_cases hdt : link.dependency_type = dt
      · obtain ⟨hne, hsrc⟩ := hcallers link (List.mem_cons_self _ _) hdt
        have hterm : (s.tasks link.caller).dispatches = [] ∨
            0 < (s.tasks link.caller).effective_period ∨
            (s.tasks self).effective_period = 0 := by
          rcases hsrc with h | h
          · exact Or.inl h
          · exact Or.inr (Or.inl h)
        have hrest : ∀ link2, some link2 ∈ rest → link2.dependency_type = dt →
            link2.caller ≠ self ∧
              (((s.store self (merge_frames_value s.rt_info s.pool self
                  (s.tasks self).dispatches (s.tasks link.caller).dispatches
                  (s.tasks self).effective_period (s.tasks link.caller).effective_period
                  link.number_of_calls 0)).tasks link2.caller).dispatches = [] ∨
                0 < ((s.store self (merge_frames_value s.rt_info s.pool self
                  (s.tasks self).dispatches (s.tasks link.caller).dispatches
                  (s.tasks self).effective_period (s.tasks link.caller).effective_period
                  link.number_of_calls 0)).tasks link2.caller).effective_period) := by
          intro link2 hmem hdt2
          obtain ⟨g1, g2⟩ := hcallers link2 (List.mem_cons_of_mem _ hmem) hdt2
          rw [store_tasks_other s self _ _ g1]
          exact ⟨g1, g2⟩
        obtain ⟨N2, s', h2⟩ := ih _ hnn' hrest
        have hval : ¬ (merge_frames_value s.rt_info s.pool self
            (s.tasks self).dispatches (s.tasks link.caller).dispatches
            (s.tasks self).effective_period (s.tasks link.caller).effective_period
            link.number_of_calls 0).status < 0 := by
          unfold merge_frames_value
          have hst := (reframe_value_minimum_frame_size s.rt_info s.pool self
            (s.tasks self).dispatches (s.tasks self).effective_period
            (s.tasks link.caller).effective_period).1
          simp only [not_lt.mpr hst, if_false]
          split <;> decide
        refine ⟨max N2 ((initial_proxy (shallow_copy s.rt_info (s.tasks self).dispatches [])
              (s.tasks self).effective_period
              (minimum_frame_size (s.tasks self).effective_period
                (s.tasks link.caller).effective_period) 1 1).positions.length +
            (initial_proxy (s.tasks link.caller).dispatches
              (s.tasks link.caller).effective_period
              (minimum_frame_size (s.tasks self).effective_period
                (s.tasks link.caller).effective_period) link.number_of_calls
              0).positions.length + 4), s', ?_⟩
        intro fuel hfuel
        unfold disjunctive_merge_loop
        rw [if_pos hdt, merge_frames_eq s.rt_info fuel s.pool self _ _ _ _ _ _ hterm
          (le_trans (le_max_right _ _) hfuel)]
        simp only [hval, if_false]
        exact h2 fuel (le_trans (le_max_left _ _) hfuel)
      · have hrest : ∀ link2, some link2 ∈ rest → link2.dependency_type = dt →
            link2.caller ≠ self ∧ ((s.tasks link2.caller).dispatches = [] ∨
              0 < (s.tasks link2.caller).effective_period) :=
          fun link2 hmem hdt2 => hcallers link2 (List.mem_cons_of_mem _ hmem) hdt2
        obtain ⟨N2, s', h2⟩ := ih s hnn' hrest
        refine ⟨N2, s', ?_⟩
        intro fuel hfuel
        unfold disjunctive_merge_loop
        rw [if_neg hdt]
        exact h2 fuel hfuel

/-- C31, counterexample. With a source of period 0 that holds one dispatch and a
destination of period 5, `merge_frames` returns for no amount of fuel: the
proxy has sub-frames of length 0 and never reaches the end of the frame. On
`endless_example`, where the owner has period 5 and its caller period 0 and
one dispatch, `disjunctive_merge` returns for no amount of fuel. -/
theorem merge_frames_never_fails_counterexample :
    (¬ ∃ fuel r, merge_frames (fun _ => ⟨0, 0, 0, .OPERATION⟩) fuel ⟨[], 1⟩ 0 []
        [link_of 0 1 5 50 1 0] 5 0 1 0 = some r) ∧
      (¬ ∃ fuel out, Task_Entry.disjunctive_merge fuel endless_example 0 .ONE_WAY_CALL =
        some out) := by
  constructor
  · rintro ⟨fuel, r, h⟩
    rw [merge_frames_endless _ _ _ _ _ _ _ _ _ (by simp) (by decide)] at h
    cases h
  · rintro ⟨fuel, out, h⟩
    have hnone : Task_Entry.disjunctive_merge fuel endless_example 0 .ONE_WAY_CALL = none := by
      show disjunctive_merge_loop fuel 0 .ONE_WAY_CALL [some ⟨1, 1, 0, .ONE_WAY_CALL⟩]
        endless_example = none
      unfold disjunctive_merge_loop
      rw [if_pos rfl]
      have h0 : merge_frames endless_example.rt_info fuel endless_example.pool 0
          (endless_example.tasks 0).dispatches
          (endless_example.tasks (Task_Entry_Link.mk 1 1 0 .ONE_WAY_CALL).caller).dispatches
          (endless_example.tasks 0).effective_period
          (endless_example.tasks (Task_Entry_Link.mk 1 1 0 .ONE_WAY_CALL).caller).effective_period
          (Task_Entry_Link.mk 1 1 0 .ONE_WAY_CALL).number_of_calls 0 = none :=
        merge_frames_endless endless_example.rt_info fuel endless_example.pool 0 []
          [link_of 0 1 5 50 1 0] 5 1 0 (by simp) (by decide)
      rw [h0]
    rw [hnone] at h
    cases h

/-- C31 (amended). `merge_frames` never fails on account of the periods: for all
destination and source periods the `reframe` it performs to
`minimum_frame_size (dest_period, src_period)` succeeds, and whatever
`merge_frames` returns is 0 or 1. It returns (with enough fuel) when the
source is empty, the source period is not 0 or the destination period is 0,
and in the remaining case, a non-empty source of period 0 and a destination
period that is not 0, it does not return. Consequently `disjunctive_merge`
over non-null links never returns anything but 0, harmonic periods or not, and
it returns 0 when every caller of the given type is another task that has no
dispatch or a period that is not 0. -/
theorem merge_frames_never_fails :
    (∀ (rt_info : Nat → RT_Info) (pool : Dispatch_Pool) (owner : Nat)
        (dest : List Dispatch_Entry_Link) (dp sp : Nat),
      ∃ (N : Nat) (r0 : Frames_Result),
        (∀ fuel, N ≤ fuel →
          reframe rt_info fuel pool owner dest dp (minimum_frame_size dp sp) = some r0) ∧
        0 ≤ r0.status ∧ r0.period = minimum_frame_size dp sp) ∧
    (∀ (rt_info : Nat → RT_Info) (fuel : Nat) (pool : Dispatch_Pool) (owner : Nat)
        (dest src : List Dispatch_Entry_Link) (dp sp n start : Nat) (r : Frames_Result),
      merge_frames rt_info fuel pool owner dest src dp sp n start = some r →
      r.status = 0 ∨ r.status = 1) ∧
    (∀ (rt_info : Nat → RT_Info) (pool : Dispatch_Pool) (owner : Nat)
        (dest src : List Dispatch_Entry_Link) (dp sp n start : Nat),
      ((src = [] ∨ 0 < sp ∨ dp = 0) →
        ∃ (N : Nat) (r : Frames_Result),
          (∀ fuel, N ≤ fuel →
            merge_frames rt_info fuel pool owner dest src dp sp n start = some r) ∧
          (r.status = 0 ∨ r.status = 1)) ∧
      (¬ (src = [] ∨ 0 < sp ∨ dp = 0) →
        ∀ fuel, merge_frames rt_info fuel pool owner dest src dp sp n start = none)) ∧
    (∀ (fuel : Nat) (s : Scheduler_State) (self : Nat) (dt : Dependency_Type) (st : Int)
        (s' : Scheduler_State),
      (∀ l ∈ (s.tasks self).callers, l ≠ none) →
      Task_Entry.disjunctive_merge fuel s self dt = some (st, s') → st = 0) ∧
    (∀ (s : Scheduler_State) (self : Nat) (dt : Dependency_Type),
      (∀ l ∈ (s.tasks self).callers, l ≠ none) →
      (∀ link, some link ∈ (s.tasks self).callers → link.dependency_type = dt →
        link.caller ≠ self ∧ ((s.tasks link.caller).dispatches = [] ∨
          0 < (s.tasks link.caller).effective_period)) →
      ∃ (N : Nat) (s' : Scheduler_State),
        ∀ fuel, N ≤ fuel → Task_Entry.disjunctive_merge fuel s self dt = some (0, s')) := by
  refine ⟨?_, ?_, ?_, ?_, ?_⟩
  · intro rt_info pool owner dest dp sp
    obtain ⟨hst, hper⟩ := reframe_value_minimum_frame_size rt_info pool owner dest dp sp
    exact ⟨_, reframe_value rt_info pool owner dest dp (minimum_frame_size dp sp),
      fun fuel hfuel => reframe_eq rt_info fuel pool owner dest dp _
        (fun h => (minimum_frame_size_dvd_left dp sp h).1) hfuel, hst, hper⟩
  · intro rt_info fuel pool owner dest src dp sp n start r h
    exact merge_frames_status _ _ _ _ _ _ _ _ _ _ _ h
  · intro rt_info pool owner dest src dp sp n start
    constructor
    · intro hterm
      refine ⟨_, merge_frames_value rt_info pool owner dest src dp sp n start,
        fun fuel hfuel => merge_frames_eq rt_info fuel pool owner dest src dp sp n start hterm
          hfuel, ?_⟩
      exact merge_frames_status rt_info _ pool owner dest src dp sp n start _
        (merge_frames_eq rt_info _ pool owner dest src dp sp n start hterm (le_refl _))
    · intro hn fuel
      have h1 : src ≠ [] := fun h => hn (Or.inl h)
      have h2 : sp = 0 := by
        by_contra h
        exact hn (Or.inr (Or.inl (Nat.pos_of_ne_zero h)))
      have h3 : dp ≠ 0 := fun h => hn (Or.inr (Or.inr h))
      subst h2
      exact merge_frames_endless rt_info fuel pool owner dest src dp n start h1 h3
  · intro fuel s self dt st s' hnn h
    exact disjunctive_merge_loop_zero fuel self dt _ hnn s (st, s') h
  · intro s self dt hnn hcallers
    exact disjunctive_merge_loop_returns self dt _ s hnn hcallers

/-- A concrete instance of `merge_frames_never_fails`: `merge_frames` of a source of
period 6 into a destination of period 4 returns 1 and leaves period 12;
`disjunctive_merge` on `disjunctive_example`, an owner of period 2 with a
one-way caller of period 3, returns 0. -/
theorem merge_frames_never_fails_witness :
    (merge_frames (fun _ => ⟨0, 0, 0, .OPERATION⟩) 9 ⟨[], 1⟩ 0 [link_of 0 1 5 50 0 0]
        [link_of 0 2 7 70 1 0] 4 6 1 0).map (fun r => (r.status, r.period)) = some (1, 12) ∧
      ∃ (N : Nat) (s' : Scheduler_State), ∀ fuel, N ≤ fuel →
        Task_Entry.disjunctive_merge fuel disjunctive_example 0 .ONE_WAY_CALL = some (0, s') :=
  ⟨by decide,
    merge_frames_never_fails.2.2.2.2 disjunctive_example 0 .ONE_WAY_CALL
      (by decide)
      (fun link hmem hdt => by
        have h : link = ⟨2, 1, 0, .ONE_WAY_CALL⟩ := by
          have hm : some link = some ⟨2, 1, 0, .ONE_WAY_CALL⟩ ∨
              some link = some ⟨1, 2, 0, .TWO_WAY_CALL⟩ := by
            simpa [disjunctive_example, state_of, task_of] using hmem
          rcases hm with h1 | h1
          · exact Option.some.inj h1
          · have := Option.some.inj h1
            subst this
            exact absurd hdt (by decide)
        subst h
        exact ⟨by decide, Or.inr (by decide)⟩)⟩

/-! ## No zero divisor and bounded recursion -/

/-- C32. No division by zero and bounded recursion in the merge core. `reframe` is
called by `conjunctive_merge`, with the frame size of the callers as
`new_period`, and by `merge_frames` (itself called by `disjunctive_merge` and by
`reframe`), with `minimum_frame_size (dest_period, src_period)` as
`new_period`. The frame size of `conjunctive_merge` is never 0, and
`minimum_frame_size (dest_period, src_period)` is not 0 when `dest_period` is
not 0: in both calls `new_period` is not 0 whenever `set_period` is not 0. On
such arguments neither modulus of `reframe` has a zero divisor and `reframe`
returns, with three units of fuel for the calls `reframe`, `merge_frames`,
`reframe` besides one for each dispatch its loop creates, whereas a
`new_period` of 0 with a `set_period` that is not 0 would make it divide by
zero. The `reframe` that the `merge_frames` of a `reframe` calls has
`set_period = new_period` and takes the no-change branch: it returns 0 at once,
without a further call. -/
theorem reframe_no_zero_divisor :
    (∀ (tasks : Nat → Task_Entry) (dt : Dependency_Type)
        (callers : List (Option Task_Entry_Link)) (F : Nat),
      conjunctive_frame_size tasks dt callers 1 = .ok F → F ≠ 0) ∧
    (∀ dp sp : Nat, dp ≠ 0 → minimum_frame_size dp sp ≠ 0) ∧
    (∀ (rt_info : Nat → RT_Info) (pool : Dispatch_Pool) (owner : Nat)
        (set : List Dispatch_Entry_Link) (P Q : Nat), (P ≠ 0 → Q ≠ 0) →
      ∃ r : Frames_Result, ∀ fuel,
        (initial_proxy (shallow_copy rt_info set []) P Q 1 1).positions.length + 3 ≤ fuel →
        reframe rt_info fuel pool owner set P Q = some r) ∧
    (∀ (rt_info : Nat → RT_Info) (fuel : Nat) (pool : Dispatch_Pool) (owner : Nat)
        (set : List Dispatch_Entry_Link) (P : Nat), P ≠ 0 →
      reframe rt_info fuel pool owner set P 0 = none) ∧
    (∀ (rt_info : Nat → RT_Info) (pool : Dispatch_Pool) (owner : Nat)
        (set : List Dispatch_Entry_Link) (P Q : Nat), P ≠ 0 → P < Q → Q % P = 0 →
      minimum_frame_size Q P = Q ∧
        ∀ fuel, 1 ≤ fuel →
          reframe rt_info fuel pool owner set Q (minimum_frame_size Q P) =
            some { status := 0, pool := pool, set := set, period := Q }) := by
  refine ⟨?_, ?_, ?_, ?_, ?_⟩
  · intro tasks dt callers F h
    exact (conjunctive_frame_size_dvd tasks dt callers 1 F h (by decide)).1
  · intro dp sp h
    exact (minimum_frame_size_dvd_left dp sp h).1
  · intro rt_info pool owner set P Q hQ
    exact ⟨reframe_value rt_info pool owner set P Q,
      fun fuel hfuel => reframe_eq rt_info fuel pool owner set P Q hQ hfuel⟩
  · intro rt_info fuel pool owner set P hP
    cases fuel with
    | zero => rfl
    | succ f =>
      rw [reframe]
      simp [hP]
  · intro rt_info pool owner set P Q hP hlt hmod
    have hQ : Q ≠ 0 := by omega
    have hm := minimum_frame_size_of_dvd Q P hP hQ hmod
    refine ⟨hm, ?_⟩
    intro fuel hfuel
    rw [hm]
    exact reframe_unchanged rt_info fuel pool owner set Q Q hfuel
      (Or.inr ⟨hQ, le_refl _, Nat.mod_self _⟩)

/-- A concrete instance of `reframe_no_zero_divisor`: `reframe` of a set of period 2
with one dispatch to period 6 returns with fuel 5, and the `reframe` its
`merge_frames` calls, from period 6 to `minimum_frame_size (6, 2) = 6`,
returns 0 with fuel 1. -/
theorem reframe_no_zero_divisor_witness :
    (∃ r : Frames_Result, ∀ fuel,
        (initial_proxy (shallow_copy (fun _ => ⟨0, 0, 0, .OPERATION⟩) [link_of 0 1 5 50 0 0] [])
          2 6 1 1).positions.length + 3 ≤ fuel →
        reframe (fun _ => ⟨0, 0, 0, .OPERATION⟩) fuel ⟨[], 1⟩ 0 [link_of 0 1 5 50 0 0] 2 6 =
          some r) ∧
      (initial_proxy (shallow_copy (fun _ => ⟨0, 0, 0, .OPERATION⟩) [link_of 0 1 5 50 0 0] [])
        2 6 1 1).positions.length + 3 = 5 ∧
      reframe (fun _ => ⟨0, 0, 0, .OPERATION⟩) 1 ⟨[], 1⟩ 0 [link_of 0 1 5 50 0 0] 6
          (minimum_frame_size 6 2) =
        some { status := 0, pool := ⟨[], 1⟩, set := [link_of 0 1 5 50 0 0], period := 6 } :=
  ⟨reframe_no_zero_divisor.2.2.1 (fun _ => ⟨0, 0, 0, .OPERATION⟩) ⟨[], 1⟩ 0
      [link_of 0 1 5 50 0 0] 2 6 (fun _ => by decide),
    by decide,
    (reframe_no_zero_divisor.2.2.2.2 (fun _ => ⟨0, 0, 0, .OPERATION⟩) ⟨[], 1⟩ 0
      [link_of 0 1 5 50 0 0] 2 6 (by decide) (by decide) (by decide)).2 1 (le_refl _)⟩

/-! ## The state invariant of a proxy -/

end SchedEntry
